import Mathlib

/-!
# The synchronous data handler of the EMC test application

A shallow embedding of `apps/emc_testapp/src/app.c` (`initApp`, `processSync`,
`updateNodeOperationalState`) and the properties of its two LED state machines.

Conventions of the embedding:

* `UINT` values are natural numbers; every operation that can leave the 32-bit range
  is reduced modulo `2 ^ 32` where the source performs it.
* the `static int inCnt` is an integer; `inCnt++` wraps in two's complement and the
  comparison `inCnt == appCycle_l` converts it to `UINT` as C does.
* the calls into the openPOWERLINK stack are answered by an environment record, and
  every call made is written to a trace.
* a division by zero, a dereferenced null pointer and an index outside `nodeVar_l`
  end the run with an `AppFault`.
-/

namespace EmcTestApp

/-! ## Machine arithmetic -/

/-- Number of values of the C type `UINT` (32 bits). -/
abbrev UINT_RANGE : Nat := 4294967296

/-- Left shift of a `UINT` (`x <<= k`): the bits shifted out of the 32-bit word are lost. -/
def shlUINT (x k : Nat) : Nat := (x * 2 ^ k) % UINT_RANGE

/-- Right shift of a `UINT` (`x >>= k`). -/
def shrUINT (x k : Nat) : Nat := x / 2 ^ k

/-- The increment `x++` of a `UINT`. -/
def incUINT (x : Nat) : Nat := (x + 1) % UINT_RANGE

/-- Conversion of an `int` to `UINT`, as the usual arithmetic conversions do in
`inCnt == appCycle_l`. -/
def intToUINT (x : Int) : Nat := (x % 4294967296).toNat

/-- The increment `x++` of an `int`, wrapping in two's complement. -/
def incInt (x : Int) : Int := (x + 1 + 2147483648) % 4294967296 - 2147483648

/-! ## Constants of app.c (lines 59-68) -/

abbrev DEFAULT_MAX_CYCLE_COUNT : Nat := 50
abbrev APP_LED_COUNT_1 : Nat := 12
abbrev APP_LED_COUNT_HALF_1 : Nat := APP_LED_COUNT_1 / 2
abbrev APP_LED_MASK_1 : Nat := 1 <<< (APP_LED_COUNT_1 - 2)
abbrev APP_LED_MASK_2 : Nat := 1 <<< ((APP_LED_COUNT_1 / APP_LED_COUNT_HALF_1) - 1)
abbrev APP_LED_MASK_3 : Nat := 1 <<< (APP_LED_COUNT_1 - 1)
abbrev APP_LED_MASK_4 : Nat := 0x0A95
abbrev APP_LED_MASK_5 : Nat := 0x056A
abbrev MAX_NODES : Nat := 255
abbrev DATA_CYLE_DELAY : Nat := 1

/-- The sentinel-terminated list of node ids in use (`usedNodeIds_l`, line 117). -/
def usedNodeIds_l : List Nat := [1, 0]

/-! ## Types -/

/-- The phases of both LED state machines (`tLedState`, lines 105-112). -/
inductive tLedState
  | kLedUnknown
  | kLedAscending
  | kLedDescending
  | kLedSplitOne
  | kLedSplitTwo
  deriving DecidableEq

/-- Modelled from the spec: the NMT state enumeration `tNmtState` is declared in the
stack headers, which are not among the sources. The two enumerators app.c names are
kept apart from every other state; the code only compares with `kNmtCsOperational`. -/
inductive tNmtState
  | kNmtCsOperational
  | kNmtCsBasicEthernet
  | other (code : Nat)
  deriving DecidableEq

/-- Modelled from the spec: the error enumeration `tOplkError` is declared in the stack
headers, which are not among the sources. The two enumerators app.c names are kept
apart from every other error code. -/
inductive tOplkError
  | kErrorOk
  | kErrorApiInvalidParam
  | other (code : Nat)
  deriving DecidableEq

/-- The per-node record (`APP_NODE_VAR_T`, lines 89-102). The two phase fields are
declared `UINT` and only ever assigned enumerators of `tLedState`. -/
structure APP_NODE_VAR_T where
  outleds : Nat
  ledsOld : Nat
  input : Nat
  inleds : Nat
  inputOld : Nat
  period : Nat
  toggle : Int
  outLedState : tLedState
  inLedState : tLedState
  dataErrors : Nat
  nmtState : tNmtState
  deriving DecidableEq

/-- Modelled from the spec: `tErrorCounters` is declared in app.h, which is not among
the sources; the fields are the counters the sources use, each an unsigned 32-bit
tally. -/
structure tErrorCounters where
  dataError : Nat
  heartBeatError : Nat
  cycleError : Nat
  confError : Nat
  stackError : Nat
  nmtError : Nat
  nodeError : Nat
  deriving DecidableEq

/-- Modelled from the spec: `tCommInstance` is declared in app.h, which is not among
the sources; the fields are those the sources use. -/
structure tCommInstance where
  cycleLen : Nat
  appCycle : Nat
  errorCounter : tErrorCounters
  fCycleError : Bool
  fGsOff : Bool
  deriving DecidableEq

/-- Modelled from the spec: the outbound process image `PI_OUT` is declared in xap.h,
which is not among the sources; it carries the digital input channels of CN1 as one
unsigned bit-field. -/
structure PI_OUT where
  CN1_M00_DigitalInput_00h_AU12_DigitalInput : Nat
  deriving DecidableEq

/-- Modelled from the spec: the inbound process image `PI_IN` is declared in xap.h,
which is not among the sources; it carries the digital output channels of CN1. The
field holds the value assigned to it. -/
structure PI_IN where
  CN1_M00_DigitalOutput_00h_AU12_DigitalOutput : Nat
  deriving DecidableEq

/-- The variables of app.c: the global `cnt_g`, the module-local variables (lines
117-122), the function-static `inCnt` of `processSync` (line 210), and the objects the
three pointers refer to (`none` is the null pointer). -/
structure AppState where
  cnt_g : Nat
  nodeVar_l : Fin MAX_NODES → APP_NODE_VAR_T
  pProcessImageIn_l : Option PI_IN
  pProcessImageOut_l : Option PI_OUT
  appCycle_l : Nat
  pCommInstance_l : Option tCommInstance
  inCnt : Int

/-- Undefined behaviour the embedding makes explicit. -/
inductive AppFault
  | divisionByZero
  | nullPointer
  | indexOutOfRange
  deriving DecidableEq

/-- The calls app.c makes into the openPOWERLINK stack during a cycle. -/
inductive StackCall
  | oplk_waitSyncEvent (timeout : Nat)
  | oplk_exchangeProcessImageOut
  | oplk_exchangeProcessImageIn (image : PI_IN)
  deriving DecidableEq

/-- What the stack answers during one call of `processSync`: the result of the tick
wait, the result of the outbound exchange and the image it delivers, and the result of
the inbound exchange. -/
structure SyncEnv where
  waitSyncEvent : tOplkError
  exchangeProcessImageOut : tOplkError
  imageOut : PI_OUT
  exchangeProcessImageIn : tOplkError
  deriving DecidableEq

/-- What the stack answers during one call of `initApp`: the results of
`oplk_allocProcessImage` and `oplk_setupProcessImage` and the two image pointers. -/
structure InitEnv where
  allocProcessImage : tOplkError
  getProcessImageIn : Option PI_IN
  getProcessImageOut : Option PI_OUT
  setupProcessImage : tOplkError
  deriving DecidableEq

/-- Outcome of one call of `processSync`: the returned code, the variables afterwards
and the stack calls made, in order. -/
structure SyncResult where
  ret : tOplkError
  state : AppState
  calls : List StackCall

open tLedState tNmtState tOplkError

/-! ## The node loop -/

/-- The slots the loop header
`for (i = 0; (i < MAX_NODES) && (usedNodeIds_l[i] != 0); i++)` visits from index `i` on;
`fuel` bounds the number of iterations and `MAX_NODES` of it never runs out. -/
def slotsFrom : Nat → Nat → List (Fin MAX_NODES)
  | 0, _ => []
  | fuel + 1, i =>
    if h : i < MAX_NODES ∧ usedNodeIds_l.getD i 0 ≠ 0 then
      ⟨i, h.1⟩ :: slotsFrom fuel (i + 1)
    else
      []

/-- The slots visited by the node loops of `initApp` (line 155) and `processSync`
(line 224). -/
def activeSlots : List (Fin MAX_NODES) := slotsFrom MAX_NODES 0

/-- Replace the record of slot `i`. -/
def setNode (s : AppState) (i : Fin MAX_NODES) (n : APP_NODE_VAR_T) : AppState :=
  { s with nodeVar_l := Function.update s.nodeVar_l i n }

/-! ## initApp (lines 143-177) and initProcessImage (lines 469-489) -/

/-- The body of the initialisation loop (lines 157-166); `inleds` is not assigned. -/
def initNode (n : APP_NODE_VAR_T) : APP_NODE_VAR_T :=
  { n with
    outleds := 0
    ledsOld := 0
    input := 0
    inputOld := 0
    toggle := 0
    period := 0
    outLedState := kLedUnknown
    inLedState := kLedUnknown
    dataErrors := 0
    nmtState := kNmtCsBasicEthernet }

/-- Allocation and setup of the process image: a failed allocation returns at once and
leaves both image pointers as they were. -/
def initProcessImage (env : InitEnv) (s : AppState) : tOplkError × AppState :=
  if env.allocProcessImage ≠ kErrorOk then
    (env.allocProcessImage, s)
  else
    (env.setupProcessImage,
      { s with
        pProcessImageIn_l := env.getProcessImageIn
        pProcessImageOut_l := env.getProcessImageOut })

/-- Initialisation of the application. `cnt_g` is cleared before the null check; the
static `inCnt` of `processSync` is out of reach and keeps its value. -/
def initApp (env : InitEnv) (pCommInstance_p : Option tCommInstance) (s : AppState) :
    tOplkError × AppState :=
  let s0 := { s with cnt_g := 0 }
  match pCommInstance_p with
  | none => (kErrorApiInvalidParam, s0)
  | some c =>
    let s1 := { s0 with pCommInstance_l := some c }
    let s2 := activeSlots.foldl (fun t i => setNode t i (initNode (t.nodeVar_l i))) s1
    let s3 := { s2 with appCycle_l := if c.appCycle > 0 then c.appCycle else DATA_CYLE_DELAY }
    initProcessImage env s3

/-! ## processSync (lines 206-433) -/

/-- The mismatch branch, written out five times in the source (lines 244-252, 276-284,
309-317, 332-340, 355-363): when the counter equals the period a data error is counted
and the counter cleared, otherwise the counter is incremented. -/
def countMismatch (s : AppState) : Except AppFault AppState :=
  if intToUINT s.inCnt = s.appCycle_l then
    match s.pCommInstance_l with
    | none => .error AppFault.nullPointer
    | some c =>
      .ok { s with
            pCommInstance_l :=
              some { c with
                     errorCounter :=
                       { c.errorCounter with dataError := incUINT c.errorCounter.dataError } }
            inCnt := 0 }
  else
    .ok { s with inCnt := incInt s.inCnt }

/-- The input check of slot `i` (the `switch` of lines 230-367). -/
def inputVerifier (i : Fin MAX_NODES) (s : AppState) : Except AppFault AppState :=
  let n := s.nodeVar_l i
  match n.inLedState with
  | kLedUnknown =>
    let n1 := { n with inleds := 0x1 }
    if n1.input = n1.inleds then
      .ok { setNode s i { n1 with inleds := shlUINT n1.inleds 2, inLedState := kLedAscending }
            with inCnt := 0 }
    else
      countMismatch (setNode s i n1)
  | kLedAscending =>
    if n.input = APP_LED_MASK_1 then
      .ok { setNode s i { n with inleds := shlUINT n.inleds 1, inLedState := kLedDescending }
            with inCnt := 0 }
    else if n.input = n.inleds then
      .ok { setNode s i { n with inleds := shlUINT n.inleds 2 } with inCnt := 0 }
    else
      countMismatch s
  | kLedDescending =>
    if n.inleds = 0x02 ∧ n.input = 0x02 then
      .ok { setNode s i { n with inleds := APP_LED_MASK_4, inLedState := kLedSplitOne }
            with inCnt := 0 }
    else if n.input = n.inleds then
      .ok { setNode s i { n with inleds := shrUINT n.inleds 2 } with inCnt := 0 }
    else
      countMismatch s
  | kLedSplitOne =>
    if n.input = n.inleds then
      .ok { setNode s i { n with inleds := APP_LED_MASK_5, inLedState := kLedSplitTwo }
            with inCnt := 0 }
    else
      countMismatch s
  | kLedSplitTwo =>
    if n.input = n.inleds then
      .ok { setNode s i { n with inLedState := kLedUnknown } with inCnt := 0 }
    else
      countMismatch s

/-- One advance of the running light of a node (the `switch` of lines 374-414). -/
def outputSequencer (n : APP_NODE_VAR_T) : APP_NODE_VAR_T :=
  match n.outLedState with
  | kLedUnknown => { n with outleds := 0x1, outLedState := kLedAscending }
  | kLedAscending =>
    if n.outleds = APP_LED_MASK_1 then
      { n with outleds := shlUINT n.outleds 1, outLedState := kLedDescending }
    else
      { n with outleds := shlUINT n.outleds 2 }
  | kLedDescending =>
    let n1 := { n with outleds := shrUINT n.outleds 2 }
    if n1.outleds = 0x02 then { n1 with outLedState := kLedSplitOne } else n1
  | kLedSplitOne => { n with outleds := APP_LED_MASK_4, outLedState := kLedSplitTwo }
  | kLedSplitTwo => { n with outleds := APP_LED_MASK_5, outLedState := kLedUnknown }

/-- The refresh of the previous input and output values (lines 417-425). -/
def refreshOld (n : APP_NODE_VAR_T) : APP_NODE_VAR_T :=
  let n1 := if n.input ≠ n.inputOld then { n with inputOld := n.input } else n
  if n1.outleds ≠ n1.ledsOld then { n1 with ledsOld := n1.outleds } else n1

/-- The running light of slot `i` and the bookkeeping after it (lines 369-425): the
period is copied from `appCycle_l`, the light advances when `cnt_g % period == 0`, and
the previous input and output values are refreshed. -/
def runningLeds (s : AppState) (i : Fin MAX_NODES) : Except AppFault AppState :=
  let n1 := { s.nodeVar_l i with period := s.appCycle_l }
  if n1.period = 0 then
    .error AppFault.divisionByZero
  else
    let n2 := if s.cnt_g % n1.period = 0 then outputSequencer n1 else n1
    .ok (setNode s i (refreshOld n2))

/-- The body of the node loop for slot `i` (lines 226-425). A node that is not
operational is skipped by `continue`, before the input check and the running light. -/
def nodeBody (s : AppState) (i : Fin MAX_NODES) : Except AppFault AppState :=
  if (s.nodeVar_l i).nmtState ≠ kNmtCsOperational then
    .ok s
  else
    match inputVerifier i s with
    | .error f => .error f
    | .ok s1 => runningLeds s1 i

/-- The node loop (lines 224-426): the body is run for each active slot in order and a
fault ends it. -/
def nodeLoop : List (Fin MAX_NODES) → AppState → Except AppFault AppState
  | [], s => .ok s
  | i :: rest, s =>
    match nodeBody s i with
    | .error f => .error f
    | .ok s1 => nodeLoop rest s1

/-- Lines 220-222, after a successful outbound exchange has refreshed the image behind
`pProcessImageOut_l`: the cycle counter is incremented and the input of slot 0 is read
from the image. -/
def readInput (env : SyncEnv) (s : AppState) : Except AppFault AppState :=
  let s1 := { s with cnt_g := incUINT s.cnt_g }
  match s1.pProcessImageOut_l with
  | none => .error AppFault.nullPointer
  | some _ =>
    let s2 := { s1 with pProcessImageOut_l := some env.imageOut }
    .ok (setNode s2 0
      { s2.nodeVar_l 0 with input := env.imageOut.CN1_M00_DigitalInput_00h_AU12_DigitalInput })

/-- Line 428: the output of slot 0 is written to the image behind `pProcessImageIn_l`;
the image written is returned with the state. -/
def writeOutput (s : AppState) : Except AppFault (AppState × PI_IN) :=
  match s.pProcessImageIn_l with
  | none => .error AppFault.nullPointer
  | some img =>
    let img1 : PI_IN :=
      { img with CN1_M00_DigitalOutput_00h_AU12_DigitalOutput := (s.nodeVar_l 0).outleds }
    .ok ({ s with pProcessImageIn_l := some img1 }, img1)

/-- The synchronous data handler. A failed tick wait or a failed outbound exchange
returns at once. Otherwise the cycle counter is incremented, the input of slot 0 is
read, the node loop runs, the output of slot 0 is written to the inbound image and the
result of the inbound exchange is returned. -/
def processSync (env : SyncEnv) (s : AppState) : Except AppFault SyncResult :=
  if env.waitSyncEvent ≠ kErrorOk then
    .ok ⟨env.waitSyncEvent, s, [StackCall.oplk_waitSyncEvent 100000]⟩
  else if env.exchangeProcessImageOut ≠ kErrorOk then
    .ok ⟨env.exchangeProcessImageOut, s,
      [StackCall.oplk_waitSyncEvent 100000, StackCall.oplk_exchangeProcessImageOut]⟩
  else
    match readInput env s with
    | .error f => .error f
    | .ok s1 =>
      match nodeLoop activeSlots s1 with
      | .error f => .error f
      | .ok s2 =>
        match writeOutput s2 with
        | .error f => .error f
        | .ok (s3, img) =>
          .ok ⟨env.exchangeProcessImageIn, s3,
            [StackCall.oplk_waitSyncEvent 100000, StackCall.oplk_exchangeProcessImageOut,
             StackCall.oplk_exchangeProcessImageIn img]⟩

/-! ## updateNodeOperationalState (lines 449-452) -/

/-- Store the NMT state of node `nodeId_p` in slot `nodeId_p - 1`; the subtraction is
unsigned, so node id 0 indexes outside the table, as does every id above `MAX_NODES`. -/
def updateNodeOperationalState (nodeId_p : Nat) (nmtState_p : tNmtState) (s : AppState) :
    Except AppFault AppState :=
  if h : 1 ≤ nodeId_p ∧ nodeId_p - 1 < MAX_NODES then
    let i : Fin MAX_NODES := ⟨nodeId_p - 1, h.2⟩
    .ok (setNode s i { s.nodeVar_l i with nmtState := nmtState_p })
  else
    .error AppFault.indexOutOfRange

/-! ## Runs of cycles -/

/-- Successive calls of `processSync`, one per environment record, each starting from
the variables the previous call left; the returned codes are dropped, as the main loop
drops them. A fault ends the run. -/
def runSync : List SyncEnv → AppState → Except AppFault AppState
  | [], s => .ok s
  | e :: es, s =>
    match processSync e s with
    | .error f => .error f
    | .ok r => runSync es r.state

/-- What can happen to the variables after initialisation: a cycle of `processSync`, or
a change of the NMT state of a node reported to `updateNodeOperationalState`. -/
inductive AppStep
  | sync (env : SyncEnv)
  | nmtChange (nodeId : Nat) (nmtState : tNmtState)

/-- The effect of one step on the variables. -/
def step (a : AppStep) (s : AppState) : Except AppFault AppState :=
  match a with
  | AppStep.sync env =>
    match processSync env s with
    | .error f => .error f
    | .ok r => .ok r.state
  | AppStep.nmtChange nodeId st => updateNodeOperationalState nodeId st s

/-- A sequence of steps, ended by the first fault. -/
def run : List AppStep → AppState → Except AppFault AppState
  | [], s => .ok s
  | a :: rest, s =>
    match step a s with
    | .error f => .error f
    | .ok s1 => run rest s1

/-! ## Vocabulary of the properties -/

/-- The input a cycle presents to the input check: the digital input word of the image
the outbound exchange delivers. -/
def presented (e : SyncEnv) : Nat := e.imageOut.CN1_M00_DigitalInput_00h_AU12_DigitalInput

/-- The tick wait and the outbound exchange of the cycle both succeed, so the presented
input reaches the node loop. -/
def observes (e : SyncEnv) : Bool :=
  decide (e.waitSyncEvent = kErrorOk) && decide (e.exchangeProcessImageOut = kErrorOk)

/-- The input `x` is a mismatch for a node: in its current input phase the `switch` of
lines 230-367 takes the final `else` branch, the one that counts towards a data error. -/
def mismatches (n : APP_NODE_VAR_T) (x : Nat) : Bool :=
  match n.inLedState with
  | kLedUnknown => decide (x ≠ 0x1)
  | kLedAscending => decide (x ≠ APP_LED_MASK_1) && decide (x ≠ n.inleds)
  | kLedDescending => !(decide (n.inleds = 0x02) && decide (x = 0x02)) && decide (x ≠ n.inleds)
  | kLedSplitOne => decide (x ≠ n.inleds)
  | kLedSplitTwo => decide (x ≠ n.inleds)

/-- For each cycle of a run, whether the presented input is a mismatch for slot 0 in
the state the cycle starts from. -/
def mismatchTrace : List SyncEnv → AppState → List Bool
  | [], _ => []
  | e :: es, s =>
    mismatches (s.nodeVar_l 0) (presented e) ::
      (match processSync e s with
       | .error _ => []
       | .ok r => mismatchTrace es r.state)

/-- The data-error counter of the instance `pCommInstance_l` points to. -/
def dataError (s : AppState) : Option Nat :=
  s.pCommInstance_l.map (fun c => c.errorCounter.dataError)

/-- The state is initialised far enough for a cycle to run: the three pointers are set
and the period is a non-zero `UINT`. -/
def Ready (s : AppState) : Prop :=
  s.pProcessImageIn_l.isSome = true ∧ s.pProcessImageOut_l.isSome = true ∧
    s.pCommInstance_l.isSome = true ∧ 0 < s.appCycle_l ∧ s.appCycle_l < UINT_RANGE

instance (s : AppState) : Decidable (Ready s) := by
  unfold Ready; infer_instance

/-- The record `runningLeds` leaves in slot `i` when the period is not zero. -/
def litNode (s : AppState) (i : Fin MAX_NODES) : APP_NODE_VAR_T :=
  refreshOld
    (if s.cnt_g % s.appCycle_l = 0 then
      outputSequencer { s.nodeVar_l i with period := s.appCycle_l }
    else { s.nodeVar_l i with period := s.appCycle_l })

/-- Two node records agree on what the input check reads and writes and on the NMT
state. -/
def SameCheck (a b : APP_NODE_VAR_T) : Prop :=
  a.inLedState = b.inLedState ∧ a.inleds = b.inleds ∧ a.nmtState = b.nmtState ∧
    a.input = b.input

/-- The output pattern and output phase of a node record, the two fields the running
light reads and writes. -/
def outView (n : APP_NODE_VAR_T) : Nat × tLedState := (n.outleds, n.outLedState)

/-! ## Sample states and environments -/

/-- A node record as `initApp` leaves it, already reported operational. -/
def sampleNode : APP_NODE_VAR_T :=
  { outleds := 0, ledsOld := 0, input := 0, inleds := 0, inputOld := 0, period := 0,
    toggle := 0, outLedState := kLedUnknown, inLedState := kLedUnknown, dataErrors := 0,
    nmtState := kNmtCsOperational }

/-- A communication instance with application cycle `p` and cleared counters. -/
def sampleInstance (p : Nat) : tCommInstance :=
  { cycleLen := 0, appCycle := p,
    errorCounter :=
      { dataError := 0, heartBeatError := 0, cycleError := 0, confError := 0,
        stackError := 0, nmtError := 0, nodeError := 0 },
    fCycleError := false, fGsOff := false }

/-- The variables after initialisation with period `p`, node 1 operational. -/
def sampleState (p : Nat) : AppState :=
  { cnt_g := 0, nodeVar_l := fun _ => sampleNode, pProcessImageIn_l := some ⟨0⟩,
    pProcessImageOut_l := some ⟨0⟩, appCycle_l := p,
    pCommInstance_l := some (sampleInstance p), inCnt := 0 }

/-- A cycle in which every stack call succeeds and the input word is `x`. -/
def okEnv (x : Nat) : SyncEnv :=
  { waitSyncEvent := kErrorOk, exchangeProcessImageOut := kErrorOk, imageOut := ⟨x⟩,
    exchangeProcessImageIn := kErrorOk }

/-- A cycle whose outbound exchange fails with error code 5. -/
def outFailEnv : SyncEnv :=
  { waitSyncEvent := kErrorOk, exchangeProcessImageOut := tOplkError.other 5,
    imageOut := ⟨1⟩, exchangeProcessImageIn := kErrorOk }

/-- A cycle whose inbound exchange fails with error code 7. -/
def inFailEnv : SyncEnv :=
  { waitSyncEvent := kErrorOk, exchangeProcessImageOut := kErrorOk, imageOut := ⟨1⟩,
    exchangeProcessImageIn := tOplkError.other 7 }

/-- An initialisation in which the stack allocates and sets up the process image. -/
def okInitEnv : InitEnv :=
  { allocProcessImage := kErrorOk, getProcessImageIn := some ⟨0⟩,
    getProcessImageOut := some ⟨0⟩, setupProcessImage := kErrorOk }

/-- An outcome keeps the period `p`: a resulting state has `appCycle_l = p`, and a fault
is not a division by zero unless `p` is zero. -/
def KeepsPeriod (p : Nat) (x : Except AppFault AppState) : Prop :=
  match x with
  | .error f => 0 < p → f ≠ AppFault.divisionByZero
  | .ok t => t.appCycle_l = p

/-- The variables after lines 220-222 of an observed cycle: the cycle counter is
incremented, the outbound image is the one the exchange delivered and the input of
slot 0 is the presented input. -/
def afterRead (e : SyncEnv) (s : AppState) : AppState :=
  setNode { s with cnt_g := incUINT s.cnt_g, pProcessImageOut_l := some e.imageOut } 0
    { s.nodeVar_l 0 with input := presented e }

/-- The variables after initialisation with period `p`, node 1 not yet operational. -/
def idleState (p : Nat) : AppState :=
  setNode (sampleState p) 0 { sampleNode with nmtState := kNmtCsBasicEthernet }

/-- The variables when the program starts: C initialises every static object to zero,
so the counters are 0, the pointers are null, every node record is all zero (phase
`kLedUnknown`, NMT state code 0) and the static `inCnt` of `processSync` is 0. -/
def programStart : AppState :=
  { cnt_g := 0
    nodeVar_l := fun _ =>
      { outleds := 0, ledsOld := 0, input := 0, inleds := 0, inputOld := 0, period := 0,
        toggle := 0, outLedState := kLedUnknown, inLedState := kLedUnknown, dataErrors := 0,
        nmtState := tNmtState.other 0 }
    pProcessImageIn_l := none
    pProcessImageOut_l := none
    appCycle_l := 0
    pCommInstance_l := none
    inCnt := 0 }

/-- The output patterns the running light can hold in each output phase. -/
def outOk (n : APP_NODE_VAR_T) : Prop :=
  match n.outLedState with
  | kLedUnknown => n.outleds < 4096
  | kLedAscending =>
    n.outleds = 1 ∨ n.outleds = 4 ∨ n.outleds = 16 ∨ n.outleds = 64 ∨ n.outleds = 256 ∨
      n.outleds = 1024
  | kLedDescending =>
    n.outleds = 2048 ∨ n.outleds = 512 ∨ n.outleds = 128 ∨ n.outleds = 32 ∨ n.outleds = 8
  | kLedSplitOne => n.outleds = 2
  | kLedSplitTwo => n.outleds = 0xA95

/-- The expected patterns the input check can hold in each input phase. -/
def inOk (n : APP_NODE_VAR_T) : Prop :=
  match n.inLedState with
  | kLedUnknown => n.inleds < 4096
  | kLedAscending =>
    n.inleds = 4 ∨ n.inleds = 16 ∨ n.inleds = 64 ∨ n.inleds = 256 ∨ n.inleds = 1024
  | kLedDescending =>
    n.inleds = 2048 ∨ n.inleds = 512 ∨ n.inleds = 128 ∨ n.inleds = 32 ∨ n.inleds = 8 ∨
      n.inleds = 2
  | kLedSplitOne => n.inleds = 0xA95
  | kLedSplitTwo => n.inleds = 0x56A

/-- A short session after initialisation: node 1 becomes operational, then three cycles
present 0x001, 0x004 and the turn pattern 0x400. -/
def sampleSteps : List AppStep :=
  [AppStep.nmtChange 1 kNmtCsOperational, AppStep.sync (okEnv 0x001),
   AppStep.sync (okEnv 0x004), AppStep.sync (okEnv 0x400)]

/-- The sample state with period `p` and tolerance counter `k`. -/
def tolerantState (p : Nat) (k : Int) : AppState :=
  { sampleState p with inCnt := k }

/-- The sample state with period `p`, input phase `ph`, expected pattern `il` and
tolerance counter 1. -/
def phaseState (p : Nat) (ph : tLedState) (il : Nat) : AppState :=
  setNode (tolerantState p 1) 0 { sampleNode with inLedState := ph, inleds := il }

/-- The 14 patterns of one pass of the running light, in the order it produces them. -/
def outputPatterns : List Nat :=
  [0x001, 0x004, 0x010, 0x040, 0x100, 0x400, 0x800, 0x200, 0x080, 0x020, 0x008, 0x002,
   0xA95, 0x56A]

/-- The input sequence in which each pattern of `xs` is held for `p` consecutive
cycles. -/
def held (p : Nat) : List Nat → List Nat
  | [] => []
  | x :: xs => List.replicate p x ++ held p xs

/-- The input sequence of `reps` passes of the running light, each pattern held for `p`
cycles. -/
def passes (p : Nat) : Nat → List Nat
  | 0 => []
  | reps + 1 => held p outputPatterns ++ passes p reps

/-- The value of the data-error counter after each cycle of a run. -/
def errorTrace : List SyncEnv → AppState → List (Option Nat)
  | [], _ => []
  | e :: es, s =>
    match processSync e s with
    | .error _ => []
    | .ok r => dataError r.state :: errorTrace es r.state

/-- The transition the `switch` of lines 230-367 makes on an input `x` that is not a
mismatch, as a function of the input phase `ph` and the expected pattern `il`: the new
phase and expected pattern, or `none` when `x` is a mismatch. `checkStep_sound` relates
it to `inputVerifier`. -/
def expectAfter (ph : tLedState) (il x : Nat) : Option (tLedState × Nat) :=
  match ph with
  | kLedUnknown => if x = 0x1 then some (kLedAscending, shlUINT 0x1 2) else none
  | kLedAscending =>
    if x = APP_LED_MASK_1 then some (kLedDescending, shlUINT il 1)
    else if x = il then some (kLedAscending, shlUINT il 2)
    else none
  | kLedDescending =>
    if il = 0x02 ∧ x = 0x02 then some (kLedSplitOne, APP_LED_MASK_4)
    else if x = il then some (kLedDescending, shrUINT il 2)
    else none
  | kLedSplitOne => if x = il then some (kLedSplitTwo, APP_LED_MASK_5) else none
  | kLedSplitTwo => if x = il then some (kLedUnknown, il) else none

/-- A node record with input phase `ph` and expected pattern `il`. -/
def checkNode (ph : tLedState) (il : Nat) : APP_NODE_VAR_T :=
  { sampleNode with inLedState := ph, inleds := il }

/-- The input check follows the held patterns `xs` from phase `ph` and expected pattern
`il`: each pattern is accepted when it first appears and is a mismatch while it is
held. The result is the phase and expected pattern after the last pattern. -/
def tracksHeld : tLedState → Nat → List Nat → Option (tLedState × Nat)
  | ph, il, [] => some (ph, il)
  | ph, il, x :: xs =>
    match expectAfter ph il x with
    | none => none
    | some (ph1, il1) => if mismatches (checkNode ph1 il1) x then tracksHeld ph1 il1 xs else none

/-- The input phase of slot 0 is `ph` and, unless that is Unknown (which ignores the
expected pattern), its expected pattern is `il`. -/
def Expects (s : AppState) (ph : tLedState) (il : Nat) : Prop :=
  (s.nodeVar_l 0).inLedState = ph ∧ (ph = kLedUnknown ∨ (s.nodeVar_l 0).inleds = il)

/-! ## omethPhyCfgUser (omethlib_phycfg.c, lines 98-121) -/

/-- Address of the PHY control register (line 68). -/
abbrev PHYCFG_DP8384_PHYCR_REGADDR : Nat := 0x19

/-- The bit LED_CNFG[0] of the PHY control register (line 69). -/
abbrev PHYCFG_DP8384_PHYCR_LED_CNFG0 : Nat := 1 <<< 5

/-- Number of values of the C type `unsigned short` (16 bits). -/
abbrev USHORT_RANGE : Nat := 65536

/-- What the OpenMAC driver answers to the register accesses of `omethPhyCfgUser`:
`omethPhyRead` gives a return code and the data it stores through the pointer, and
`omethPhyWrite` gives a return code; both are asked with the PHY index and the register
number, the write also with the data. -/
structure PhyEnv where
  omethPhyRead : Nat → Nat → Int × Nat
  omethPhyWrite : Nat → Nat → Nat → Int

/-- A register access made by `omethPhyCfgUser`. -/
inductive PhyAccess
  | read (phy reg : Nat)
  | write (phy reg data : Nat)
  deriving DecidableEq

/-- The value of `regData` after `regData |= PHYCFG_DP8384_PHYCR_LED_CNFG0` (line 114),
for the `unsigned short` that `omethPhyRead` stored for PHY `i`. -/
def regWritten (env : PhyEnv) (i : Nat) : Nat :=
  (((env.omethPhyRead i PHYCFG_DP8384_PHYCR_REGADDR).2 % USHORT_RANGE) |||
    PHYCFG_DP8384_PHYCR_LED_CNFG0) % USHORT_RANGE

/-- The loop of lines 105-118 from PHY index `i` on, with `k` PHYs left
(`i + k = phyCount`): the returned code and the register accesses made, in order. A
non-zero code of a read or a write is returned at once. -/
def phyCfgFrom (env : PhyEnv) : Nat → Nat → Int × List PhyAccess
  | 0, _ => (0, [])
  | k + 1, i =>
    let regNumber := PHYCFG_DP8384_PHYCR_REGADDR
    let ret := (env.omethPhyRead i regNumber).1
    if ret ≠ 0 then
      (ret, [PhyAccess.read i regNumber])
    else
      let regData := regWritten env i
      let ret := env.omethPhyWrite i regNumber regData
      if ret ≠ 0 then
        (ret, [PhyAccess.read i regNumber, PhyAccess.write i regNumber regData])
      else
        let rest := phyCfgFrom env k (i + 1)
        (rest.1, PhyAccess.read i regNumber :: PhyAccess.write i regNumber regData :: rest.2)

/-- The PHY configuration callback for a driver instance with `phyCount` PHYs. -/
def omethPhyCfgUser (env : PhyEnv) (phyCount : Nat) : Int × List PhyAccess :=
  phyCfgFrom env phyCount 0

/-- The accesses of a pass over `k` PHYs from index `i` on in which every access
succeeds: for each PHY in ascending order the read of register 0x19 and the write of
what was read with LED_CNFG[0] set. -/
def fullAccesses (env : PhyEnv) : Nat → Nat → List PhyAccess
  | 0, _ => []
  | k + 1, i =>
    PhyAccess.read i PHYCFG_DP8384_PHYCR_REGADDR ::
      PhyAccess.write i PHYCFG_DP8384_PHYCR_REGADDR (regWritten env i) ::
      fullAccesses env k (i + 1)

/-- Both accesses of PHY `i` succeed. -/
def phyOk (env : PhyEnv) (i : Nat) : Prop :=
  (env.omethPhyRead i PHYCFG_DP8384_PHYCR_REGADDR).1 = 0 ∧
    env.omethPhyWrite i PHYCFG_DP8384_PHYCR_REGADDR (regWritten env i) = 0

/-- A driver in which PHY 0 and PHY 1 answer, with control register contents 0x8001
and 0x0020, the read of PHY 2 fails with code -1 and every write succeeds. -/
def samplePhyEnv : PhyEnv :=
  { omethPhyRead := fun i _ =>
      if i = 0 then (0, 0x8001) else if i = 1 then (0, 0x0020) else (-1, 0)
    omethPhyWrite := fun _ _ _ => 0 }

/-! ## Basic facts -/

theorem activeSlots_eq : activeSlots = [0] := by decide

theorem intToUINT_incInt (x : Int) : intToUINT (incInt x) = (intToUINT x + 1) % 4294967296 := by
  unfold intToUINT incInt
  omega

theorem intToUINT_zero : intToUINT 0 = 0 := by decide

@[simp]
theorem setNode_same (s : AppState) (i : Fin MAX_NODES) (n : APP_NODE_VAR_T) :
    (setNode s i n).nodeVar_l i = n := by
  simp [setNode]

theorem setNode_other (s : AppState) (i j : Fin MAX_NODES) (n : APP_NODE_VAR_T) (h : j ≠ i) :
    (setNode s i n).nodeVar_l j = s.nodeVar_l j := by
  simp [setNode, Function.update_noteq h]

@[simp]
theorem setNode_cnt (s : AppState) (i : Fin MAX_NODES) (n : APP_NODE_VAR_T) :
    (setNode s i n).cnt_g = s.cnt_g := rfl
@[simp]
theorem setNode_pIn (s : AppState) (i : Fin MAX_NODES) (n : APP_NODE_VAR_T) :
    (setNode s i n).pProcessImageIn_l = s.pProcessImageIn_l := rfl
@[simp]
theorem setNode_pOut (s : AppState) (i : Fin MAX_NODES) (n : APP_NODE_VAR_T) :
    (setNode s i n).pProcessImageOut_l = s.pProcessImageOut_l := rfl
@[simp]
theorem setNode_appCycle (s : AppState) (i : Fin MAX_NODES) (n : APP_NODE_VAR_T) :
    (setNode s i n).appCycle_l = s.appCycle_l := rfl
@[simp]
theorem setNode_pComm (s : AppState) (i : Fin MAX_NODES) (n : APP_NODE_VAR_T) :
    (setNode s i n).pCommInstance_l = s.pCommInstance_l := rfl
@[simp]
theorem setNode_inCnt (s : AppState) (i : Fin MAX_NODES) (n : APP_NODE_VAR_T) :
    (setNode s i n).inCnt = s.inCnt := rfl

theorem outputSequencer_sameCheck (n : APP_NODE_VAR_T) : SameCheck (outputSequencer n) n := by
  unfold outputSequencer SameCheck
  rcases h : n.outLedState <;> simp <;> split <;> simp

theorem refreshOld_sameCheck (n : APP_NODE_VAR_T) : SameCheck (refreshOld n) n := by
  unfold refreshOld SameCheck
  simp only []
  split <;> split <;> simp

theorem countMismatch_ok (s : AppState) (c : tCommInstance) (hC : s.pCommInstance_l = some c) :
    countMismatch s = .ok
      { s with
        pCommInstance_l := if intToUINT s.inCnt = s.appCycle_l then
            some { c with errorCounter :=
                     { c.errorCounter with dataError := incUINT c.errorCounter.dataError } }
          else some c
        inCnt := if intToUINT s.inCnt = s.appCycle_l then 0 else incInt s.inCnt } := by
  unfold countMismatch
  by_cases h : intToUINT s.inCnt = s.appCycle_l
  · simp [h, hC]
  · simp [h, ← hC]

theorem mismatches_congr (a b : APP_NODE_VAR_T) (h1 : a.inLedState = b.inLedState)
    (h2 : a.inLedState ≠ kLedUnknown → a.inleds = b.inleds) (y : Nat) :
    mismatches a y = mismatches b y := by
  unfold mismatches
  rw [← h1]
  rcases h : a.inLedState <;> simp [h] at h2 ⊢ <;> simp [h2]

/-- On a mismatch the input check of slot `i` is the mismatch branch, run on a state
that differs at most in the expected pattern of a node in phase Unknown. -/
theorem inputVerifier_mismatch (i : Fin MAX_NODES) (s : AppState)
    (hM : mismatches (s.nodeVar_l i) (s.nodeVar_l i).input = true) :
    ∃ n1, inputVerifier i s = countMismatch (setNode s i n1) ∧
      n1.inLedState = (s.nodeVar_l i).inLedState ∧ n1.nmtState = (s.nodeVar_l i).nmtState ∧
      n1.input = (s.nodeVar_l i).input ∧ n1.outleds = (s.nodeVar_l i).outleds ∧
      n1.outLedState = (s.nodeVar_l i).outLedState ∧
      (∀ y, mismatches n1 y = mismatches (s.nodeVar_l i) y) := by
  have hself : setNode s i (s.nodeVar_l i) = s := by simp [setNode]
  unfold mismatches at hM
  rcases hph : (s.nodeVar_l i).inLedState <;> simp only [hph] at hM
  · refine ⟨{ s.nodeVar_l i with inleds := 0x1 }, ?_, hph, rfl, rfl, rfl, rfl, ?_⟩
    · unfold inputVerifier
      simp at hM
      simp [hM, hph]
    · intro y
      exact mismatches_congr { s.nodeVar_l i with inleds := 0x1 } (s.nodeVar_l i) rfl
        (fun h => absurd hph h) y
  all_goals
    refine ⟨s.nodeVar_l i, ?_, hph, rfl, rfl, rfl, rfl, fun _ => rfl⟩
    unfold inputVerifier
    simp at hM
    simp [hM, hself, hph]
    try omega

theorem observes_iff (e : SyncEnv) :
    observes e = true ↔ e.waitSyncEvent = kErrorOk ∧ e.exchangeProcessImageOut = kErrorOk := by
  simp [observes]

theorem readInput_ok (e : SyncEnv) (s : AppState) (h : s.pProcessImageOut_l.isSome = true) :
    ∃ s1, readInput e s = .ok s1 ∧ s1.cnt_g = incUINT s.cnt_g ∧
      s1.pProcessImageIn_l = s.pProcessImageIn_l ∧ s1.pProcessImageOut_l = some e.imageOut ∧
      s1.appCycle_l = s.appCycle_l ∧ s1.pCommInstance_l = s.pCommInstance_l ∧
      s1.inCnt = s.inCnt ∧ s1.nodeVar_l 0 = { s.nodeVar_l 0 with input := presented e } ∧
      ∀ j, j ≠ 0 → s1.nodeVar_l j = s.nodeVar_l j := by
  obtain ⟨o, ho⟩ := Option.isSome_iff_exists.mp h
  refine ⟨setNode { s with cnt_g := incUINT s.cnt_g, pProcessImageOut_l := some e.imageOut } 0
      { s.nodeVar_l 0 with input := presented e }, ?_, rfl, rfl, rfl, rfl, rfl, rfl, ?_, ?_⟩
  · simp [readInput, ho, presented]
  · simp
  · intro j hj
    exact setNode_other _ _ _ _ hj

theorem litNode_sameCheck (s : AppState) (i : Fin MAX_NODES) :
    SameCheck (litNode s i) (s.nodeVar_l i) := by
  have h1 := refreshOld_sameCheck
    (if s.cnt_g % s.appCycle_l = 0 then
      outputSequencer { s.nodeVar_l i with period := s.appCycle_l }
    else { s.nodeVar_l i with period := s.appCycle_l })
  have h2 := outputSequencer_sameCheck { s.nodeVar_l i with period := s.appCycle_l }
  unfold litNode
  unfold SameCheck at *
  split at h1 <;> simp_all

theorem runningLeds_ok (s : AppState) (i : Fin MAX_NODES) (hper : s.appCycle_l ≠ 0) :
    runningLeds s i = .ok (setNode s i (litNode s i)) := by
  unfold runningLeds litNode
  simp only [hper, if_false]

/-- An observed cycle on an operational slot 0, given the outcome `v` of the input
check: the cycle succeeds, returns the result of the inbound exchange, and leaves the
state `v` with the running light applied to slot 0 and the output written. -/
theorem cycle_of_verifier (e : SyncEnv) (s s1 v : AppState) (hobs : observes e = true)
    (h1 : readInput e s = .ok s1) (hop : (s1.nodeVar_l 0).nmtState = kNmtCsOperational)
    (hv : inputVerifier 0 s1 = .ok v) (hper : v.appCycle_l ≠ 0)
    (hIn : v.pProcessImageIn_l.isSome = true) :
    processSync e s = .ok ⟨e.exchangeProcessImageIn,
      { (setNode v 0 (litNode v 0)) with pProcessImageIn_l := some ⟨(litNode v 0).outleds⟩ },
      [StackCall.oplk_waitSyncEvent 100000, StackCall.oplk_exchangeProcessImageOut,
        StackCall.oplk_exchangeProcessImageIn ⟨(litNode v 0).outleds⟩]⟩ := by
  have hn := runningLeds_ok v 0 hper
  obtain ⟨img, himg⟩ := Option.isSome_iff_exists.mp hIn
  have hw : (observes e = true) := hobs
  rw [observes_iff] at hw
  simp [processSync, hw.1, hw.2, h1, activeSlots_eq, nodeLoop, nodeBody, hop, hv, hn,
      writeOutput, himg]

/-- On an input that is not a mismatch the input check succeeds, clears the tolerance
counter and leaves the error counters alone. -/
theorem inputVerifier_match (i : Fin MAX_NODES) (s : AppState)
    (hM : mismatches (s.nodeVar_l i) (s.nodeVar_l i).input = false) :
    ∃ v, inputVerifier i s = .ok v ∧ v.inCnt = 0 ∧ v.pCommInstance_l = s.pCommInstance_l ∧
      v.appCycle_l = s.appCycle_l ∧ v.pProcessImageIn_l = s.pProcessImageIn_l ∧
      v.pProcessImageOut_l = s.pProcessImageOut_l ∧ v.cnt_g = s.cnt_g ∧
      (v.nodeVar_l i).nmtState = (s.nodeVar_l i).nmtState := by
  unfold mismatches at hM
  unfold inputVerifier
  rcases hph : (s.nodeVar_l i).inLedState <;> simp only [hph] at hM ⊢ <;> simp at hM
  · rw [if_pos (by simpa using hM)]
    exact ⟨_, rfl, rfl, rfl, rfl, rfl, rfl, rfl, by simp⟩
  · split_ifs with h1 h2
    · exact ⟨_, rfl, rfl, rfl, rfl, rfl, rfl, rfl, by simp⟩
    · exact ⟨_, rfl, rfl, rfl, rfl, rfl, rfl, rfl, by simp⟩
    · exact absurd (hM (by simpa using h1)) h2
  · split_ifs with h1 h2
    · exact ⟨_, rfl, rfl, rfl, rfl, rfl, rfl, rfl, by simp⟩
    · exact ⟨_, rfl, rfl, rfl, rfl, rfl, rfl, rfl, by simp⟩
    · exact absurd (hM (by tauto)) h2
  · rw [if_pos hM]
    exact ⟨_, rfl, rfl, rfl, rfl, rfl, rfl, rfl, by simp⟩
  · rw [if_pos hM]
    exact ⟨_, rfl, rfl, rfl, rfl, rfl, rfl, rfl, by simp⟩

/-- One observed cycle whose input is a mismatch for the operational slot 0. -/
theorem processSync_mismatch (e : SyncEnv) (s : AppState) (hobs : observes e = true)
    (hR : Ready s) (hOp : (s.nodeVar_l 0).nmtState = kNmtCsOperational)
    (hM : mismatches (s.nodeVar_l 0) (presented e) = true) :
    ∃ r, processSync e s = .ok r ∧ Ready r.state ∧ r.state.appCycle_l = s.appCycle_l ∧
      (r.state.nodeVar_l 0).nmtState = kNmtCsOperational ∧
      (r.state.nodeVar_l 0).inLedState = (s.nodeVar_l 0).inLedState ∧
      (∀ y, mismatches (r.state.nodeVar_l 0) y = mismatches (s.nodeVar_l 0) y) ∧
      r.state.inCnt = (if intToUINT s.inCnt = s.appCycle_l then 0 else incInt s.inCnt) ∧
      dataError r.state =
        (if intToUINT s.inCnt = s.appCycle_l then (dataError s).map incUINT
         else dataError s) := by
  obtain ⟨hIn, hOut, hC, hper, hlt⟩ := hR
  obtain ⟨c, hc⟩ := Option.isSome_iff_exists.mp hC
  obtain ⟨s1, h1, -, h1In, h1Out, h1per, h1C, h1cnt, h1n, -⟩ := readInput_ok e s hOut
  have hM1 : mismatches (s1.nodeVar_l 0) (s1.nodeVar_l 0).input = true := by
    rw [h1n]
    rw [← hM]
    exact mismatches_congr _ _ rfl (fun _ => rfl) _
  obtain ⟨n1, hv, hn1ph, hn1nmt, -, -, -, hn1mm⟩ := inputVerifier_mismatch 0 s1 hM1
  rw [countMismatch_ok (setNode s1 0 n1) c (by simp [h1C, hc])] at hv
  have hop1 : (s1.nodeVar_l 0).nmtState = kNmtCsOperational := by rw [h1n]; exact hOp
  have hcy := cycle_of_verifier e s s1 _ hobs h1 hop1 hv (by simp [h1per]; omega)
    (by simp [h1In, hIn])
  have hsc := litNode_sameCheck ({ (setNode s1 0 n1) with
        pCommInstance_l := if intToUINT (setNode s1 0 n1).inCnt = (setNode s1 0 n1).appCycle_l then
            some { c with errorCounter :=
                     { c.errorCounter with dataError := incUINT c.errorCounter.dataError } }
          else some c
        inCnt := if intToUINT (setNode s1 0 n1).inCnt = (setNode s1 0 n1).appCycle_l then 0
          else incInt (setNode s1 0 n1).inCnt }) 0
  refine ⟨_, hcy, ?_, ?_, ?_, ?_, ?_, ?_, ?_⟩
  · refine ⟨rfl, ?_, ?_, ?_, ?_⟩
    · simp [h1Out]
    · simp only [setNode_pComm, setNode_inCnt, setNode_appCycle]
      split <;> rfl
    · simpa [h1per] using hper
    · simpa [h1per] using hlt
  · simp [h1per]
  · simp only [setNode_same]
    rw [hsc.2.2.1]
    simp [hn1nmt, hop1]
  · simp only [setNode_same]
    rw [hsc.1]
    simp [hn1ph, h1n]
  · intro y
    simp only [setNode_same]
    rw [mismatches_congr _ _ hsc.1 (fun _ => hsc.2.1) y]
    simp only [setNode_same]
    rw [hn1mm y, h1n]
    exact mismatches_congr _ _ rfl (fun _ => rfl) _
  · simp [h1cnt, h1per]
  · simp only [dataError, setNode_pComm, setNode_inCnt, setNode_appCycle, h1cnt, h1per, h1C, hc]
    split <;> rfl

/-- One observed cycle whose input is not a mismatch for the operational slot 0. -/
theorem processSync_match (e : SyncEnv) (s : AppState) (hobs : observes e = true)
    (hR : Ready s) (hOp : (s.nodeVar_l 0).nmtState = kNmtCsOperational)
    (hM : mismatches (s.nodeVar_l 0) (presented e) = false) :
    ∃ r, processSync e s = .ok r ∧ Ready r.state ∧ r.state.appCycle_l = s.appCycle_l ∧
      (r.state.nodeVar_l 0).nmtState = kNmtCsOperational ∧
      r.state.inCnt = 0 ∧ dataError r.state = dataError s := by
  obtain ⟨hIn, hOut, hC, hper, hlt⟩ := hR
  obtain ⟨s1, h1, -, h1In, h1Out, h1per, h1C, h1cnt, h1n, -⟩ := readInput_ok e s hOut
  have hM1 : mismatches (s1.nodeVar_l 0) (s1.nodeVar_l 0).input = false := by
    rw [h1n]
    rw [← hM]
    exact mismatches_congr _ _ rfl (fun _ => rfl) _
  obtain ⟨v, hv, hvcnt, hvC, hvper, hvIn, hvOut, -, hvnmt⟩ := inputVerifier_match 0 s1 hM1
  have hop1 : (s1.nodeVar_l 0).nmtState = kNmtCsOperational := by rw [h1n]; exact hOp
  have hcy := cycle_of_verifier e s s1 v hobs h1 hop1 hv (by rw [hvper, h1per]; omega)
    (by rw [hvIn, h1In]; exact hIn)
  have hsc := litNode_sameCheck v 0
  refine ⟨_, hcy, ⟨rfl, ?_, ?_, ?_, ?_⟩, ?_, ?_, ?_, ?_⟩
  · simp [hvOut, h1Out]
  · simpa [hvC, h1C] using hC
  · simpa [hvper, h1per] using hper
  · simpa [hvper, h1per] using hlt
  · simp [hvper, h1per]
  · simp only [setNode_same]
    rw [hsc.2.2.1, hvnmt, hop1]
  · simpa using hvcnt
  · simp [dataError, hvC, h1C]

theorem runSync_append (a b : List SyncEnv) (s : AppState) :
    runSync (a ++ b) s =
      (match runSync a s with
       | .error f => .error f
       | .ok t => runSync b t) := by
  induction a generalizing s with
  | nil => simp [runSync]
  | cons e es ih =>
    simp only [List.cons_append, runSync]
    cases processSync e s with
    | error f => simp
    | ok r => simpa using ih r.state

/-- A run of observed mismatches that stays within the tolerance: the error counter and
the input phase are untouched and the tolerance counter has counted every cycle. -/
theorem runSync_mismatches (ms : List SyncEnv) :
    ∀ (s : AppState) (rest : List SyncEnv) (tr : List Bool),
      (∀ e ∈ ms, observes e = true) → Ready s →
      (s.nodeVar_l 0).nmtState = kNmtCsOperational →
      mismatchTrace (ms ++ rest) s = List.replicate ms.length true ++ tr →
      intToUINT s.inCnt + ms.length ≤ s.appCycle_l →
      ∃ t, runSync ms s = .ok t ∧ Ready t ∧
        (t.nodeVar_l 0).nmtState = kNmtCsOperational ∧ t.appCycle_l = s.appCycle_l ∧
        dataError t = dataError s ∧ intToUINT t.inCnt = intToUINT s.inCnt + ms.length ∧
        (t.nodeVar_l 0).inLedState = (s.nodeVar_l 0).inLedState ∧
        mismatchTrace rest t = tr := by
  induction ms with
  | nil =>
    intro s rest tr _ hR hOp hTr _
    exact ⟨s, rfl, hR, hOp, rfl, rfl, by simp, rfl, by simpa using hTr⟩
  | cons e es ih =>
    intro s rest tr hObs hR hOp hTr hLe
    simp only [List.cons_append, mismatchTrace, List.length_cons, List.replicate_succ,
      List.cons.injEq] at hTr
    obtain ⟨hM, hTr⟩ := hTr
    obtain ⟨r, hr, hR1, hper1, hOp1, hph1, -, hcnt1, herr1⟩ :=
      processSync_mismatch e s (hObs e (List.mem_cons_self _ _)) hR hOp hM
    have hne : intToUINT s.inCnt ≠ s.appCycle_l := by
      simp only [List.length_cons] at hLe
      omega
    rw [if_neg hne] at hcnt1 herr1
    rw [hr] at hTr
    have hlt := hR.2.2.2.2
    have hcnt2 : intToUINT r.state.inCnt = intToUINT s.inCnt + 1 := by
      rw [hcnt1, intToUINT_incInt]
      simp only [List.length_cons] at hLe
      have : s.appCycle_l < 4294967296 := hlt
      omega
    obtain ⟨t, ht, hRt, hOpt, hpert, herrt, hcntt, hpht, htr⟩ :=
      ih r.state rest tr (fun x hx => hObs x (List.mem_cons_of_mem _ hx)) hR1 hOp1 hTr
        (by simp only [List.length_cons] at hLe; rw [hcnt2, hper1]; omega)
    refine ⟨t, ?_, hRt, hOpt, by rw [hpert, hper1], by rw [herrt, herr1], ?_,
      by rw [hpht, hph1], htr⟩
    · simp [runSync, hr, ht]
    · rw [hcntt, hcnt2]
      simp only [List.length_cons]
      omega


/-! ## C1 and C2: the tolerance counter -/

/-- The first `k` cycles of a run, when they are observed mismatches within the
tolerance of a node whose tolerance counter starts at 0. -/
theorem mismatch_run_start (s : AppState) (envs : List SyncEnv) (d k : Nat) (tr : List Bool)
    (hR : Ready s) (hOp : (s.nodeVar_l 0).nmtState = kNmtCsOperational)
    (hTol : s.inCnt = 0) (hErr : dataError s = some d)
    (hObs : ∀ e ∈ envs, observes e = true) (hk : k ≤ envs.length) (hkp : k ≤ s.appCycle_l)
    (hMis : mismatchTrace envs s = List.replicate k true ++ tr) :
    ∃ t, runSync (envs.take k) s = .ok t ∧ Ready t ∧
      (t.nodeVar_l 0).nmtState = kNmtCsOperational ∧ t.appCycle_l = s.appCycle_l ∧
      dataError t = some d ∧ intToUINT t.inCnt = k ∧
      mismatchTrace (envs.drop k) t = tr := by
  have hkl : (envs.take k).length = k := by
    rw [List.length_take]
    omega
  have hsplit : mismatchTrace (envs.take k ++ envs.drop k) s =
      List.replicate (envs.take k).length true ++ tr := by
    rw [List.take_append_drop, hkl, hMis]
  obtain ⟨t, ht, hRt, hOpt, hpert, herrt, hcntt, -, htr⟩ :=
    runSync_mismatches (envs.take k) s (envs.drop k) tr
      (fun e he => hObs e (List.mem_of_mem_take he)) hR hOp hsplit
      (by rw [hTol, intToUINT_zero, hkl]; omega)
  refine ⟨t, ht, hRt, hOpt, hpert, by rw [herrt, hErr], ?_, htr⟩
  rw [hcntt, hTol, intToUINT_zero, hkl]
  omega

/-- The cycle after the first `k` of a run of `k + 1` cycles. -/
theorem last_cycle (envs : List SyncEnv) (k : Nat) (hLen : envs.length = k + 1) :
    ∃ e, e ∈ envs ∧ envs.drop k = [e] ∧ envs = envs.take k ++ [e] := by
  have h2 : (envs.drop k).length = 1 := by
    rw [List.length_drop]
    omega
  obtain ⟨e, he⟩ := List.length_eq_one.mp h2
  refine ⟨e, ?_, he, ?_⟩
  · have : e ∈ envs.drop k := by
      rw [he]
      exact List.mem_singleton_self e
    exact List.mem_of_mem_drop this
  · rw [← he, List.take_append_drop]

/-- C1, as the code has it: on an operational node with period `p >= 1` and tolerance
counter 0, in every input phase, a run of observed mismatches counts no data error in
its first `p` cycles (after `k <= p` of them the tolerance counter stands at `k`), and
the mismatch of cycle `p + 1` increments the data-error counter exactly once and
clears the tolerance counter. -/
theorem C1_fault_on_mismatch_after_period (s : AppState) (envs : List SyncEnv) (d : Nat)
    (hR : Ready s) (hOp : (s.nodeVar_l 0).nmtState = kNmtCsOperational)
    (hTol : s.inCnt = 0) (hErr : dataError s = some d)
    (hObs : ∀ e ∈ envs, observes e = true) (hLen : envs.length = s.appCycle_l + 1)
    (hMis : mismatchTrace envs s = List.replicate (s.appCycle_l + 1) true) :
    (∀ k, k ≤ s.appCycle_l →
      ∃ t, runSync (envs.take k) s = .ok t ∧ dataError t = some d ∧ intToUINT t.inCnt = k) ∧
    (∃ t, runSync envs s = .ok t ∧ dataError t = some (incUINT d) ∧ t.inCnt = 0) := by
  have hpre : ∀ k, k ≤ s.appCycle_l →
      ∃ t, runSync (envs.take k) s = .ok t ∧ Ready t ∧
        (t.nodeVar_l 0).nmtState = kNmtCsOperational ∧ t.appCycle_l = s.appCycle_l ∧
        dataError t = some d ∧ intToUINT t.inCnt = k ∧
        mismatchTrace (envs.drop k) t = List.replicate (s.appCycle_l + 1 - k) true := by
    intro k hk
    refine mismatch_run_start s envs d k _ hR hOp hTol hErr hObs (by omega) hk ?_
    rw [hMis, ← List.replicate_add]
    congr 1
    omega
  refine ⟨fun k hk => ?_, ?_⟩
  · obtain ⟨t, ht, -, -, -, herrt, hcntt, -⟩ := hpre k hk
    exact ⟨t, ht, herrt, hcntt⟩
  · obtain ⟨t, ht, hRt, hOpt, hpert, herrt, hcntt, htr⟩ := hpre s.appCycle_l (le_refl _)
    obtain ⟨e, hmem, he, hsplit⟩ := last_cycle envs s.appCycle_l hLen
    rw [he] at htr
    have hM : mismatches (t.nodeVar_l 0) (presented e) = true := by
      have h3 : s.appCycle_l + 1 - s.appCycle_l = 1 := by omega
      rw [h3] at htr
      simp only [mismatchTrace, List.replicate_one] at htr
      exact (List.cons.inj htr).1
    obtain ⟨r, hr, -, -, -, -, -, hcnt, herr⟩ :=
      processSync_mismatch e t (hObs e hmem) hRt hOpt hM
    rw [if_pos (by rw [hcntt, hpert])] at hcnt herr
    refine ⟨r.state, ?_, by rw [herr, herrt]; rfl, hcnt⟩
    rw [hsplit, runSync_append, ht]
    simp [runSync, hr]

/-- C1 at a concrete run: period 2, three observed mismatches in phase Unknown. -/
theorem C1_fault_on_mismatch_after_period_witness :
    (∀ k, k ≤ (sampleState 2).appCycle_l →
      ∃ t, runSync ([okEnv 0, okEnv 6, okEnv 0].take k) (sampleState 2) = .ok t ∧
        dataError t = some 0 ∧ intToUINT t.inCnt = k) ∧
    (∃ t, runSync [okEnv 0, okEnv 6, okEnv 0] (sampleState 2) = .ok t ∧
      dataError t = some (incUINT 0) ∧ t.inCnt = 0) :=
  C1_fault_on_mismatch_after_period (sampleState 2) [okEnv 0, okEnv 6, okEnv 0] 0
    (by decide) rfl rfl rfl (by decide) rfl (by decide)

/-- C1 as stated fails: with period 1, one observed mismatch (exactly `period` cycles)
on an operational node in phase Unknown with tolerance counter 0 leaves the data-error
counter at 0 and the tolerance counter at 1. -/
theorem C1_counterexample :
    Ready (sampleState 1) ∧ (sampleState 1).inCnt = 0 ∧ dataError (sampleState 1) = some 0 ∧
    mismatchTrace [okEnv 0] (sampleState 1) = [true] ∧
    ∃ t, runSync [okEnv 0] (sampleState 1) = .ok t ∧ dataError t = some 0 ∧ t.inCnt = 1 :=
  ⟨by decide, rfl, rfl, by decide, _, rfl, rfl, rfl⟩

/-- C2: on an operational node with period `p >= 1` and tolerance counter 0, in every
input phase, `p - 1` observed mismatches followed by one observed input that is not a
mismatch never increment the data-error counter, and the tolerance counter is 0 after
the match. -/
theorem C2_match_within_tolerance (s : AppState) (envs : List SyncEnv) (d : Nat)
    (hR : Ready s) (hOp : (s.nodeVar_l 0).nmtState = kNmtCsOperational)
    (hTol : s.inCnt = 0) (hErr : dataError s = some d)
    (hObs : ∀ e ∈ envs, observes e = true) (hLen : envs.length = s.appCycle_l)
    (hMis : mismatchTrace envs s = List.replicate (s.appCycle_l - 1) true ++ [false]) :
    (∀ k, k < s.appCycle_l → ∃ t, runSync (envs.take k) s = .ok t ∧ dataError t = some d) ∧
    (∃ t, runSync envs s = .ok t ∧ dataError t = some d ∧ t.inCnt = 0) := by
  have hp : 0 < s.appCycle_l := hR.2.2.2.1
  have hpre : ∀ k, k < s.appCycle_l →
      ∃ t, runSync (envs.take k) s = .ok t ∧ Ready t ∧
        (t.nodeVar_l 0).nmtState = kNmtCsOperational ∧ t.appCycle_l = s.appCycle_l ∧
        dataError t = some d ∧ intToUINT t.inCnt = k ∧
        mismatchTrace (envs.drop k) t =
          List.replicate (s.appCycle_l - 1 - k) true ++ [false] := by
    intro k hk
    refine mismatch_run_start s envs d k _ hR hOp hTol hErr hObs (by omega) (by omega) ?_
    rw [hMis, ← List.append_assoc, ← List.replicate_add]
    congr 2
    omega
  refine ⟨fun k hk => ?_, ?_⟩
  · obtain ⟨t, ht, -, -, -, herrt, -, -⟩ := hpre k hk
    exact ⟨t, ht, herrt⟩
  · obtain ⟨t, ht, hRt, hOpt, hpert, herrt, hcntt, htr⟩ := hpre (s.appCycle_l - 1) (by omega)
    obtain ⟨e, hmem, he, hsplit⟩ := last_cycle envs (s.appCycle_l - 1) (by omega)
    rw [he] at htr
    have hM : mismatches (t.nodeVar_l 0) (presented e) = false := by
      have h3 : s.appCycle_l - 1 - (s.appCycle_l - 1) = 0 := by omega
      rw [h3] at htr
      simp only [mismatchTrace, List.replicate_zero, List.nil_append] at htr
      exact (List.cons.inj htr).1
    obtain ⟨r, hr, -, -, -, hcnt, herr⟩ := processSync_match e t (hObs e hmem) hRt hOpt hM
    refine ⟨r.state, ?_, by rw [herr, herrt], hcnt⟩
    rw [hsplit, runSync_append, ht]
    simp [runSync, hr]

/-- C2 at a concrete run: period 3, two observed mismatches in phase Unknown, then the
input 0x001 that phase Unknown waits for. -/
theorem C2_match_within_tolerance_witness :
    (∀ k, k < (sampleState 3).appCycle_l →
      ∃ t, runSync ([okEnv 0, okEnv 6, okEnv 1].take k) (sampleState 3) = .ok t ∧
        dataError t = some 0) ∧
    (∃ t, runSync [okEnv 0, okEnv 6, okEnv 1] (sampleState 3) = .ok t ∧
      dataError t = some 0 ∧ t.inCnt = 0) :=
  C2_match_within_tolerance (sampleState 3) [okEnv 0, okEnv 6, okEnv 1] 0
    (by decide) rfl rfl rfl (by decide) rfl (by decide)


/-! ## C3 and C4: the first input of the sequence -/

/-- One observed cycle presenting 0x001 to the operational slot 0 in phase Unknown. -/
theorem processSync_first_input (e : SyncEnv) (s : AppState) (hobs : observes e = true)
    (hx : presented e = 0x001) (hIn : s.pProcessImageIn_l.isSome = true)
    (hOut : s.pProcessImageOut_l.isSome = true) (hper : 0 < s.appCycle_l)
    (hOp : (s.nodeVar_l 0).nmtState = kNmtCsOperational)
    (hPh : (s.nodeVar_l 0).inLedState = kLedUnknown) :
    ∃ r, processSync e s = .ok r ∧ (r.state.nodeVar_l 0).inLedState = kLedAscending ∧
      (r.state.nodeVar_l 0).inleds = 0x004 ∧ r.state.inCnt = 0 ∧
      r.state.pCommInstance_l = s.pCommInstance_l ∧ r.state.appCycle_l = s.appCycle_l ∧
      (r.state.nodeVar_l 0).nmtState = kNmtCsOperational ∧
      r.state.pProcessImageIn_l.isSome = true ∧ r.state.pProcessImageOut_l.isSome = true := by
  obtain ⟨s1, h1, -, h1In, h1Out, h1per, h1C, h1cnt, h1n, -⟩ := readInput_ok e s hOut
  have hop1 : (s1.nodeVar_l 0).nmtState = kNmtCsOperational := by rw [h1n]; exact hOp
  have hv : inputVerifier 0 s1 = .ok
      { (setNode s1 0 { s1.nodeVar_l 0 with
          inleds := 0x004, inLedState := kLedAscending }) with inCnt := 0 } := by
    unfold inputVerifier
    have hph1 : (s1.nodeVar_l 0).inLedState = kLedUnknown := by rw [h1n]; exact hPh
    have hin1 : (s1.nodeVar_l 0).input = 1 := by rw [h1n]; exact hx
    have h4 : shlUINT 1 2 = 4 := by decide
    simp [hph1, hin1, h4]
  have hcy := cycle_of_verifier e s s1 _ hobs h1 hop1 hv (by simp [h1per]; omega)
    (by simp [h1In, hIn])
  have hsc := litNode_sameCheck
    { (setNode s1 0 { s1.nodeVar_l 0 with
          inleds := 0x004, inLedState := kLedAscending }) with inCnt := 0 } 0
  refine ⟨_, hcy, ?_, ?_, rfl, ?_, ?_, ?_, rfl, ?_⟩
  · simp only [setNode_same]
    rw [hsc.1]
    simp [setNode]
  · simp only [setNode_same]
    rw [hsc.2.1]
    simp [setNode]
  · simp [h1C]
  · simp [h1per]
  · simp only [setNode_same]
    rw [hsc.2.2.1]
    simp [setNode, hop1]
  · simp [h1Out]

/-- C4: for every operational node in input phase Unknown, whatever its expected
pattern and tolerance counter, a cycle that observes the input 0x001 moves the input
phase to Ascending, sets the expected pattern to 0x004, clears the tolerance counter
and leaves the error counters as they were. -/
theorem C4_unknown_bootstrap (e : SyncEnv) (s : AppState) (hobs : observes e = true)
    (hx : presented e = 0x001) (hIn : s.pProcessImageIn_l.isSome = true)
    (hOut : s.pProcessImageOut_l.isSome = true) (hper : 0 < s.appCycle_l)
    (hOp : (s.nodeVar_l 0).nmtState = kNmtCsOperational)
    (hPh : (s.nodeVar_l 0).inLedState = kLedUnknown) :
    ∃ r, processSync e s = .ok r ∧ (r.state.nodeVar_l 0).inLedState = kLedAscending ∧
      (r.state.nodeVar_l 0).inleds = shlUINT 0x001 2 ∧ (r.state.nodeVar_l 0).inleds = 0x004 ∧
      r.state.inCnt = 0 ∧ r.state.pCommInstance_l = s.pCommInstance_l ∧
      dataError r.state = dataError s := by
  obtain ⟨r, hr, hph, hleds, hcnt, hC, -⟩ :=
    processSync_first_input e s hobs hx hIn hOut hper hOp hPh
  exact ⟨r, hr, hph, by rw [hleds]; decide, hleds, hcnt, hC, by simp [dataError, hC]⟩

/-- C4 at a concrete state: expected pattern 0x2A and tolerance counter 1 beforehand. -/
theorem C4_unknown_bootstrap_witness :
    ∃ r, processSync (okEnv 1)
        { (setNode (sampleState 2) 0 { sampleNode with inleds := 0x2A }) with inCnt := 1 } =
          .ok r ∧
      (r.state.nodeVar_l 0).inLedState = kLedAscending ∧
      (r.state.nodeVar_l 0).inleds = shlUINT 0x001 2 ∧ (r.state.nodeVar_l 0).inleds = 0x004 ∧
      r.state.inCnt = 0 ∧
      r.state.pCommInstance_l =
        ({ (setNode (sampleState 2) 0 { sampleNode with inleds := 0x2A }) with
            inCnt := 1 } : AppState).pCommInstance_l ∧
      dataError r.state =
        dataError { (setNode (sampleState 2) 0 { sampleNode with inleds := 0x2A }) with
          inCnt := 1 } :=
  C4_unknown_bootstrap (okEnv 1)
    { (setNode (sampleState 2) 0 { sampleNode with inleds := 0x2A }) with inCnt := 1 }
    rfl rfl rfl rfl (by decide) rfl rfl


/-- C3, as the code has it: an operational node starts in input phase Unknown with
data-error counter 0 and period 2 (the tolerance counter may start at 0 or anywhere
else, cycle 1 clears it), and five cycles observe the inputs 0b0001, 0b0001, 0b0001,
0b1111, 0b1111. The input phase is Ascending after cycle 1; the repeated 0b0001 of
cycles 2 and 3 already counts as a mismatch, so the data-error counter is 0 after each
of cycles 1 to 3 and exactly 1 after cycle 4 and after cycle 5. -/
theorem C3_scenario_period_two (s : AppState) (envs : List SyncEnv)
    (hR : Ready s) (hOp : (s.nodeVar_l 0).nmtState = kNmtCsOperational)
    (hPh : (s.nodeVar_l 0).inLedState = kLedUnknown)
    (hErr : dataError s = some 0) (hPer : s.appCycle_l = 2)
    (hObs : ∀ e ∈ envs, observes e = true)
    (hInputs : envs.map presented = [0b0001, 0b0001, 0b0001, 0b1111, 0b1111]) :
    (∃ t, runSync (envs.take 1) s = .ok t ∧ (t.nodeVar_l 0).inLedState = kLedAscending ∧
      dataError t = some 0) ∧
    (∃ t, runSync (envs.take 2) s = .ok t ∧ dataError t = some 0) ∧
    (∃ t, runSync (envs.take 3) s = .ok t ∧ dataError t = some 0) ∧
    (∃ t, runSync (envs.take 4) s = .ok t ∧ dataError t = some 1) ∧
    (∃ t, runSync envs s = .ok t ∧ dataError t = some 1) := by
  obtain ⟨hIn, hOut, hC, hper, hlt⟩ := hR
  rcases envs with _ | ⟨e1, _ | ⟨e2, _ | ⟨e3, _ | ⟨e4, _ | ⟨e5, _ | ⟨e6, es⟩⟩⟩⟩⟩⟩ <;>
    simp only [List.map, List.cons.injEq, List.nil_eq, List.cons_ne_nil, and_false,
      and_true, reduceCtorEq] at hInputs
  obtain ⟨hx1, hx2, hx3, hx4, hx5⟩ := hInputs
  have ho1 := hObs e1 (by simp)
  have ho2 := hObs e2 (by simp)
  have ho3 := hObs e3 (by simp)
  have ho4 := hObs e4 (by simp)
  have ho5 := hObs e5 (by simp)
  -- cycle 1: the first input of the sequence
  obtain ⟨r1, hr1, hph1, hleds1, hcnt1, hC1, hper1, hOp1, hIn1, hOut1⟩ :=
    processSync_first_input e1 s ho1 hx1 hIn hOut hper hOp hPh
  have hR1 : Ready r1.state :=
    ⟨hIn1, hOut1, by rw [hC1]; exact hC, by rw [hper1]; exact hper, by rw [hper1]; exact hlt⟩
  have herr1 : dataError r1.state = some 0 := by
    rw [← hErr]
    simp [dataError, hC1]
  have hmm1 : ∀ y, mismatches (r1.state.nodeVar_l 0) y =
      (decide (y ≠ APP_LED_MASK_1) && decide (y ≠ 4)) := by
    intro y
    simp [mismatches, hph1, hleds1]
  -- cycle 2: 0b0001 again, a mismatch in phase Ascending
  obtain ⟨r2, hr2, hR2, hper2, hOp2, -, hmm2, hcnt2, herr2⟩ :=
    processSync_mismatch e2 r1.state ho2 hR1 hOp1 (by rw [hmm1, hx2]; decide)
  rw [hcnt1, hper1, hPer, if_neg (by decide)] at hcnt2
  rw [hcnt1, hper1, hPer, if_neg (by decide), herr1] at herr2
  -- cycle 3: 0b0001 once more
  obtain ⟨r3, hr3, hR3, hper3, hOp3, -, hmm3, hcnt3, herr3⟩ :=
    processSync_mismatch e3 r2.state ho3 hR2 hOp2 (by rw [hmm2, hmm1, hx3]; decide)
  rw [hcnt2, hper2, hper1, hPer, if_neg (by decide)] at hcnt3
  rw [hcnt2, hper2, hper1, hPer, if_neg (by decide), herr2] at herr3
  -- cycle 4: 0b1111, the tolerance counter stands at the period
  obtain ⟨r4, hr4, hR4, hper4, hOp4, -, hmm4, hcnt4, herr4⟩ :=
    processSync_mismatch e4 r3.state ho4 hR3 hOp3 (by rw [hmm3, hmm2, hmm1, hx4]; decide)
  rw [hcnt3, hper3, hper2, hper1, hPer, if_pos (by decide)] at hcnt4
  rw [hcnt3, hper3, hper2, hper1, hPer, if_pos (by decide), herr3] at herr4
  -- cycle 5: 0b1111 again
  obtain ⟨r5, hr5, -, -, -, -, -, -, herr5⟩ :=
    processSync_mismatch e5 r4.state ho5 hR4 hOp4
      (by rw [hmm4, hmm3, hmm2, hmm1, hx5]; decide)
  rw [hcnt4, hper4, hper3, hper2, hper1, hPer, if_neg (by decide), herr4] at herr5
  refine ⟨⟨r1.state, ?_, hph1, herr1⟩, ⟨r2.state, ?_, herr2⟩, ⟨r3.state, ?_, herr3⟩,
    ⟨r4.state, ?_, ?_⟩, ⟨r5.state, ?_, ?_⟩⟩
  · simp [runSync, hr1]
  · simp [runSync, hr1, hr2]
  · simp [runSync, hr1, hr2, hr3]
  · simp [runSync, hr1, hr2, hr3, hr4]
  · rw [herr4]
    rfl
  · simp [runSync, hr1, hr2, hr3, hr4, hr5]
  · rw [herr5]
    rfl

/-- C3 at the state after initialisation with period 2, every stack call succeeding. -/
theorem C3_scenario_period_two_witness :
    (∃ t, runSync ([okEnv 1, okEnv 1, okEnv 1, okEnv 15, okEnv 15].take 1) (sampleState 2) =
        .ok t ∧ (t.nodeVar_l 0).inLedState = kLedAscending ∧ dataError t = some 0) ∧
    (∃ t, runSync ([okEnv 1, okEnv 1, okEnv 1, okEnv 15, okEnv 15].take 2) (sampleState 2) =
        .ok t ∧ dataError t = some 0) ∧
    (∃ t, runSync ([okEnv 1, okEnv 1, okEnv 1, okEnv 15, okEnv 15].take 3) (sampleState 2) =
        .ok t ∧ dataError t = some 0) ∧
    (∃ t, runSync ([okEnv 1, okEnv 1, okEnv 1, okEnv 15, okEnv 15].take 4) (sampleState 2) =
        .ok t ∧ dataError t = some 1) ∧
    (∃ t, runSync [okEnv 1, okEnv 1, okEnv 1, okEnv 15, okEnv 15] (sampleState 2) =
        .ok t ∧ dataError t = some 1) :=
  C3_scenario_period_two (sampleState 2) [okEnv 1, okEnv 1, okEnv 1, okEnv 15, okEnv 15]
    (by decide) rfl rfl rfl rfl (by decide) rfl

/-- C3 as stated fails: in the scenario the data-error counter is already 1 after
cycle 4, not still 0. -/
theorem C3_counterexample :
    Ready (sampleState 2) ∧ (sampleState 2).appCycle_l = 2 ∧
    ((sampleState 2).nodeVar_l 0).inLedState = kLedUnknown ∧ (sampleState 2).inCnt = 0 ∧
    dataError (sampleState 2) = some 0 ∧
    ∃ t, runSync [okEnv 0b0001, okEnv 0b0001, okEnv 0b0001, okEnv 0b1111] (sampleState 2) =
      .ok t ∧ dataError t = some 1 :=
  ⟨by decide, rfl, rfl, rfl, rfl, _, rfl, rfl⟩


/-! ## C5: the sequence of the running light -/

theorem outputSequencer_outView (a b : APP_NODE_VAR_T) (h : outView a = outView b) :
    outView (outputSequencer a) = outView (outputSequencer b) := by
  simp only [outView, Prod.mk.injEq] at h
  obtain ⟨h1, h2⟩ := h
  unfold outputSequencer outView
  rw [h1, h2]
  rcases b.outLedState <;> simp only [] <;> split <;> rfl

theorem iterate_outView (k : Nat) :
    ∀ a b : APP_NODE_VAR_T, outView a = outView b →
      outView (outputSequencer^[k] a) = outView (outputSequencer^[k] b) := by
  induction k with
  | zero => intro a b h; exact h
  | succ k ih =>
    intro a b h
    rw [Function.iterate_succ_apply, Function.iterate_succ_apply]
    exact ih _ _ (outputSequencer_outView a b h)

theorem outputSequencer_from_unknown (a b : APP_NODE_VAR_T)
    (ha : a.outLedState = kLedUnknown) (hb : b.outLedState = kLedUnknown) :
    outView (outputSequencer a) = outView (outputSequencer b) := by
  unfold outputSequencer outView
  rw [ha, hb]

theorem iterate_from_unknown (k : Nat) (a b : APP_NODE_VAR_T)
    (ha : a.outLedState = kLedUnknown) (hb : b.outLedState = kLedUnknown) :
    outView (outputSequencer^[k + 1] a) = outView (outputSequencer^[k + 1] b) := by
  rw [Function.iterate_succ_apply, Function.iterate_succ_apply]
  exact iterate_outView k _ _ (outputSequencer_from_unknown a b ha hb)

/-- C5: from output phase Unknown, with any output pattern, the first 14 advances of
the running light produce the patterns 0x001, 0x004, 0x010, 0x040, 0x100, 0x400 (in
phase Ascending), 0x800, 0x200, 0x080, 0x020, 0x008 (in phase Descending), 0x002 (on
which the phase becomes SplitOne), 0xA95 (SplitTwo) and 0x56A (Unknown again): the
phases come in the order Unknown, Ascending, Descending, SplitOne, SplitTwo, Unknown,
Unknown is reached again after exactly 14 advances, and from then on the sequence
repeats with period 14. -/
theorem C5_output_sequence (n : APP_NODE_VAR_T) (hPh : n.outLedState = kLedUnknown) :
    (List.range 14).map (fun k => outView (outputSequencer^[k + 1] n)) =
      [(0x001, kLedAscending), (0x004, kLedAscending), (0x010, kLedAscending),
       (0x040, kLedAscending), (0x100, kLedAscending), (0x400, kLedAscending),
       (0x800, kLedDescending), (0x200, kLedDescending), (0x080, kLedDescending),
       (0x020, kLedDescending), (0x008, kLedDescending), (0x002, kLedSplitOne),
       (0xA95, kLedSplitTwo), (0x56A, kLedUnknown)] ∧
    ∀ k, outView (outputSequencer^[k + 1 + 14] n) = outView (outputSequencer^[k + 1] n) := by
  have key : ∀ k, outView (outputSequencer^[k + 1] n) =
      outView (outputSequencer^[k + 1] sampleNode) :=
    fun k => iterate_from_unknown k n sampleNode hPh rfl
  constructor
  · have hfun : (fun k => outView (outputSequencer^[k + 1] n)) =
        (fun k => outView (outputSequencer^[k + 1] sampleNode)) := funext key
    rw [hfun]
    decide
  · intro k
    rw [Function.iterate_add_apply]
    have h14 : (outputSequencer^[14] n).outLedState = kLedUnknown := by
      have h := key 13
      have h2 : outView (outputSequencer^[13 + 1] sampleNode) = (0x56A, kLedUnknown) := by
        decide
      rw [h2] at h
      simp only [outView, Prod.mk.injEq] at h
      exact h.2
    exact iterate_from_unknown k _ _ h14 hPh

/-- C5 at a node record whose output pattern is 0x7FF and whose output phase is
Unknown. -/
theorem C5_output_sequence_witness :
    (List.range 14).map
        (fun k => outView (outputSequencer^[k + 1] { sampleNode with outleds := 0x7FF })) =
      [(0x001, kLedAscending), (0x004, kLedAscending), (0x010, kLedAscending),
       (0x040, kLedAscending), (0x100, kLedAscending), (0x400, kLedAscending),
       (0x800, kLedDescending), (0x200, kLedDescending), (0x080, kLedDescending),
       (0x020, kLedDescending), (0x008, kLedDescending), (0x002, kLedSplitOne),
       (0xA95, kLedSplitTwo), (0x56A, kLedUnknown)] ∧
    ∀ k, outView (outputSequencer^[k + 1 + 14] { sampleNode with outleds := 0x7FF }) =
      outView (outputSequencer^[k + 1] { sampleNode with outleds := 0x7FF }) :=
  C5_output_sequence { sampleNode with outleds := 0x7FF } rfl

/-! ## C6 and C7: the result of a cycle -/

/-- C6: when the tick wait succeeds and the outbound exchange fails, `processSync`
returns the error of the exchange, leaves every variable as it was (cycle counter, node
records, tolerance counter, error counters, image buffers) and calls neither the
inbound exchange nor anything else after the failed call. -/
theorem C6_outbound_failure (e : SyncEnv) (s : AppState)
    (hW : e.waitSyncEvent = kErrorOk) (hX : e.exchangeProcessImageOut ≠ kErrorOk) :
    ∃ r, processSync e s = .ok r ∧ r.ret = e.exchangeProcessImageOut ∧ r.state = s ∧
      r.calls = [StackCall.oplk_waitSyncEvent 100000, StackCall.oplk_exchangeProcessImageOut] ∧
      ∀ img, StackCall.oplk_exchangeProcessImageIn img ∉ r.calls := by
  refine ⟨⟨e.exchangeProcessImageOut, s, _⟩, ?_, rfl, rfl, rfl, ?_⟩
  · simp [processSync, hW, hX]
  · intro img
    simp

/-- C6 at a concrete cycle: the outbound exchange fails with error code 5. -/
theorem C6_outbound_failure_witness :
    ∃ r, processSync outFailEnv (sampleState 2) = .ok r ∧
      r.ret = outFailEnv.exchangeProcessImageOut ∧
      r.state = sampleState 2 ∧
      r.calls = [StackCall.oplk_waitSyncEvent 100000, StackCall.oplk_exchangeProcessImageOut] ∧
      ∀ img, StackCall.oplk_exchangeProcessImageIn img ∉ r.calls :=
  C6_outbound_failure outFailEnv (sampleState 2) rfl (by decide)


theorem countMismatch_cases (s : AppState) :
    countMismatch s = .error AppFault.nullPointer ∨
      ∃ v, countMismatch s = .ok v ∧ v.appCycle_l = s.appCycle_l ∧
        v.pProcessImageIn_l = s.pProcessImageIn_l ∧ v.nodeVar_l = s.nodeVar_l ∧
        v.cnt_g = s.cnt_g := by
  unfold countMismatch
  split_ifs with h
  · rcases hC : s.pCommInstance_l with _ | c
    · exact Or.inl rfl
    · exact Or.inr ⟨_, rfl, rfl, rfl, rfl, rfl⟩
  · exact Or.inr ⟨_, rfl, rfl, rfl, rfl, rfl⟩

/-- The input check either stops on the null instance pointer or succeeds and leaves
the period, the inbound image pointer and the cycle counter alone. -/
theorem inputVerifier_cases (i : Fin MAX_NODES) (s : AppState) :
    inputVerifier i s = .error AppFault.nullPointer ∨
      ∃ v, inputVerifier i s = .ok v ∧ v.appCycle_l = s.appCycle_l ∧
        v.pProcessImageIn_l = s.pProcessImageIn_l ∧ v.cnt_g = s.cnt_g := by
  rcases hM : mismatches (s.nodeVar_l i) (s.nodeVar_l i).input with _ | _
  · obtain ⟨v, hv, -, -, hper, hIn, -, hcnt, -⟩ := inputVerifier_match i s hM
    exact Or.inr ⟨v, hv, hper, hIn, hcnt⟩
  · obtain ⟨n1, hv, -⟩ := inputVerifier_mismatch i s hM
    rcases countMismatch_cases (setNode s i n1) with h | ⟨v, h, hper, hIn, -, hcnt⟩
    · exact Or.inl (by rw [hv, h])
    · exact Or.inr ⟨v, by rw [hv, h], by rw [hper]; rfl, by rw [hIn]; rfl, by rw [hcnt]; rfl⟩

/-- With the instance pointer set the input check succeeds. -/
theorem inputVerifier_ok (i : Fin MAX_NODES) (s : AppState)
    (hC : s.pCommInstance_l.isSome = true) :
    ∃ v, inputVerifier i s = .ok v ∧ v.appCycle_l = s.appCycle_l ∧
      v.pProcessImageIn_l = s.pProcessImageIn_l := by
  obtain ⟨c, hc⟩ := Option.isSome_iff_exists.mp hC
  rcases hM : mismatches (s.nodeVar_l i) (s.nodeVar_l i).input with _ | _
  · obtain ⟨v, hv, -, -, hper, hIn, -⟩ := inputVerifier_match i s hM
    exact ⟨v, hv, hper, hIn⟩
  · obtain ⟨n1, hv, -⟩ := inputVerifier_mismatch i s hM
    rw [countMismatch_ok (setNode s i n1) c (by simp [hc])] at hv
    exact ⟨_, hv, rfl, rfl⟩

/-- An observed cycle when slot 0 is not operational: the node loop skips the slot. -/
theorem processSync_not_operational (e : SyncEnv) (s s1 : AppState) (img : PI_IN)
    (hobs : observes e = true) (h1 : readInput e s = .ok s1)
    (hop : (s1.nodeVar_l 0).nmtState ≠ kNmtCsOperational)
    (hIn : s1.pProcessImageIn_l = some img) :
    processSync e s = .ok ⟨e.exchangeProcessImageIn,
      { s1 with pProcessImageIn_l := some ⟨(s1.nodeVar_l 0).outleds⟩ },
      [StackCall.oplk_waitSyncEvent 100000, StackCall.oplk_exchangeProcessImageOut,
        StackCall.oplk_exchangeProcessImageIn ⟨(s1.nodeVar_l 0).outleds⟩]⟩ := by
  have hw : (observes e = true) := hobs
  rw [observes_iff] at hw
  simp [processSync, hw.1, hw.2, h1, activeSlots_eq, nodeLoop, nodeBody, hop, writeOutput, hIn]

/-- An observed cycle on an initialised state succeeds, returns the result of the
inbound exchange and ends with the inbound exchange. -/
theorem processSync_observed (e : SyncEnv) (s : AppState) (hobs : observes e = true)
    (hR : Ready s) :
    ∃ r img, processSync e s = .ok r ∧ r.ret = e.exchangeProcessImageIn ∧
      r.calls = [StackCall.oplk_waitSyncEvent 100000, StackCall.oplk_exchangeProcessImageOut,
        StackCall.oplk_exchangeProcessImageIn img] := by
  obtain ⟨hIn, hOut, hC, hper, -⟩ := hR
  obtain ⟨s1, h1, -, h1In, -, h1per, h1C, -, -, -⟩ := readInput_ok e s hOut
  by_cases hop : (s1.nodeVar_l 0).nmtState = kNmtCsOperational
  · obtain ⟨v, hv, hvper, hvIn⟩ := inputVerifier_ok 0 s1 (by rw [h1C]; exact hC)
    have hcy := cycle_of_verifier e s s1 v hobs h1 hop hv (by rw [hvper, h1per]; omega)
      (by rw [hvIn, h1In]; exact hIn)
    exact ⟨_, _, hcy, rfl, rfl⟩
  · obtain ⟨img, himg⟩ := Option.isSome_iff_exists.mp hIn
    have hcy := processSync_not_operational e s s1 img hobs h1 hop (by rw [h1In, himg])
    exact ⟨_, _, hcy, rfl, rfl⟩

/-- C7: on an initialised state `processSync` returns `kErrorOk` exactly when the tick
wait, the outbound exchange and the inbound exchange all succeed, and otherwise the
error of the first of the three that fails. A failed tick wait is returned without any
exchange being called and without a change of state; a failed inbound exchange is
returned after the cycle has run. -/
theorem C7_return_code (e : SyncEnv) (s : AppState) (hR : Ready s) :
    ∃ r, processSync e s = .ok r ∧
      (r.ret = kErrorOk ↔
        (e.waitSyncEvent = kErrorOk ∧ e.exchangeProcessImageOut = kErrorOk ∧
          e.exchangeProcessImageIn = kErrorOk)) ∧
      (e.waitSyncEvent ≠ kErrorOk →
        r.ret = e.waitSyncEvent ∧ r.state = s ∧
          r.calls = [StackCall.oplk_waitSyncEvent 100000]) ∧
      (e.waitSyncEvent = kErrorOk → e.exchangeProcessImageOut ≠ kErrorOk →
        r.ret = e.exchangeProcessImageOut ∧ r.state = s ∧
          r.calls =
            [StackCall.oplk_waitSyncEvent 100000, StackCall.oplk_exchangeProcessImageOut]) ∧
      (e.waitSyncEvent = kErrorOk → e.exchangeProcessImageOut = kErrorOk →
        r.ret = e.exchangeProcessImageIn ∧
          ∃ img, r.calls =
            [StackCall.oplk_waitSyncEvent 100000, StackCall.oplk_exchangeProcessImageOut,
              StackCall.oplk_exchangeProcessImageIn img]) := by
  by_cases hW : e.waitSyncEvent = kErrorOk
  · by_cases hX : e.exchangeProcessImageOut = kErrorOk
    · obtain ⟨r, img, hr, hret, hcalls⟩ :=
        processSync_observed e s ((observes_iff e).mpr ⟨hW, hX⟩) hR
      refine ⟨r, hr, ?_, fun h => absurd hW h, fun _ h => absurd hX h,
        fun _ _ => ⟨hret, img, hcalls⟩⟩
      rw [hret]
      exact ⟨fun h => ⟨hW, hX, h⟩, fun h => h.2.2⟩
    · refine ⟨⟨e.exchangeProcessImageOut, s, _⟩, by simp [processSync, hW, hX], ?_,
        fun h => absurd hW h, fun _ _ => ⟨rfl, rfl, rfl⟩, fun _ h => absurd h hX⟩
      exact ⟨fun h => absurd h hX, fun h => absurd h.2.1 hX⟩
  · refine ⟨⟨e.waitSyncEvent, s, _⟩, by simp [processSync, hW], ?_,
      fun _ => ⟨rfl, rfl, rfl⟩, fun h => absurd h hW, fun h => absurd h hW⟩
    exact ⟨fun h => absurd h hW, fun h => absurd h.1 hW⟩

/-- C7 at a concrete cycle: the tick wait and the outbound exchange succeed and the
inbound exchange fails with error code 7. -/
theorem C7_return_code_witness :
    ∃ r, processSync inFailEnv (sampleState 2) = .ok r ∧
      (r.ret = kErrorOk ↔
        (inFailEnv.waitSyncEvent = kErrorOk ∧ inFailEnv.exchangeProcessImageOut = kErrorOk ∧
          inFailEnv.exchangeProcessImageIn = kErrorOk)) ∧
      (inFailEnv.waitSyncEvent ≠ kErrorOk →
        r.ret = inFailEnv.waitSyncEvent ∧ r.state = sampleState 2 ∧
          r.calls = [StackCall.oplk_waitSyncEvent 100000]) ∧
      (inFailEnv.waitSyncEvent = kErrorOk → inFailEnv.exchangeProcessImageOut ≠ kErrorOk →
        r.ret = inFailEnv.exchangeProcessImageOut ∧ r.state = sampleState 2 ∧
          r.calls =
            [StackCall.oplk_waitSyncEvent 100000, StackCall.oplk_exchangeProcessImageOut]) ∧
      (inFailEnv.waitSyncEvent = kErrorOk → inFailEnv.exchangeProcessImageOut = kErrorOk →
        r.ret = inFailEnv.exchangeProcessImageIn ∧
          ∃ img, r.calls =
            [StackCall.oplk_waitSyncEvent 100000, StackCall.oplk_exchangeProcessImageOut,
              StackCall.oplk_exchangeProcessImageIn img]) :=
  C7_return_code inFailEnv (sampleState 2) (by decide)


/-! ## C8 and C9: the period chosen by initApp -/

theorem initApp_period (env : InitEnv) (c : tCommInstance) (s : AppState) :
    (initApp env (some c) s).2.appCycle_l =
      (if c.appCycle > 0 then c.appCycle else DATA_CYLE_DELAY) := by
  unfold initApp initProcessImage
  simp only []
  split <;> rfl

theorem initApp_ret (env : InitEnv) (c : tCommInstance) (s : AppState) :
    (initApp env (some c) s).1 =
      (if env.allocProcessImage ≠ kErrorOk then env.allocProcessImage
       else env.setupProcessImage) := by
  unfold initApp initProcessImage
  simp only []
  split <;> rfl

/-- C8, as the code has it: a configured application cycle of 0 is not rejected. For
every non-null instance whose `appCycle` is 0, `initApp` takes the default period
`DATA_CYLE_DELAY` = 1 instead, and its return value is that of the process image
initialisation alone: `kErrorOk` when allocation and setup succeed. -/
theorem C8_zero_period_defaulted (env : InitEnv) (c : tCommInstance) (s : AppState)
    (h0 : c.appCycle = 0) :
    (initApp env (some c) s).2.appCycle_l = 1 ∧
    (initApp env (some c) s).1 =
      (if env.allocProcessImage ≠ kErrorOk then env.allocProcessImage
       else env.setupProcessImage) ∧
    (env.allocProcessImage = kErrorOk → env.setupProcessImage = kErrorOk →
      (initApp env (some c) s).1 = kErrorOk) := by
  refine ⟨?_, initApp_ret env c s, fun ha hs => ?_⟩
  · rw [initApp_period, h0]
    rfl
  · rw [initApp_ret, ha, hs]
    rfl

/-- C8 at a concrete call: application cycle 0 on top of a state whose period was 5. -/
theorem C8_zero_period_defaulted_witness :
    (initApp okInitEnv (some (sampleInstance 0)) (sampleState 5)).2.appCycle_l = 1 ∧
    (initApp okInitEnv (some (sampleInstance 0)) (sampleState 5)).1 =
      (if okInitEnv.allocProcessImage ≠ kErrorOk then okInitEnv.allocProcessImage
       else okInitEnv.setupProcessImage) ∧
    (okInitEnv.allocProcessImage = kErrorOk → okInitEnv.setupProcessImage = kErrorOk →
      (initApp okInitEnv (some (sampleInstance 0)) (sampleState 5)).1 = kErrorOk) :=
  C8_zero_period_defaulted okInitEnv (sampleInstance 0) (sampleState 5) rfl

/-- C8 as stated fails: with a non-null instance whose `appCycle` is 0 and a stack that
sets up the process image, `initApp` returns `kErrorOk` and runs with period 1. -/
theorem C8_counterexample :
    (sampleInstance 0).appCycle = 0 ∧
    (initApp okInitEnv (some (sampleInstance 0)) (sampleState 5)).1 = kErrorOk ∧
    (initApp okInitEnv (some (sampleInstance 0)) (sampleState 5)).2.appCycle_l = 1 :=
  ⟨rfl, rfl, rfl⟩

theorem nodeLoop_active (s : AppState) : nodeLoop activeSlots s = nodeBody s 0 := by
  rw [activeSlots_eq]
  simp only [nodeLoop]
  cases nodeBody s 0 <;> rfl

theorem processSync_chain (e : SyncEnv) (s : AppState) (hobs : observes e = true) :
    processSync e s =
      (match readInput e s with
       | .error f => .error f
       | .ok s1 =>
         match nodeBody s1 0 with
         | .error f => .error f
         | .ok s2 =>
           match writeOutput s2 with
           | .error f => .error f
           | .ok (s3, img) =>
             .ok ⟨e.exchangeProcessImageIn, s3,
               [StackCall.oplk_waitSyncEvent 100000, StackCall.oplk_exchangeProcessImageOut,
                StackCall.oplk_exchangeProcessImageIn img]⟩) := by
  rw [observes_iff] at hobs
  simp only [processSync, hobs.1, hobs.2, ne_eq, not_true_eq_false, if_false,
    nodeLoop_active]

theorem readInput_keepsPeriod (e : SyncEnv) (s : AppState) :
    KeepsPeriod s.appCycle_l (readInput e s) := by
  unfold readInput
  rcases h : s.pProcessImageOut_l with _ | o
  · simp [KeepsPeriod]
  · simp [KeepsPeriod]

theorem nodeBody_keepsPeriod (s : AppState) (i : Fin MAX_NODES) :
    KeepsPeriod s.appCycle_l (nodeBody s i) := by
  unfold nodeBody
  split_ifs with hop
  · simp [KeepsPeriod]
  · rcases inputVerifier_cases i s with h | ⟨v, h, hper, -, -⟩
    · rw [h]
      simp [KeepsPeriod]
    · rw [h]
      simp only []
      by_cases h0 : v.appCycle_l = 0
      · have : runningLeds v i = .error AppFault.divisionByZero := by
          simp [runningLeds, h0]
        rw [this]
        simp only [KeepsPeriod]
        intro hp
        omega
      · rw [runningLeds_ok v i h0]
        simpa [KeepsPeriod] using hper

theorem writeOutput_keepsPeriod (s : AppState) :
    (∃ f, writeOutput s = .error f ∧ f ≠ AppFault.divisionByZero) ∨
      ∃ t img, writeOutput s = .ok (t, img) ∧ t.appCycle_l = s.appCycle_l := by
  unfold writeOutput
  rcases h : s.pProcessImageIn_l with _ | img
  · exact Or.inl ⟨_, rfl, by decide⟩
  · exact Or.inr ⟨_, _, rfl, rfl⟩

/-- A cycle keeps the period, and with a period above zero it does not divide by
zero. -/
theorem processSync_keepsPeriod (e : SyncEnv) (s : AppState) :
    (∀ r, processSync e s = .ok r → r.state.appCycle_l = s.appCycle_l) ∧
    (0 < s.appCycle_l → processSync e s ≠ .error AppFault.divisionByZero) := by
  by_cases hobs : observes e = true
  · rw [processSync_chain e s hobs]
    have h1 := readInput_keepsPeriod e s
    rcases hr : readInput e s with f | s1
    · rw [hr] at h1
      simp only [KeepsPeriod] at h1
      refine ⟨fun r h => by simp at h, fun hp h => ?_⟩
      simp only [Except.error.injEq] at h
      exact h1 hp h
    · rw [hr] at h1
      simp only [KeepsPeriod] at h1
      simp only []
      have h2 := nodeBody_keepsPeriod s1 0
      rcases hb : nodeBody s1 0 with f | s2
      · rw [hb] at h2
        simp only [KeepsPeriod] at h2
        refine ⟨fun r h => by simp at h, fun hp h => ?_⟩
        simp only [Except.error.injEq] at h
        exact h2 (by rw [h1]; exact hp) h
      · rw [hb] at h2
        simp only [KeepsPeriod] at h2
        simp only []
        rcases writeOutput_keepsPeriod s2 with ⟨f, hw, hf⟩ | ⟨t, img, hw, ht⟩
        · rw [hw]
          refine ⟨fun r h => by simp at h, fun _ h => ?_⟩
          simp only [Except.error.injEq] at h
          exact hf h
        · rw [hw]
          refine ⟨fun r h => ?_, fun _ h => by simp at h⟩
          simp only [Except.ok.injEq] at h
          rw [← h]
          simp only []
          rw [ht, h2, h1]
  · rw [observes_iff] at hobs
    unfold processSync
    by_cases hW : e.waitSyncEvent = kErrorOk
    · have hX : e.exchangeProcessImageOut ≠ kErrorOk := fun h => hobs ⟨hW, h⟩
      simp only [hW, hX, ne_eq, not_true_eq_false, not_false_eq_true, if_true, if_false]
      refine ⟨fun r h => ?_, fun _ h => by simp at h⟩
      simp only [Except.ok.injEq] at h
      rw [← h]
    · simp only [hW, ne_eq, not_false_eq_true, if_true]
      refine ⟨fun r h => ?_, fun _ h => by simp at h⟩
      simp only [Except.ok.injEq] at h
      rw [← h]

theorem step_keepsPeriod (a : AppStep) (s : AppState) :
    KeepsPeriod s.appCycle_l (step a s) := by
  cases a with
  | sync env =>
    have h := processSync_keepsPeriod env s
    simp only [step]
    rcases hr : processSync env s with f | r
    · simp only [KeepsPeriod]
      intro hp hf
      rw [hr, hf] at h
      exact h.2 hp rfl
    · simp only [KeepsPeriod]
      exact h.1 r hr
  | nmtChange nodeId st =>
    simp only [step, updateNodeOperationalState]
    split_ifs with h
    · simp [KeepsPeriod]
    · simp [KeepsPeriod]

theorem run_keepsPeriod (steps : List AppStep) :
    ∀ s, KeepsPeriod s.appCycle_l (run steps s) := by
  induction steps with
  | nil => intro s; simp [run, KeepsPeriod]
  | cons a rest ih =>
    intro s
    have h := step_keepsPeriod a s
    simp only [run]
    rcases hs : step a s with f | s1
    · rw [hs] at h
      exact h
    · rw [hs] at h
      simp only [KeepsPeriod] at h
      simp only []
      rw [← h]
      exact ih s1

/-- C9: after `initApp` with a non-null instance the period `appCycle_l` is the
configured `appCycle` when that is above zero and 1 otherwise, so it is at least 1; no
later cycle of `processSync` and no change of a node's NMT state alters it, and so no
later cycle divides by zero in `cnt_g % period`. -/
theorem C9_period_at_least_one (env : InitEnv) (c : tCommInstance) (s : AppState) :
    (initApp env (some c) s).2.appCycle_l = (if c.appCycle > 0 then c.appCycle else 1) ∧
    1 ≤ (initApp env (some c) s).2.appCycle_l ∧
    (∀ steps t, run steps (initApp env (some c) s).2 = .ok t →
      t.appCycle_l = (initApp env (some c) s).2.appCycle_l) ∧
    (∀ steps, run steps (initApp env (some c) s).2 ≠ .error AppFault.divisionByZero) := by
  have h1 := initApp_period env c s
  have h2 : 1 ≤ (initApp env (some c) s).2.appCycle_l := by
    rw [h1]
    split_ifs with h
    · omega
    · decide
  refine ⟨h1, h2, fun steps t ht => ?_, fun steps hf => ?_⟩
  · have h := run_keepsPeriod steps (initApp env (some c) s).2
    rw [ht] at h
    exact h
  · have h := run_keepsPeriod steps (initApp env (some c) s).2
    rw [hf] at h
    exact h (by omega) rfl

/-! ## C10: a node that is not operational -/

/-- C10: when slot 0, the one slot the node loop visits, is in any NMT state other than
`kNmtCsOperational`, a cycle of `processSync` leaves the input phase and the expected
pattern of the node, the tolerance counter and the error counters as they were,
whatever input the cycle presents and whatever the stack calls return. -/
theorem C10_not_operational_frame (e : SyncEnv) (s : AppState)
    (hIn : s.pProcessImageIn_l.isSome = true) (hOut : s.pProcessImageOut_l.isSome = true)
    (hOp : (s.nodeVar_l 0).nmtState ≠ kNmtCsOperational) :
    ∃ r, processSync e s = .ok r ∧
      (r.state.nodeVar_l 0).inLedState = (s.nodeVar_l 0).inLedState ∧
      (r.state.nodeVar_l 0).inleds = (s.nodeVar_l 0).inleds ∧
      r.state.inCnt = s.inCnt ∧ r.state.pCommInstance_l = s.pCommInstance_l ∧
      dataError r.state = dataError s := by
  by_cases hobs : observes e = true
  · obtain ⟨s1, h1, -, h1In, -, -, h1C, h1cnt, h1n, -⟩ := readInput_ok e s hOut
    obtain ⟨img, himg⟩ := Option.isSome_iff_exists.mp hIn
    have hop1 : (s1.nodeVar_l 0).nmtState ≠ kNmtCsOperational := by rw [h1n]; exact hOp
    have hcy := processSync_not_operational e s s1 img hobs h1 hop1 (by rw [h1In, himg])
    refine ⟨_, hcy, ?_, ?_, h1cnt, h1C, ?_⟩
    · simp only []
      rw [h1n]
    · simp only []
      rw [h1n]
    · simp only [dataError]
      rw [h1C]
  · rw [observes_iff] at hobs
    by_cases hW : e.waitSyncEvent = kErrorOk
    · have hX : e.exchangeProcessImageOut ≠ kErrorOk := fun h => hobs ⟨hW, h⟩
      exact ⟨⟨e.exchangeProcessImageOut, s,
          [StackCall.oplk_waitSyncEvent 100000, StackCall.oplk_exchangeProcessImageOut]⟩,
        by simp [processSync, hW, hX], rfl, rfl, rfl, rfl, rfl⟩
    · exact ⟨⟨e.waitSyncEvent, s, [StackCall.oplk_waitSyncEvent 100000]⟩,
        by simp [processSync, hW], rfl, rfl, rfl, rfl, rfl⟩

/-- C10 at a concrete cycle: node 1 still in `kNmtCsBasicEthernet`, expected pattern
0x010 in phase Ascending, tolerance counter 1, and a mismatching input 0x3. -/
theorem C10_not_operational_frame_witness :
    ∃ r, processSync (okEnv 3)
        { (setNode (sampleState 1) 0
            { sampleNode with
              inleds := 0x010, inLedState := kLedAscending,
              nmtState := kNmtCsBasicEthernet }) with inCnt := 1 } = .ok r ∧
      (r.state.nodeVar_l 0).inLedState = kLedAscending ∧
      (r.state.nodeVar_l 0).inleds = 0x010 ∧
      r.state.inCnt = 1 ∧ r.state.pCommInstance_l = some (sampleInstance 1) ∧
      dataError r.state = some 0 :=
  C10_not_operational_frame (okEnv 3)
    { (setNode (sampleState 1) 0
        { sampleNode with
          inleds := 0x010, inLedState := kLedAscending,
          nmtState := kNmtCsBasicEthernet }) with inCnt := 1 }
    rfl rfl (by decide)

/-! ## C11 and C12: when the running light advances -/

theorem readInput_eq (e : SyncEnv) (s : AppState) (h : s.pProcessImageOut_l.isSome = true) :
    readInput e s = .ok (afterRead e s) := by
  obtain ⟨o, ho⟩ := Option.isSome_iff_exists.mp h
  simp [readInput, afterRead, ho, presented]

@[simp]
theorem afterRead_node (e : SyncEnv) (s : AppState) :
    (afterRead e s).nodeVar_l 0 = { s.nodeVar_l 0 with input := presented e } := by
  simp [afterRead]

@[simp]
theorem afterRead_cnt (e : SyncEnv) (s : AppState) :
    (afterRead e s).cnt_g = incUINT s.cnt_g := rfl

@[simp]
theorem afterRead_appCycle (e : SyncEnv) (s : AppState) :
    (afterRead e s).appCycle_l = s.appCycle_l := rfl

@[simp]
theorem afterRead_pIn (e : SyncEnv) (s : AppState) :
    (afterRead e s).pProcessImageIn_l = s.pProcessImageIn_l := rfl

@[simp]
theorem afterRead_pOut (e : SyncEnv) (s : AppState) :
    (afterRead e s).pProcessImageOut_l = some e.imageOut := rfl

@[simp]
theorem afterRead_pComm (e : SyncEnv) (s : AppState) :
    (afterRead e s).pCommInstance_l = s.pCommInstance_l := rfl

@[simp]
theorem afterRead_inCnt (e : SyncEnv) (s : AppState) :
    (afterRead e s).inCnt = s.inCnt := rfl

theorem afterRead_other (e : SyncEnv) (s : AppState) (j : Fin MAX_NODES) (hj : j ≠ 0) :
    (afterRead e s).nodeVar_l j = s.nodeVar_l j :=
  setNode_other _ _ _ _ hj

/-- On an input that is not a mismatch the input check rewrites slot `i` and clears the
tolerance counter; the new record keeps the output side, the NMT state and the input. -/
theorem inputVerifier_match_node (i : Fin MAX_NODES) (s : AppState)
    (hM : mismatches (s.nodeVar_l i) (s.nodeVar_l i).input = false) :
    ∃ n1, inputVerifier i s = .ok { (setNode s i n1) with inCnt := 0 } ∧
      outView n1 = outView (s.nodeVar_l i) ∧ n1.nmtState = (s.nodeVar_l i).nmtState ∧
      n1.input = (s.nodeVar_l i).input := by
  unfold mismatches at hM
  unfold inputVerifier
  rcases hph : (s.nodeVar_l i).inLedState <;> simp only [hph] at hM ⊢ <;> simp at hM
  · rw [if_pos (by simpa using hM)]
    exact ⟨{ s.nodeVar_l i with inleds := shlUINT 0x1 2, inLedState := kLedAscending },
      rfl, rfl, rfl, rfl⟩
  · split_ifs with h1 h2
    · exact ⟨{ s.nodeVar_l i with
          inleds := shlUINT (s.nodeVar_l i).inleds 1, inLedState := kLedDescending },
        rfl, rfl, rfl, rfl⟩
    · exact ⟨{ s.nodeVar_l i with
          inleds := shlUINT (s.nodeVar_l i).inleds 2, inLedState := kLedAscending },
        rfl, rfl, rfl, rfl⟩
    · exact absurd (hM (by simpa using h1)) h2
  · split_ifs with h1 h2
    · exact ⟨{ s.nodeVar_l i with inleds := APP_LED_MASK_4, inLedState := kLedSplitOne },
        rfl, rfl, rfl, rfl⟩
    · exact ⟨{ s.nodeVar_l i with
          inleds := shrUINT (s.nodeVar_l i).inleds 2, inLedState := kLedDescending },
        rfl, rfl, rfl, rfl⟩
    · exact absurd (hM (by tauto)) h2
  · rw [if_pos hM]
    exact ⟨{ s.nodeVar_l i with inleds := APP_LED_MASK_5, inLedState := kLedSplitTwo },
      rfl, rfl, rfl, rfl⟩
  · rw [if_pos hM]
    exact ⟨{ s.nodeVar_l i with inLedState := kLedUnknown }, rfl, rfl, rfl, rfl⟩

/-- Whatever the input check of slot `i` does, it leaves the cycle counter, the period,
the image pointers, the output side of the slot, its NMT state and its input alone. -/
theorem inputVerifier_frame (i : Fin MAX_NODES) (s v : AppState)
    (h : inputVerifier i s = .ok v) :
    v.cnt_g = s.cnt_g ∧ v.appCycle_l = s.appCycle_l ∧
      v.pProcessImageIn_l = s.pProcessImageIn_l ∧
      v.pProcessImageOut_l = s.pProcessImageOut_l ∧
      outView (v.nodeVar_l i) = outView (s.nodeVar_l i) ∧
      (v.nodeVar_l i).nmtState = (s.nodeVar_l i).nmtState ∧
      (v.nodeVar_l i).input = (s.nodeVar_l i).input := by
  rcases hM : mismatches (s.nodeVar_l i) (s.nodeVar_l i).input with _ | _
  · obtain ⟨n1, hv, ho, hn, hi⟩ := inputVerifier_match_node i s hM
    rw [hv] at h
    simp only [Except.ok.injEq] at h
    subst h
    exact ⟨rfl, rfl, rfl, rfl, by simpa using ho, by simpa using hn, by simpa using hi⟩
  · obtain ⟨n1, hv, -, hn, hi, ho1, ho2, -⟩ := inputVerifier_mismatch i s hM
    rw [hv] at h
    unfold countMismatch at h
    split_ifs at h with hc
    · rcases hC : (setNode s i n1).pCommInstance_l with _ | c
      · rw [hC] at h
        simp at h
      · rw [hC] at h
        simp only [Except.ok.injEq] at h
        subst h
        exact ⟨rfl, rfl, rfl, rfl, by simp [outView, ho1, ho2], by simpa using hn,
          by simpa using hi⟩
    · simp only [Except.ok.injEq] at h
      subst h
      exact ⟨rfl, rfl, rfl, rfl, by simp [outView, ho1, ho2], by simpa using hn,
        by simpa using hi⟩

theorem refreshOld_outView (n : APP_NODE_VAR_T) : outView (refreshOld n) = outView n := by
  unfold refreshOld outView
  simp only []
  split <;> split <;> rfl

/-- The output side of the record the running light leaves in slot `i`: one advance of
the sequence when `cnt_g % appCycle_l == 0`, no change otherwise. -/
theorem litNode_outView (s : AppState) (i : Fin MAX_NODES) :
    outView (litNode s i) =
      (if s.cnt_g % s.appCycle_l = 0 then outView (outputSequencer (s.nodeVar_l i))
       else outView (s.nodeVar_l i)) := by
  unfold litNode
  rw [refreshOld_outView]
  split_ifs with h
  · exact outputSequencer_outView _ _ rfl
  · rfl

/-- An observed cycle on an initialised state with slot 0 operational succeeds; the
output side of slot 0 advances exactly when the incremented cycle counter is a multiple
of the period, the new output pattern is written to the inbound image and handed to the
inbound exchange, whose result is returned. -/
theorem processSync_output (e : SyncEnv) (s : AppState) (hobs : observes e = true)
    (hR : Ready s) (hOp : (s.nodeVar_l 0).nmtState = kNmtCsOperational) :
    ∃ r, processSync e s = .ok r ∧
      outView (r.state.nodeVar_l 0) =
        (if incUINT s.cnt_g % s.appCycle_l = 0 then outView (outputSequencer (s.nodeVar_l 0))
         else outView (s.nodeVar_l 0)) ∧
      r.state.cnt_g = incUINT s.cnt_g ∧
      r.state.pProcessImageIn_l = some ⟨(r.state.nodeVar_l 0).outleds⟩ ∧
      r.calls = [StackCall.oplk_waitSyncEvent 100000, StackCall.oplk_exchangeProcessImageOut,
        StackCall.oplk_exchangeProcessImageIn ⟨(r.state.nodeVar_l 0).outleds⟩] ∧
      r.ret = e.exchangeProcessImageIn := by
  obtain ⟨hIn, hOut, hC, hper, -⟩ := hR
  have h1 := readInput_eq e s hOut
  obtain ⟨v, hv, -, -⟩ := inputVerifier_ok 0 (afterRead e s) (by simpa using hC)
  obtain ⟨hvcnt, hvper, hvIn, -, hvout, -, -⟩ := inputVerifier_frame 0 _ v hv
  have hcy := cycle_of_verifier e s _ v hobs h1 (by simpa using hOp) hv
    (by rw [hvper]; simp; omega) (by rw [hvIn]; simpa using hIn)
  refine ⟨_, hcy, ?_, ?_, ?_, ?_, rfl⟩
  · simp only [setNode_same]
    rw [litNode_outView, hvcnt, hvper]
    simp only [afterRead_cnt, afterRead_appCycle]
    have hv2 : outView (v.nodeVar_l 0) = outView (s.nodeVar_l 0) := by
      rw [hvout]
      simp [outView]
    rw [hv2, outputSequencer_outView _ _ hv2]
  · simp [hvcnt]
  · simp
  · simp

/-- C11, as the code has it: the `continue` for a node that is not operational skips
the running light as well as the input check. In a cycle that passes the outbound
exchange, the output pattern and output phase of a node that is not operational stay
as they were, also when the cycle counter is a multiple of the period; for an
operational node they advance by one step when the incremented cycle counter is a
multiple of the period. -/
theorem C11_sequencer_gated_too (e : SyncEnv) (s : AppState) (hobs : observes e = true)
    (hR : Ready s) :
    ∃ r, processSync e s = .ok r ∧ r.state.cnt_g = incUINT s.cnt_g ∧
      ((s.nodeVar_l 0).nmtState ≠ kNmtCsOperational →
        outView (r.state.nodeVar_l 0) = outView (s.nodeVar_l 0)) ∧
      ((s.nodeVar_l 0).nmtState = kNmtCsOperational →
        r.state.cnt_g % s.appCycle_l = 0 →
        outView (r.state.nodeVar_l 0) = outView (outputSequencer (s.nodeVar_l 0))) := by
  by_cases hOp : (s.nodeVar_l 0).nmtState = kNmtCsOperational
  · obtain ⟨r, hr, hout, hcnt, -⟩ := processSync_output e s hobs hR hOp
    refine ⟨r, hr, hcnt, fun h => absurd hOp h, fun _ hm => ?_⟩
    rw [hcnt] at hm
    rw [hout, if_pos hm]
  · obtain ⟨hIn, hOut, -⟩ := hR
    obtain ⟨img, himg⟩ := Option.isSome_iff_exists.mp hIn
    have hcy := processSync_not_operational e s (afterRead e s) img hobs
      (readInput_eq e s hOut) (by simpa using hOp) (by simpa using himg)
    refine ⟨_, hcy, rfl, fun _ => ?_, fun h => absurd h hOp⟩
    simp [outView]

/-- C11 at a concrete cycle: period 1, node 1 still in `kNmtCsBasicEthernet`. -/
theorem C11_sequencer_gated_too_witness :
    ∃ r, processSync (okEnv 1) (idleState 1) = .ok r ∧
      r.state.cnt_g = incUINT (idleState 1).cnt_g ∧
      (((idleState 1).nodeVar_l 0).nmtState ≠ kNmtCsOperational →
        outView (r.state.nodeVar_l 0) = outView ((idleState 1).nodeVar_l 0)) ∧
      (((idleState 1).nodeVar_l 0).nmtState = kNmtCsOperational →
        r.state.cnt_g % (idleState 1).appCycle_l = 0 →
        outView (r.state.nodeVar_l 0) =
          outView (outputSequencer ((idleState 1).nodeVar_l 0))) :=
  C11_sequencer_gated_too (okEnv 1) (idleState 1) rfl (by decide)

/-- C11 as stated fails: with period 1 and a node that is not operational, a cycle in
which every stack call succeeds ends with cycle counter 1, a multiple of the period,
and the output pattern and phase are still 0 and Unknown, where one advance of the
sequence would give 0x001 and Ascending. -/
theorem C11_counterexample :
    observes (okEnv 1) = true ∧ (idleState 1).appCycle_l = 1 ∧
    ((idleState 1).nodeVar_l 0).nmtState = kNmtCsBasicEthernet ∧
    outView (outputSequencer ((idleState 1).nodeVar_l 0)) = (0x001, kLedAscending) ∧
    ∃ r, processSync (okEnv 1) (idleState 1) = .ok r ∧ r.state.cnt_g = 1 ∧
      r.state.cnt_g % (idleState 1).appCycle_l = 0 ∧
      outView (r.state.nodeVar_l 0) = (0, kLedUnknown) :=
  ⟨rfl, rfl, rfl, rfl, _, rfl, rfl, rfl, rfl⟩

/-- C12: for an operational node on an initialised state (period `p >= 1`), a cycle
that passes the outbound exchange advances the output pattern and output phase by one
step of the sequence when the cycle counter, after its increment in this cycle, is a
multiple of `p`, and leaves both unchanged when it is not. With `p = 1` every such
cycle advances them. -/
theorem C12_sequencer_every_period (e : SyncEnv) (s : AppState) (hobs : observes e = true)
    (hR : Ready s) (hOp : (s.nodeVar_l 0).nmtState = kNmtCsOperational) :
    ∃ r, processSync e s = .ok r ∧ r.state.cnt_g = incUINT s.cnt_g ∧
      (r.state.cnt_g % s.appCycle_l = 0 →
        outView (r.state.nodeVar_l 0) = outView (outputSequencer (s.nodeVar_l 0))) ∧
      (r.state.cnt_g % s.appCycle_l ≠ 0 →
        outView (r.state.nodeVar_l 0) = outView (s.nodeVar_l 0)) ∧
      (s.appCycle_l = 1 →
        outView (r.state.nodeVar_l 0) = outView (outputSequencer (s.nodeVar_l 0))) := by
  obtain ⟨r, hr, hout, hcnt, -⟩ := processSync_output e s hobs hR hOp
  refine ⟨r, hr, hcnt, fun hm => ?_, fun hm => ?_, fun h1 => ?_⟩
  · rw [hcnt] at hm
    rw [hout, if_pos hm]
  · rw [hcnt] at hm
    rw [hout, if_neg hm]
  · rw [hout, if_pos (by rw [h1]; exact Nat.mod_one _)]

/-- C12 at a concrete cycle: period 2 and cycle counter 0 beforehand, so the counter is
1 after the increment and the output side stays put. -/
theorem C12_sequencer_every_period_witness :
    ∃ r, processSync (okEnv 1) (sampleState 2) = .ok r ∧
      r.state.cnt_g = incUINT (sampleState 2).cnt_g ∧
      (r.state.cnt_g % (sampleState 2).appCycle_l = 0 →
        outView (r.state.nodeVar_l 0) =
          outView (outputSequencer ((sampleState 2).nodeVar_l 0))) ∧
      (r.state.cnt_g % (sampleState 2).appCycle_l ≠ 0 →
        outView (r.state.nodeVar_l 0) = outView ((sampleState 2).nodeVar_l 0)) ∧
      ((sampleState 2).appCycle_l = 1 →
        outView (r.state.nodeVar_l 0) =
          outView (outputSequencer ((sampleState 2).nodeVar_l 0))) :=
  C12_sequencer_every_period (okEnv 1) (sampleState 2) rfl (by decide) rfl

/-! ## C13: what initApp resets -/

theorem initApp_state (env : InitEnv) (c : tCommInstance) (s : AppState) :
    (initApp env (some c) s).2.nodeVar_l 0 = initNode (s.nodeVar_l 0) ∧
      (initApp env (some c) s).2.inCnt = s.inCnt ∧
      ∀ j, j ≠ 0 → (initApp env (some c) s).2.nodeVar_l j = s.nodeVar_l j := by
  unfold initApp initProcessImage
  simp only [activeSlots_eq, List.foldl]
  split
  · exact ⟨by simp, rfl, fun j hj => setNode_other _ _ _ _ hj⟩
  · exact ⟨by simp, rfl, fun j hj => setNode_other _ _ _ _ hj⟩

/-- What `initApp` does reset: every call with a non-null instance, from any prior
state, leaves each configured node slot (slot 0 is the only one) with current and
previous input 0, current and previous output 0, and input phase and output phase both
Unknown. -/
theorem initApp_resets_slots (env : InitEnv) (c : tCommInstance) (s : AppState) :
    activeSlots = [0] ∧
    (∀ i, i ∈ activeSlots →
      ((initApp env (some c) s).2.nodeVar_l i).input = 0 ∧
      ((initApp env (some c) s).2.nodeVar_l i).inputOld = 0 ∧
      ((initApp env (some c) s).2.nodeVar_l i).outleds = 0 ∧
      ((initApp env (some c) s).2.nodeVar_l i).ledsOld = 0 ∧
      ((initApp env (some c) s).2.nodeVar_l i).inLedState = kLedUnknown ∧
      ((initApp env (some c) s).2.nodeVar_l i).outLedState = kLedUnknown) := by
  refine ⟨activeSlots_eq, fun i hi => ?_⟩
  rw [activeSlots_eq, List.mem_singleton] at hi
  subst hi
  rw [(initApp_state env c s).1]
  exact ⟨rfl, rfl, rfl, rfl, rfl, rfl⟩

/-- C13, evaluated at a restart. With period 2 and node 1 operational, two cycles with
input 0 are mismatches in phase Unknown and leave the static `inCnt` of `processSync`
at 2 with no data error counted. `initApp`, called as the restart path of `main` calls
it (with the instance the variables already point to), succeeds and clears the record of
slot 0, but the tolerance counter is still 2, not 0. Once node 1 is reported operational
again, the first mismatching cycle finds `inCnt == appCycle_l` and counts a data error at
once; the same two steps after the first initialisation of a program run count none. -/
theorem C13_restart_keeps_stale_tolerance :
    ∃ t, runSync [okEnv 0, okEnv 0] (sampleState 2) = .ok t ∧
      mismatchTrace [okEnv 0, okEnv 0] (sampleState 2) = [true, true] ∧
      t.inCnt = 2 ∧ dataError t = some 0 ∧
      t.pCommInstance_l = some (sampleInstance 2) ∧
      (initApp okInitEnv t.pCommInstance_l t).1 = kErrorOk ∧
      (((initApp okInitEnv t.pCommInstance_l t).2.nodeVar_l 0).input = 0 ∧
        ((initApp okInitEnv t.pCommInstance_l t).2.nodeVar_l 0).inputOld = 0 ∧
        ((initApp okInitEnv t.pCommInstance_l t).2.nodeVar_l 0).outleds = 0 ∧
        ((initApp okInitEnv t.pCommInstance_l t).2.nodeVar_l 0).ledsOld = 0 ∧
        ((initApp okInitEnv t.pCommInstance_l t).2.nodeVar_l 0).inLedState = kLedUnknown ∧
        ((initApp okInitEnv t.pCommInstance_l t).2.nodeVar_l 0).outLedState = kLedUnknown) ∧
      (initApp okInitEnv t.pCommInstance_l t).2.cnt_g = 0 ∧
      (initApp okInitEnv t.pCommInstance_l t).2.appCycle_l = 2 ∧
      (initApp okInitEnv t.pCommInstance_l t).2.inCnt = 2 ∧
      (initApp okInitEnv t.pCommInstance_l t).2.inCnt ≠ 0 ∧
      (∃ u, run [AppStep.nmtChange 1 kNmtCsOperational, AppStep.sync (okEnv 0)]
          (initApp okInitEnv t.pCommInstance_l t).2 = .ok u ∧
        dataError u = some 1 ∧ u.inCnt = 0) ∧
      (∃ v, run [AppStep.nmtChange 1 kNmtCsOperational, AppStep.sync (okEnv 0)]
          (initApp okInitEnv (some (sampleInstance 2)) programStart).2 = .ok v ∧
        dataError v = some 0 ∧ v.inCnt = 1) :=
  ⟨_, rfl, rfl, rfl, rfl, rfl, rfl, ⟨rfl, rfl, rfl, rfl, rfl, rfl⟩, rfl, rfl, rfl, by decide,
    ⟨_, rfl, rfl, rfl⟩, ⟨_, rfl, rfl, rfl⟩⟩

/-! ## C14: the patterns stay within 12 bits -/

theorem outOk_congr (a b : APP_NODE_VAR_T) (h : outView a = outView b) (ha : outOk a) :
    outOk b := by
  simp only [outView, Prod.mk.injEq] at h
  unfold outOk at *
  rw [← h.1, ← h.2]
  exact ha

theorem inOk_congr (a b : APP_NODE_VAR_T) (h1 : a.inLedState = b.inLedState)
    (h2 : a.inleds = b.inleds) (ha : inOk a) : inOk b := by
  unfold inOk at *
  rw [← h1, ← h2]
  exact ha

theorem mask1_eq : APP_LED_MASK_1 = 1024 := by decide

theorem mask5_eq : APP_LED_MASK_5 = 1386 := by decide

theorem mask4_eq : APP_LED_MASK_4 = 2709 := by decide

theorem shlUINT_one (x : Nat) : shlUINT x 1 = (x * 2) % 4294967296 := rfl

theorem shlUINT_two (x : Nat) : shlUINT x 2 = (x * 4) % 4294967296 := rfl

theorem shrUINT_two (x : Nat) : shrUINT x 2 = x / 4 := rfl

theorem outOk_bound (n : APP_NODE_VAR_T) (h : outOk n) : n.outleds < 2 ^ 12 := by
  unfold outOk at h
  rcases hph : n.outLedState <;> simp only [hph] at h <;> omega

theorem inOk_bound (n : APP_NODE_VAR_T) (h : inOk n) : n.inleds < 2 ^ 12 := by
  unfold inOk at h
  rcases hph : n.inLedState <;> simp only [hph] at h <;> omega

theorem outputSequencer_outOk (n : APP_NODE_VAR_T) (h : outOk n) :
    outOk (outputSequencer n) := by
  unfold outOk at h
  unfold outputSequencer
  rcases hph : n.outLedState <;> simp only [hph] at h ⊢
  · simp [outOk]
  · rw [mask1_eq]
    split_ifs with h1
    · simp only [outOk, shlUINT_one]
      omega
    · simp only [outOk, shlUINT_two, hph]
      omega
  · simp only [shrUINT_two]
    split_ifs with h1
    · simp only [outOk]
      exact h1
    · simp only [outOk, hph]
      omega
  · simp [outOk, mask4_eq]
  · simp [outOk, mask5_eq]

theorem countMismatch_node (s v : AppState) (h : countMismatch s = .ok v) :
    v.nodeVar_l = s.nodeVar_l := by
  rcases countMismatch_cases s with h1 | ⟨w, h1, -, -, hn, -⟩
  · rw [h1] at h
    simp at h
  · rw [h1] at h
    simp only [Except.ok.injEq] at h
    rw [← h]
    exact hn

/-- The input check keeps the expected pattern among those its phase can hold. -/
theorem inputVerifier_inOk (i : Fin MAX_NODES) (s v : AppState)
    (h : inputVerifier i s = .ok v) (hok : inOk (s.nodeVar_l i)) : inOk (v.nodeVar_l i) := by
  unfold inOk at hok
  unfold inputVerifier at h
  rcases hph : (s.nodeVar_l i).inLedState <;> simp only [hph] at h hok
  · split_ifs at h with h1
    · simp only [Except.ok.injEq] at h
      subst h
      simp [inOk, shlUINT_two]
    · rw [countMismatch_node _ _ h]
      simp [inOk, hph]
  · rw [mask1_eq] at h
    split_ifs at h with h1 h2
    · simp only [Except.ok.injEq] at h
      subst h
      simp only [setNode_same, inOk, shlUINT_one]
      omega
    · simp only [Except.ok.injEq] at h
      subst h
      simp only [setNode_same, inOk, shlUINT_two, hph]
      omega
    · rw [countMismatch_node _ _ h]
      simp only [inOk, hph]
      exact hok
  · split_ifs at h with h1 h2
    · simp only [Except.ok.injEq] at h
      subst h
      simp [inOk, mask4_eq]
    · simp only [Except.ok.injEq] at h
      subst h
      simp only [setNode_same, inOk, shrUINT_two, hph]
      omega
    · rw [countMismatch_node _ _ h]
      simp only [inOk, hph]
      exact hok
  · split_ifs at h with h1
    · simp only [Except.ok.injEq] at h
      subst h
      simp [inOk, mask5_eq]
    · rw [countMismatch_node _ _ h]
      simp only [inOk, hph]
      exact hok
  · split_ifs at h with h1
    · simp only [Except.ok.injEq] at h
      subst h
      simp only [setNode_same, inOk]
      omega
    · rw [countMismatch_node _ _ h]
      simp only [inOk, hph]
      exact hok

theorem litNode_ok (s : AppState) (i : Fin MAX_NODES)
    (h : inOk (s.nodeVar_l i) ∧ outOk (s.nodeVar_l i)) :
    inOk (litNode s i) ∧ outOk (litNode s i) := by
  have hsc := litNode_sameCheck s i
  refine ⟨inOk_congr _ _ hsc.1.symm hsc.2.1.symm h.1, ?_⟩
  have hv := litNode_outView s i
  split_ifs at hv with hm
  · exact outOk_congr _ _ hv.symm (outputSequencer_outOk _ h.2)
  · exact outOk_congr _ _ hv.symm h.2

theorem nodeBody_ok (s s2 : AppState) (i : Fin MAX_NODES) (h : nodeBody s i = .ok s2)
    (hok : inOk (s.nodeVar_l i) ∧ outOk (s.nodeVar_l i)) :
    inOk (s2.nodeVar_l i) ∧ outOk (s2.nodeVar_l i) := by
  unfold nodeBody at h
  split_ifs at h with hop
  · simp only [Except.ok.injEq] at h
    rw [← h]
    exact hok
  · rcases hv : inputVerifier i s with f | v
    · rw [hv] at h
      simp at h
    · rw [hv] at h
      simp only [] at h
      have hin := inputVerifier_inOk i s v hv hok.1
      obtain ⟨-, -, -, -, hout, -, -⟩ := inputVerifier_frame i s v hv
      by_cases h0 : v.appCycle_l = 0
      · simp [runningLeds, h0] at h
      · rw [runningLeds_ok v i h0] at h
        simp only [Except.ok.injEq] at h
        rw [← h, setNode_same]
        exact litNode_ok v i ⟨hin, outOk_congr _ _ hout.symm hok.2⟩

/-- A cycle keeps the two patterns of slot 0 among those their phases can hold. -/
theorem processSync_ok_patterns (e : SyncEnv) (s : AppState) (r : SyncResult)
    (h : processSync e s = .ok r)
    (hok : inOk (s.nodeVar_l 0) ∧ outOk (s.nodeVar_l 0)) :
    inOk (r.state.nodeVar_l 0) ∧ outOk (r.state.nodeVar_l 0) := by
  by_cases hobs : observes e = true
  · rw [processSync_chain e s hobs] at h
    rcases hout : s.pProcessImageOut_l with _ | o
    · simp [readInput, hout] at h
    · rw [readInput_eq e s (by simp [hout])] at h
      simp only [] at h
      rcases hb : nodeBody (afterRead e s) 0 with f | s2
      · rw [hb] at h
        simp at h
      · rw [hb] at h
        simp only [] at h
        have h2 := nodeBody_ok _ s2 0 hb
          ⟨inOk_congr _ _ (by simp) (by simp) hok.1,
           outOk_congr _ _ (by simp [outView]) hok.2⟩
        unfold writeOutput at h
        rcases hin : s2.pProcessImageIn_l with _ | img
        · rw [hin] at h
          simp at h
        · rw [hin] at h
          simp only [Except.ok.injEq] at h
          rw [← h]
          exact h2
  · rw [observes_iff] at hobs
    unfold processSync at h
    by_cases hW : e.waitSyncEvent = kErrorOk
    · have hX : e.exchangeProcessImageOut ≠ kErrorOk := fun h => hobs ⟨hW, h⟩
      simp only [hW, hX, ne_eq, not_true_eq_false, not_false_eq_true, if_true, if_false,
        Except.ok.injEq] at h
      rw [← h]
      exact hok
    · simp only [hW, ne_eq, not_false_eq_true, if_true, Except.ok.injEq] at h
      rw [← h]
      exact hok

theorem step_ok_patterns (a : AppStep) (s t : AppState) (h : step a s = .ok t)
    (hok : inOk (s.nodeVar_l 0) ∧ outOk (s.nodeVar_l 0)) :
    inOk (t.nodeVar_l 0) ∧ outOk (t.nodeVar_l 0) := by
  cases a with
  | sync env =>
    simp only [step] at h
    rcases hr : processSync env s with f | r
    · rw [hr] at h
      simp at h
    · rw [hr] at h
      simp only [Except.ok.injEq] at h
      rw [← h]
      exact processSync_ok_patterns env s r hr hok
  | nmtChange nodeId st =>
    simp only [step, updateNodeOperationalState] at h
    split_ifs at h with hi
    simp only [Except.ok.injEq] at h
    rw [← h]
    by_cases h0 : (⟨nodeId - 1, hi.2⟩ : Fin MAX_NODES) = 0
    · rw [h0, setNode_same]
      exact ⟨inOk_congr _ _ rfl rfl hok.1, outOk_congr _ _ rfl hok.2⟩
    · rw [setNode_other _ _ _ _ (Ne.symm h0)]
      exact hok

theorem run_ok_patterns (steps : List AppStep) :
    ∀ s t, run steps s = .ok t → inOk (s.nodeVar_l 0) ∧ outOk (s.nodeVar_l 0) →
      inOk (t.nodeVar_l 0) ∧ outOk (t.nodeVar_l 0) := by
  induction steps with
  | nil =>
    intro s t h hok
    simp only [run, Except.ok.injEq] at h
    rw [← h]
    exact hok
  | cons a rest ih =>
    intro s t h hok
    simp only [run] at h
    rcases hs : step a s with f | s1
    · rw [hs] at h
      simp at h
    · rw [hs] at h
      exact ih s1 t h (step_ok_patterns a s s1 hs hok)

/-- C14: from the node table as `initApp` leaves it after program start, whatever the
configured period, every state reached by a sequence of `processSync` cycles (any
presented inputs, any results of the stack calls) and changes of the NMT state of any
node has an output pattern and an expected input pattern of slot 0 below 2^12. -/
theorem C14_patterns_within_12_bits (env : InitEnv) (c : tCommInstance)
    (steps : List AppStep) (t : AppState)
    (h : run steps (initApp env (some c) programStart).2 = .ok t) :
    (t.nodeVar_l 0).outleds < 2 ^ 12 ∧ (t.nodeVar_l 0).inleds < 2 ^ 12 := by
  have h0 : inOk ((initApp env (some c) programStart).2.nodeVar_l 0) ∧
      outOk ((initApp env (some c) programStart).2.nodeVar_l 0) := by
    rw [(initApp_state env c programStart).1]
    constructor
    · simp [inOk, initNode, programStart]
    · simp [outOk, initNode]
  have ht := run_ok_patterns steps _ t h h0
  exact ⟨outOk_bound _ ht.2, inOk_bound _ ht.1⟩

/-- C14 at a concrete session: period 1, node 1 made operational, three cycles. -/
theorem C14_patterns_within_12_bits_witness :
    ∃ t, run sampleSteps (initApp okInitEnv (some (sampleInstance 1)) programStart).2 = .ok t ∧
      (t.nodeVar_l 0).outleds < 2 ^ 12 ∧ (t.nodeVar_l 0).inleds < 2 ^ 12 :=
  ⟨_, rfl, C14_patterns_within_12_bits okInitEnv (sampleInstance 1) sampleSteps _ rfl⟩

/-! ## C15 to C18: the transitions of the input check -/

/-- An observed cycle on an initialised state with slot 0 operational, seen from the
input check: the cycle succeeds and what it leaves of the input phase, the expected
pattern, the tolerance counter and the instance is what the input check left. -/
theorem cycle_check (e : SyncEnv) (s : AppState) (hobs : observes e = true)
    (hR : Ready s) (hOp : (s.nodeVar_l 0).nmtState = kNmtCsOperational) :
    ∃ v r, inputVerifier 0 (afterRead e s) = .ok v ∧ processSync e s = .ok r ∧
      (r.state.nodeVar_l 0).inLedState = (v.nodeVar_l 0).inLedState ∧
      (r.state.nodeVar_l 0).inleds = (v.nodeVar_l 0).inleds ∧
      r.state.inCnt = v.inCnt ∧ r.state.pCommInstance_l = v.pCommInstance_l := by
  obtain ⟨hIn, hOut, hC, hper, -⟩ := hR
  have h1 := readInput_eq e s hOut
  obtain ⟨v, hv, -, -⟩ := inputVerifier_ok 0 (afterRead e s) (by simpa using hC)
  obtain ⟨-, hvper, hvIn, -⟩ := inputVerifier_frame 0 _ v hv
  have hcy := cycle_of_verifier e s _ v hobs h1 (by simpa using hOp) hv
    (by rw [hvper]; simp; omega) (by rw [hvIn]; simpa using hIn)
  have hsc := litNode_sameCheck v 0
  refine ⟨v, _, hv, hcy, ?_, ?_, rfl, rfl⟩
  · simp only [setNode_same]
    exact hsc.1
  · simp only [setNode_same]
    exact hsc.2.1

theorem result_unique (e : SyncEnv) (s : AppState) (r r1 : SyncResult)
    (h : processSync e s = .ok r) (h1 : processSync e s = .ok r1) : r = r1 := by
  rw [h] at h1
  exact Except.ok.inj h1

/-- C15: in every input phase, a cycle on an initialised state that presents a
mismatching input to the operational node leaves the input phase as it was, whether
the mismatch is absorbed or counted as a data error, and the cycle runs on: the output
side advances or rests as the cycle counter says, the output pattern is written to the
inbound image, the inbound exchange is called with it and its result is returned. -/
theorem C15_mismatch_keeps_phase (e : SyncEnv) (s : AppState) (hobs : observes e = true)
    (hR : Ready s) (hOp : (s.nodeVar_l 0).nmtState = kNmtCsOperational)
    (hM : mismatches (s.nodeVar_l 0) (presented e) = true) :
    ∃ r, processSync e s = .ok r ∧
      (r.state.nodeVar_l 0).inLedState = (s.nodeVar_l 0).inLedState ∧
      outView (r.state.nodeVar_l 0) =
        (if incUINT s.cnt_g % s.appCycle_l = 0 then outView (outputSequencer (s.nodeVar_l 0))
         else outView (s.nodeVar_l 0)) ∧
      r.state.pProcessImageIn_l = some ⟨(r.state.nodeVar_l 0).outleds⟩ ∧
      r.calls = [StackCall.oplk_waitSyncEvent 100000, StackCall.oplk_exchangeProcessImageOut,
        StackCall.oplk_exchangeProcessImageIn ⟨(r.state.nodeVar_l 0).outleds⟩] ∧
      r.ret = e.exchangeProcessImageIn := by
  obtain ⟨r, hr, -, -, -, hph, -⟩ := processSync_mismatch e s hobs hR hOp hM
  obtain ⟨r1, hr1, hout, -, himg, hcalls, hret⟩ := processSync_output e s hobs hR hOp
  have hu := result_unique e s r r1 hr hr1
  subst hu
  exact ⟨r, hr, hph, hout, himg, hcalls, hret⟩

/-- C15 at a concrete cycle: period 1 and tolerance counter 1, so the mismatch 0x6 in
phase Unknown is counted as a data error. -/
theorem C15_mismatch_keeps_phase_witness :
    ∃ r, processSync (okEnv 6) (tolerantState 1 1) = .ok r ∧
      (r.state.nodeVar_l 0).inLedState = ((tolerantState 1 1).nodeVar_l 0).inLedState ∧
      outView (r.state.nodeVar_l 0) =
        (if incUINT (tolerantState 1 1).cnt_g % (tolerantState 1 1).appCycle_l = 0 then
          outView (outputSequencer ((tolerantState 1 1).nodeVar_l 0))
         else outView ((tolerantState 1 1).nodeVar_l 0)) ∧
      r.state.pProcessImageIn_l = some ⟨(r.state.nodeVar_l 0).outleds⟩ ∧
      r.calls = [StackCall.oplk_waitSyncEvent 100000, StackCall.oplk_exchangeProcessImageOut,
        StackCall.oplk_exchangeProcessImageIn ⟨(r.state.nodeVar_l 0).outleds⟩] ∧
      r.ret = (okEnv 6).exchangeProcessImageIn :=
  C15_mismatch_keeps_phase (okEnv 6) (tolerantState 1 1) rfl (by decide) rfl rfl

theorem inputVerifier_ascending (i : Fin MAX_NODES) (s : AppState)
    (hph : (s.nodeVar_l i).inLedState = kLedAscending) :
    ((s.nodeVar_l i).input = APP_LED_MASK_1 →
      inputVerifier i s = .ok
        { (setNode s i { s.nodeVar_l i with
            inleds := shlUINT (s.nodeVar_l i).inleds 1, inLedState := kLedDescending })
          with inCnt := 0 }) ∧
    ((s.nodeVar_l i).input ≠ APP_LED_MASK_1 → (s.nodeVar_l i).input = (s.nodeVar_l i).inleds →
      inputVerifier i s = .ok
        { (setNode s i { s.nodeVar_l i with inleds := shlUINT (s.nodeVar_l i).inleds 2 })
          with inCnt := 0 }) := by
  unfold inputVerifier
  simp only [hph]
  constructor
  · intro h
    rw [if_pos h]
  · intro h1 h2
    rw [if_neg h1, if_pos h2]

theorem inputVerifier_descending (i : Fin MAX_NODES) (s : AppState)
    (hph : (s.nodeVar_l i).inLedState = kLedDescending) :
    ((s.nodeVar_l i).inleds = 0x02 ∧ (s.nodeVar_l i).input = 0x02 →
      inputVerifier i s = .ok
        { (setNode s i { s.nodeVar_l i with
            inleds := APP_LED_MASK_4, inLedState := kLedSplitOne })
          with inCnt := 0 }) ∧
    (¬ ((s.nodeVar_l i).inleds = 0x02 ∧ (s.nodeVar_l i).input = 0x02) →
      (s.nodeVar_l i).input = (s.nodeVar_l i).inleds →
      inputVerifier i s = .ok
        { (setNode s i { s.nodeVar_l i with inleds := shrUINT (s.nodeVar_l i).inleds 2 })
          with inCnt := 0 }) ∧
    (¬ ((s.nodeVar_l i).inleds = 0x02 ∧ (s.nodeVar_l i).input = 0x02) →
      (s.nodeVar_l i).input ≠ (s.nodeVar_l i).inleds →
      inputVerifier i s = countMismatch s) := by
  unfold inputVerifier
  simp only [hph]
  refine ⟨fun h => ?_, fun h1 h2 => ?_, fun h1 h2 => ?_⟩
  · rw [if_pos h]
  · rw [if_neg h1, if_pos h2]
  · rw [if_neg h1, if_neg h2]

theorem inputVerifier_split (i : Fin MAX_NODES) (s : AppState)
    (hin : (s.nodeVar_l i).input = (s.nodeVar_l i).inleds) :
    ((s.nodeVar_l i).inLedState = kLedSplitOne →
      inputVerifier i s = .ok
        { (setNode s i { s.nodeVar_l i with
            inleds := APP_LED_MASK_5, inLedState := kLedSplitTwo })
          with inCnt := 0 }) ∧
    ((s.nodeVar_l i).inLedState = kLedSplitTwo →
      inputVerifier i s = .ok
        { (setNode s i { s.nodeVar_l i with inLedState := kLedUnknown }) with inCnt := 0 }) := by
  unfold inputVerifier
  constructor
  · intro hph
    simp only [hph]
    rw [if_pos hin]
  · intro hph
    simp only [hph]
    rw [if_pos hin]

/-- C16: in input phase Ascending on an operational node, an observed input 0x400 (the
turn pattern) moves the phase to Descending, shifts the expected pattern left by 1 and
clears the tolerance counter, whatever the expected pattern is; any other observed input
that equals the expected pattern shifts the expected pattern left by 2, keeps the phase
Ascending and clears the tolerance counter. The turn is tested first: with expected and
observed both 0x400 the new expected pattern is 0x800. -/
theorem C16_ascending_transitions (e : SyncEnv) (s : AppState) (hobs : observes e = true)
    (hR : Ready s) (hOp : (s.nodeVar_l 0).nmtState = kNmtCsOperational)
    (hPh : (s.nodeVar_l 0).inLedState = kLedAscending) :
    ∃ r, processSync e s = .ok r ∧
      (presented e = 0x400 →
        (r.state.nodeVar_l 0).inLedState = kLedDescending ∧
        (r.state.nodeVar_l 0).inleds = shlUINT (s.nodeVar_l 0).inleds 1 ∧
        r.state.inCnt = 0) ∧
      (presented e ≠ 0x400 → presented e = (s.nodeVar_l 0).inleds →
        (r.state.nodeVar_l 0).inLedState = kLedAscending ∧
        (r.state.nodeVar_l 0).inleds = shlUINT (s.nodeVar_l 0).inleds 2 ∧
        r.state.inCnt = 0) ∧
      (presented e = 0x400 → (s.nodeVar_l 0).inleds = 0x400 →
        (r.state.nodeVar_l 0).inleds = 0x800) := by
  obtain ⟨v, r, hv, hr, hph, hil, hcnt, -⟩ := cycle_check e s hobs hR hOp
  have hcase := inputVerifier_ascending 0 (afterRead e s) (by simpa using hPh)
  rw [mask1_eq] at hcase
  have hturn : presented e = 0x400 →
      (r.state.nodeVar_l 0).inLedState = kLedDescending ∧
      (r.state.nodeVar_l 0).inleds = shlUINT (s.nodeVar_l 0).inleds 1 ∧
      r.state.inCnt = 0 := by
    intro hx
    have h1 := hcase.1 (by simpa using hx)
    rw [hv] at h1
    simp only [Except.ok.injEq] at h1
    subst h1
    rw [hph, hil, hcnt]
    simp
  refine ⟨r, hr, hturn, fun hx1 hx2 => ?_, fun hx hexp => ?_⟩
  · have h1 := hcase.2 (by simpa using hx1) (by simpa using hx2)
    rw [hv] at h1
    simp only [Except.ok.injEq] at h1
    subst h1
    rw [hph, hil, hcnt]
    simp [hPh]
  · rw [(hturn hx).2.1, hexp]
    decide

/-- C16 at a concrete cycle: expected pattern 0x400 and observed input 0x400. -/
theorem C16_ascending_transitions_witness :
    ∃ r, processSync (okEnv 0x400) (phaseState 3 kLedAscending 0x400) = .ok r ∧
      (presented (okEnv 0x400) = 0x400 →
        (r.state.nodeVar_l 0).inLedState = kLedDescending ∧
        (r.state.nodeVar_l 0).inleds =
          shlUINT ((phaseState 3 kLedAscending 0x400).nodeVar_l 0).inleds 1 ∧
        r.state.inCnt = 0) ∧
      (presented (okEnv 0x400) ≠ 0x400 →
        presented (okEnv 0x400) = ((phaseState 3 kLedAscending 0x400).nodeVar_l 0).inleds →
        (r.state.nodeVar_l 0).inLedState = kLedAscending ∧
        (r.state.nodeVar_l 0).inleds =
          shlUINT ((phaseState 3 kLedAscending 0x400).nodeVar_l 0).inleds 2 ∧
        r.state.inCnt = 0) ∧
      (presented (okEnv 0x400) = 0x400 →
        ((phaseState 3 kLedAscending 0x400).nodeVar_l 0).inleds = 0x400 →
        (r.state.nodeVar_l 0).inleds = 0x800) :=
  C16_ascending_transitions (okEnv 0x400) (phaseState 3 kLedAscending 0x400) rfl (by decide)
    rfl rfl

/-- C17: in input phase Descending on an operational node, an observed input 0x002 when
the expected pattern is 0x002 sets the expected pattern to the mask 0xA95, moves the
phase to SplitOne and clears the tolerance counter; otherwise an observed input that
equals the expected pattern shifts the expected pattern right by 2, keeps the phase
Descending and clears the tolerance counter. So from expected pattern 0x002 no cycle
leaves the expected pattern 0. -/
theorem C17_descending_transitions (e : SyncEnv) (s : AppState) (hobs : observes e = true)
    (hR : Ready s) (hOp : (s.nodeVar_l 0).nmtState = kNmtCsOperational)
    (hPh : (s.nodeVar_l 0).inLedState = kLedDescending) :
    ∃ r, processSync e s = .ok r ∧
      ((s.nodeVar_l 0).inleds = 0x002 → presented e = 0x002 →
        (r.state.nodeVar_l 0).inLedState = kLedSplitOne ∧
        (r.state.nodeVar_l 0).inleds = 0xA95 ∧ r.state.inCnt = 0) ∧
      (¬ ((s.nodeVar_l 0).inleds = 0x002 ∧ presented e = 0x002) →
        presented e = (s.nodeVar_l 0).inleds →
        (r.state.nodeVar_l 0).inLedState = kLedDescending ∧
        (r.state.nodeVar_l 0).inleds = shrUINT (s.nodeVar_l 0).inleds 2 ∧
        r.state.inCnt = 0) ∧
      ((s.nodeVar_l 0).inleds = 0x002 → (r.state.nodeVar_l 0).inleds ≠ 0) := by
  obtain ⟨v, r, hv, hr, hph, hil, hcnt, -⟩ := cycle_check e s hobs hR hOp
  have hcase := inputVerifier_descending 0 (afterRead e s) (by simpa using hPh)
  have hend : (s.nodeVar_l 0).inleds = 0x002 → presented e = 0x002 →
      (r.state.nodeVar_l 0).inLedState = kLedSplitOne ∧
      (r.state.nodeVar_l 0).inleds = 0xA95 ∧ r.state.inCnt = 0 := by
    intro h2 hx
    have h1 := hcase.1 (by simpa using ⟨h2, hx⟩)
    rw [hv] at h1
    simp only [Except.ok.injEq] at h1
    subst h1
    rw [hph, hil, hcnt]
    simp
  refine ⟨r, hr, hend, fun hn hx => ?_, fun h2 => ?_⟩
  · have h1 := hcase.2.1 (by simpa using hn) (by simpa using hx)
    rw [hv] at h1
    simp only [Except.ok.injEq] at h1
    subst h1
    rw [hph, hil, hcnt]
    simp [hPh]
  · by_cases hx : presented e = 0x002
    · rw [(hend h2 hx).2.1]
      decide
    · have h1 := hcase.2.2 (by simp [hx]) (by simpa [h2] using hx)
      rw [h1] at hv
      rw [hil, countMismatch_node _ _ hv]
      simp [h2]

/-- C17 at a concrete cycle: expected pattern 0x002 and observed input 0x002. -/
theorem C17_descending_transitions_witness :
    ∃ r, processSync (okEnv 0x002) (phaseState 3 kLedDescending 0x002) = .ok r ∧
      (((phaseState 3 kLedDescending 0x002).nodeVar_l 0).inleds = 0x002 →
        presented (okEnv 0x002) = 0x002 →
        (r.state.nodeVar_l 0).inLedState = kLedSplitOne ∧
        (r.state.nodeVar_l 0).inleds = 0xA95 ∧ r.state.inCnt = 0) ∧
      (¬ (((phaseState 3 kLedDescending 0x002).nodeVar_l 0).inleds = 0x002 ∧
          presented (okEnv 0x002) = 0x002) →
        presented (okEnv 0x002) = ((phaseState 3 kLedDescending 0x002).nodeVar_l 0).inleds →
        (r.state.nodeVar_l 0).inLedState = kLedDescending ∧
        (r.state.nodeVar_l 0).inleds =
          shrUINT ((phaseState 3 kLedDescending 0x002).nodeVar_l 0).inleds 2 ∧
        r.state.inCnt = 0) ∧
      (((phaseState 3 kLedDescending 0x002).nodeVar_l 0).inleds = 0x002 →
        (r.state.nodeVar_l 0).inleds ≠ 0) :=
  C17_descending_transitions (okEnv 0x002) (phaseState 3 kLedDescending 0x002) rfl
    (by decide) rfl rfl

/-- C18: on an operational node, an observed input equal to the expected pattern sets
the expected pattern to the mask 0x56A and moves to SplitTwo when the input phase is
SplitOne, and returns the input phase to Unknown when it is SplitTwo; in both cases the
tolerance counter is cleared and the error counters are left as they were. -/
theorem C18_split_transitions (e : SyncEnv) (s : AppState) (hobs : observes e = true)
    (hR : Ready s) (hOp : (s.nodeVar_l 0).nmtState = kNmtCsOperational)
    (hx : presented e = (s.nodeVar_l 0).inleds) :
    ∃ r, processSync e s = .ok r ∧
      ((s.nodeVar_l 0).inLedState = kLedSplitOne →
        (r.state.nodeVar_l 0).inLedState = kLedSplitTwo ∧
        (r.state.nodeVar_l 0).inleds = 0x56A ∧ r.state.inCnt = 0 ∧
        dataError r.state = dataError s) ∧
      ((s.nodeVar_l 0).inLedState = kLedSplitTwo →
        (r.state.nodeVar_l 0).inLedState = kLedUnknown ∧ r.state.inCnt = 0 ∧
        dataError r.state = dataError s) := by
  obtain ⟨v, r, hv, hr, hph, hil, hcnt, hC⟩ := cycle_check e s hobs hR hOp
  have hcase := inputVerifier_split 0 (afterRead e s) (by simpa using hx)
  refine ⟨r, hr, fun h1 => ?_, fun h2 => ?_⟩
  · have h := hcase.1 (by simpa using h1)
    rw [hv] at h
    simp only [Except.ok.injEq] at h
    subst h
    rw [hph, hil, hcnt]
    simp [dataError, hC]
  · have h := hcase.2 (by simpa using h2)
    rw [hv] at h
    simp only [Except.ok.injEq] at h
    subst h
    rw [hph, hcnt]
    simp [dataError, hC]

/-- C18 at a concrete cycle: phase SplitOne, expected pattern and observed input both
0xA95. -/
theorem C18_split_transitions_witness :
    ∃ r, processSync (okEnv 0xA95) (phaseState 3 kLedSplitOne 0xA95) = .ok r ∧
      (((phaseState 3 kLedSplitOne 0xA95).nodeVar_l 0).inLedState = kLedSplitOne →
        (r.state.nodeVar_l 0).inLedState = kLedSplitTwo ∧
        (r.state.nodeVar_l 0).inleds = 0x56A ∧ r.state.inCnt = 0 ∧
        dataError r.state = dataError (phaseState 3 kLedSplitOne 0xA95)) ∧
      (((phaseState 3 kLedSplitOne 0xA95).nodeVar_l 0).inLedState = kLedSplitTwo →
        (r.state.nodeVar_l 0).inLedState = kLedUnknown ∧ r.state.inCnt = 0 ∧
        dataError r.state = dataError (phaseState 3 kLedSplitOne 0xA95)) :=
  C18_split_transitions (okEnv 0xA95) (phaseState 3 kLedSplitOne 0xA95) rfl (by decide)
    rfl rfl

/-! ## C19: the two split masks -/

/-- C19, as the code has it: in phase SplitOne the running light sets the pattern 0xA95,
whose set bits are 0, 2, 4, 7, 9, 11 (channels 1, 3, 5, 8, 10, 12 counted from 1, as the
comment at the constant says), and in phase SplitTwo the pattern 0x56A, whose set bits
are 1, 3, 5, 6, 8, 10. Each mask holds channels of both parities; the two masks are
disjoint and together cover the 12 channels. -/
theorem C19_split_masks (n : APP_NODE_VAR_T) :
    (outputSequencer { n with outLedState := kLedSplitOne }).outleds = 0xA95 ∧
    (outputSequencer { n with outLedState := kLedSplitTwo }).outleds = 0x56A ∧
    (List.range 12).filter
        (fun k => (outputSequencer { n with outLedState := kLedSplitOne }).outleds.testBit k) =
      [0, 2, 4, 7, 9, 11] ∧
    (List.range 12).filter
        (fun k => (outputSequencer { n with outLedState := kLedSplitTwo }).outleds.testBit k) =
      [1, 3, 5, 6, 8, 10] ∧
    (outputSequencer { n with outLedState := kLedSplitOne }).outleds &&&
        (outputSequencer { n with outLedState := kLedSplitTwo }).outleds = 0 ∧
    (outputSequencer { n with outLedState := kLedSplitOne }).outleds |||
        (outputSequencer { n with outLedState := kLedSplitTwo }).outleds = 0xFFF := by
  have h1 : (outputSequencer { n with outLedState := kLedSplitOne }).outleds = 0xA95 := rfl
  have h2 : (outputSequencer { n with outLedState := kLedSplitTwo }).outleds = 0x56A := rfl
  rw [h1, h2]
  refine ⟨rfl, rfl, ?_, ?_, ?_, ?_⟩ <;> decide

/-- C19 as stated fails: the SplitOne pattern has bit 0 and bit 7 set, one even and one
odd, and the SplitTwo pattern has bit 1 and bit 6 set. -/
theorem C19_counterexample :
    (outputSequencer { sampleNode with outLedState := kLedSplitOne }).outleds.testBit 0 = true ∧
    (outputSequencer { sampleNode with outLedState := kLedSplitOne }).outleds.testBit 7 = true ∧
    (outputSequencer { sampleNode with outLedState := kLedSplitTwo }).outleds.testBit 1 = true ∧
    (outputSequencer { sampleNode with outLedState := kLedSplitTwo }).outleds.testBit 6 = true := by
  decide

/-! ## C20: the input check follows the running light -/

theorem tracksHeld_outputPatterns (il : Nat) :
    tracksHeld kLedUnknown il outputPatterns = some (kLedUnknown, 0x56A) := by
  rfl

theorem errorTrace_append (a b : List SyncEnv) (s : AppState) :
    errorTrace (a ++ b) s =
      errorTrace a s ++
        (match runSync a s with
         | .error _ => []
         | .ok t => errorTrace b t) := by
  induction a generalizing s with
  | nil => simp [errorTrace, runSync]
  | cons e es ih =>
    simp only [List.cons_append, errorTrace, runSync]
    cases processSync e s with
    | error f => simp
    | ok r => simpa using ih r.state

theorem split_presented (envs : List SyncEnv) (a b : List Nat)
    (h : envs.map presented = a ++ b) :
    (envs.take a.length).map presented = a ∧ (envs.drop a.length).map presented = b := by
  constructor
  · rw [List.map_take, h, List.take_left]
  · rw [List.map_drop, h, List.drop_left]

/-- On a mismatch the input check keeps the input phase, and outside phase Unknown the
expected pattern. -/
theorem inputVerifier_mismatch_keeps (i : Fin MAX_NODES) (s v : AppState)
    (hM : mismatches (s.nodeVar_l i) (s.nodeVar_l i).input = true)
    (h : inputVerifier i s = .ok v) :
    (v.nodeVar_l i).inLedState = (s.nodeVar_l i).inLedState ∧
      ((s.nodeVar_l i).inLedState ≠ kLedUnknown →
        (v.nodeVar_l i).inleds = (s.nodeVar_l i).inleds) := by
  obtain ⟨n1, hv, hph, -⟩ := inputVerifier_mismatch i s hM
  have hkeep : (s.nodeVar_l i).inLedState ≠ kLedUnknown →
      inputVerifier i s = countMismatch s := by
    intro hne
    unfold mismatches at hM
    unfold inputVerifier
    rcases hp : (s.nodeVar_l i).inLedState <;> simp only [hp] at hM hne ⊢
    · exact absurd rfl hne
    · simp only [Bool.and_eq_true, decide_eq_true_eq] at hM
      rw [if_neg hM.1, if_neg hM.2]
    · simp only [Bool.and_eq_true, Bool.not_eq_true', Bool.and_eq_false_iff,
        decide_eq_false_iff_not, decide_eq_true_eq] at hM
      rw [if_neg (by tauto), if_neg hM.2]
    · simp only [decide_eq_true_eq] at hM
      rw [if_neg hM]
    · simp only [decide_eq_true_eq] at hM
      rw [if_neg hM]
  constructor
  · rw [hv] at h
    rw [countMismatch_node _ _ h, setNode_same]
    exact hph
  · intro hne
    rw [hkeep hne] at h
    rw [countMismatch_node _ _ h]

theorem mismatches_expects (s : AppState) (ph : tLedState) (il x : Nat)
    (h : Expects s ph il) : mismatches (s.nodeVar_l 0) x = mismatches (checkNode ph il) x := by
  obtain ⟨h1, h2⟩ := h
  refine mismatches_congr _ _ (by rw [h1]; rfl) (fun hne => ?_) x
  rcases h2 with h2 | h2
  · rw [h1] at hne
    exact absurd h2 hne
  · rw [h2]
    rfl

theorem expectAfter_expects (s : AppState) (ph : tLedState) (il x : Nat)
    (h : Expects s ph il) :
    expectAfter (s.nodeVar_l 0).inLedState (s.nodeVar_l 0).inleds x = expectAfter ph il x := by
  obtain ⟨h1, h2⟩ := h
  rcases h2 with h2 | h2
  · rw [h1, h2]
    rfl
  · rw [h1, h2]

/-- When `expectAfter` names a transition for the input of slot `i`, the input check
makes it: it leaves that phase and expected pattern, clears the tolerance counter and
does not touch the instance. -/
theorem checkStep_sound (i : Fin MAX_NODES) (s v : AppState) (ph1 : tLedState) (il1 : Nat)
    (h : expectAfter (s.nodeVar_l i).inLedState (s.nodeVar_l i).inleds (s.nodeVar_l i).input =
      some (ph1, il1))
    (hv : inputVerifier i s = .ok v) :
    (v.nodeVar_l i).inLedState = ph1 ∧ (v.nodeVar_l i).inleds = il1 ∧ v.inCnt = 0 ∧
      v.pCommInstance_l = s.pCommInstance_l := by
  unfold expectAfter at h
  unfold inputVerifier at hv
  rcases hph : (s.nodeVar_l i).inLedState <;> simp only [hph] at h hv
  · split_ifs at h with h1
    rw [if_pos (by simpa using h1)] at hv
    simp only [Option.some.injEq, Prod.mk.injEq, Except.ok.injEq] at h hv
    subst hv
    simp [h.1, h.2]
  · split_ifs at h with h1 h2
    · rw [if_pos h1] at hv
      simp only [Option.some.injEq, Prod.mk.injEq, Except.ok.injEq] at h hv
      subst hv
      simp [h.1, h.2]
    · rw [if_neg h1, if_pos h2] at hv
      simp only [Option.some.injEq, Prod.mk.injEq, Except.ok.injEq] at h hv
      subst hv
      simp [h.1, h.2, hph]
  · split_ifs at h with h1 h2
    · rw [if_pos h1] at hv
      simp only [Option.some.injEq, Prod.mk.injEq, Except.ok.injEq] at h hv
      subst hv
      simp [h.1, h.2]
    · rw [if_neg h1, if_pos h2] at hv
      simp only [Option.some.injEq, Prod.mk.injEq, Except.ok.injEq] at h hv
      subst hv
      simp [h.1, h.2, hph]
  · split_ifs at h with h1
    rw [if_pos h1] at hv
    simp only [Option.some.injEq, Prod.mk.injEq, Except.ok.injEq] at h hv
    subst hv
    simp [h.1, h.2]
  · split_ifs at h with h1
    rw [if_pos h1] at hv
    simp only [Option.some.injEq, Prod.mk.injEq, Except.ok.injEq] at h hv
    subst hv
    simp [h.1, h.2]

theorem expectAfter_not_mismatch (n : APP_NODE_VAR_T) (x : Nat) (ph1 : tLedState) (il1 : Nat)
    (h : expectAfter n.inLedState n.inleds x = some (ph1, il1)) : mismatches n x = false := by
  unfold expectAfter at h
  unfold mismatches
  rcases hph : n.inLedState <;> simp only [hph] at h ⊢ <;> split_ifs at h <;> simp_all

/-- An observed cycle whose input the input check accepts, on an initialised state with
slot 0 operational. -/
theorem processSync_accepts (e : SyncEnv) (s : AppState) (ph ph1 : tLedState) (il il1 : Nat)
    (hobs : observes e = true) (hR : Ready s)
    (hOp : (s.nodeVar_l 0).nmtState = kNmtCsOperational) (hE : Expects s ph il)
    (hA : expectAfter ph il (presented e) = some (ph1, il1)) :
    ∃ r, processSync e s = .ok r ∧ Ready r.state ∧ r.state.appCycle_l = s.appCycle_l ∧
      (r.state.nodeVar_l 0).nmtState = kNmtCsOperational ∧ Expects r.state ph1 il1 ∧
      r.state.inCnt = 0 ∧ dataError r.state = dataError s := by
  rw [← expectAfter_expects s ph il _ hE] at hA
  have hM := expectAfter_not_mismatch _ _ _ _ hA
  obtain ⟨r, hr, hR1, hper, hOp1, hcnt, herr⟩ := processSync_match e s hobs hR hOp hM
  obtain ⟨v, r1, hv, hr1, hph, hil, -, -⟩ := cycle_check e s hobs hR hOp
  have hu := result_unique e s r r1 hr hr1
  subst hu
  obtain ⟨h1, h2, -, -⟩ := checkStep_sound 0 (afterRead e s) v ph1 il1 (by simpa using hA) hv
  exact ⟨r, hr, hR1, hper, hOp1, ⟨by rw [hph, h1], Or.inr (by rw [hil, h2])⟩, hcnt, herr⟩

/-- An observed cycle whose input is a mismatch, on an initialised state with slot 0
operational: what the input check expects stays as it was. -/
theorem processSync_rejects (e : SyncEnv) (s : AppState) (ph : tLedState) (il : Nat)
    (hobs : observes e = true) (hR : Ready s)
    (hOp : (s.nodeVar_l 0).nmtState = kNmtCsOperational) (hE : Expects s ph il)
    (hM : mismatches (checkNode ph il) (presented e) = true) :
    ∃ r, processSync e s = .ok r ∧ Ready r.state ∧ r.state.appCycle_l = s.appCycle_l ∧
      (r.state.nodeVar_l 0).nmtState = kNmtCsOperational ∧ Expects r.state ph il ∧
      r.state.inCnt = (if intToUINT s.inCnt = s.appCycle_l then 0 else incInt s.inCnt) ∧
      dataError r.state =
        (if intToUINT s.inCnt = s.appCycle_l then (dataError s).map incUINT
         else dataError s) := by
  rw [← mismatches_expects s ph il _ hE] at hM
  obtain ⟨r, hr, hR1, hper, hOp1, -, -, hcnt, herr⟩ := processSync_mismatch e s hobs hR hOp hM
  obtain ⟨v, r1, hv, hr1, hph, hil, -, -⟩ := cycle_check e s hobs hR hOp
  have hu := result_unique e s r r1 hr hr1
  subst hu
  have hM1 : mismatches ((afterRead e s).nodeVar_l 0) ((afterRead e s).nodeVar_l 0).input =
      true := by
    rw [← hM]
    simp only [afterRead_node]
    exact mismatches_congr _ _ rfl (fun _ => rfl) _
  obtain ⟨hk1, hk2⟩ := inputVerifier_mismatch_keeps 0 (afterRead e s) v hM1 hv
  simp only [afterRead_node] at hk1 hk2
  refine ⟨r, hr, hR1, hper, hOp1, ⟨by rw [hph, hk1]; exact hE.1, ?_⟩, hcnt, herr⟩
  rcases hE.2 with h | h
  · exact Or.inl h
  · by_cases hu : ph = kLedUnknown
    · exact Or.inl hu
    · exact Or.inr (by rw [hil, hk2 (by rw [hE.1]; exact hu)]; exact h)

/-- A run of observed mismatches within the tolerance, with the error counter recorded
after every cycle. -/
theorem held_mismatches (ph : tLedState) (il d : Nat) (es : List SyncEnv) :
    ∀ s : AppState, Ready s → (s.nodeVar_l 0).nmtState = kNmtCsOperational →
      Expects s ph il → dataError s = some d →
      (∀ e ∈ es, observes e = true ∧ mismatches (checkNode ph il) (presented e) = true) →
      intToUINT s.inCnt + es.length ≤ s.appCycle_l →
      ∃ t, runSync es s = .ok t ∧ Ready t ∧
        (t.nodeVar_l 0).nmtState = kNmtCsOperational ∧ t.appCycle_l = s.appCycle_l ∧
        Expects t ph il ∧ dataError t = some d ∧
        errorTrace es s = List.replicate es.length (some d) := by
  induction es with
  | nil =>
    intro s hR hOp hE hErr _ _
    exact ⟨s, rfl, hR, hOp, rfl, hE, hErr, rfl⟩
  | cons e es ih =>
    intro s hR hOp hE hErr hAll hLe
    simp only [List.length_cons] at hLe
    obtain ⟨ho, hM⟩ := hAll e (List.mem_cons_self _ _)
    obtain ⟨r, hr, hR1, hper1, hOp1, hE1, hcnt1, herr1⟩ :=
      processSync_rejects e s ph il ho hR hOp hE hM
    have hne : intToUINT s.inCnt ≠ s.appCycle_l := by omega
    rw [if_neg hne] at hcnt1 herr1
    have hlt : s.appCycle_l < 4294967296 := hR.2.2.2.2
    have hcnt2 : intToUINT r.state.inCnt = intToUINT s.inCnt + 1 := by
      rw [hcnt1, intToUINT_incInt]
      omega
    obtain ⟨t, ht, hRt, hOpt, hpert, hEt, herrt, htr⟩ :=
      ih r.state hR1 hOp1 hE1 (by rw [herr1, hErr])
        (fun x hx => hAll x (List.mem_cons_of_mem _ hx)) (by rw [hcnt2, hper1]; omega)
    refine ⟨t, ?_, hRt, hOpt, by rw [hpert, hper1], hEt, herrt, ?_⟩
    · simp [runSync, hr, ht]
    · simp only [errorTrace, hr, htr, List.length_cons, List.replicate_succ, herr1, hErr]

/-- One pattern held for the `p` cycles of a period: accepted in the first cycle, a
mismatch within the tolerance in the `p - 1` cycles after it. -/
theorem held_pattern (ph ph1 : tLedState) (il il1 d x : Nat) (es : List SyncEnv)
    (s : AppState) (hR : Ready s) (hOp : (s.nodeVar_l 0).nmtState = kNmtCsOperational)
    (hE : Expects s ph il) (hErr : dataError s = some d)
    (hA : expectAfter ph il x = some (ph1, il1))
    (hM : mismatches (checkNode ph1 il1) x = true)
    (hObs : ∀ e ∈ es, observes e = true) (hIn : es.map presented = List.replicate s.appCycle_l x) :
    ∃ t, runSync es s = .ok t ∧ Ready t ∧
      (t.nodeVar_l 0).nmtState = kNmtCsOperational ∧ t.appCycle_l = s.appCycle_l ∧
      Expects t ph1 il1 ∧ dataError t = some d ∧
      errorTrace es s = List.replicate s.appCycle_l (some d) := by
  have hp : 0 < s.appCycle_l := hR.2.2.2.1
  have hlen : es.length = s.appCycle_l := by
    have := congrArg List.length hIn
    simpa using this
  have hpres : ∀ e ∈ es, presented e = x := by
    intro e he
    have hmem : presented e ∈ es.map presented := List.mem_map_of_mem _ he
    rw [hIn] at hmem
    exact (List.mem_replicate.mp hmem).2
  rcases es with _ | ⟨e, es⟩
  · simp only [List.length_nil] at hlen
    omega
  · simp only [List.length_cons] at hlen
    have hx : presented e = x := hpres e (List.mem_cons_self _ _)
    obtain ⟨r, hr, hR1, hper1, hOp1, hE1, hcnt1, herr1⟩ :=
      processSync_accepts e s ph ph1 il il1 (hObs e (List.mem_cons_self _ _)) hR hOp hE
        (by rw [hx]; exact hA)
    obtain ⟨t, ht, hRt, hOpt, hpert, hEt, herrt, htr⟩ :=
      held_mismatches ph1 il1 d es r.state hR1 hOp1 hE1 (by rw [herr1, hErr])
        (fun y hy => ⟨hObs y (List.mem_cons_of_mem _ hy),
          by rw [hpres y (List.mem_cons_of_mem _ hy)]; exact hM⟩)
        (by rw [hcnt1, intToUINT_zero, hper1]; omega)
    refine ⟨t, ?_, hRt, hOpt, by rw [hpert, hper1], hEt, herrt, ?_⟩
    · simp [runSync, hr, ht]
    · simp only [errorTrace, hr, htr, herr1, hErr, ← hlen, List.replicate_succ]

theorem held_length (p : Nat) (xs : List Nat) : (held p xs).length = p * xs.length := by
  induction xs with
  | nil => simp [held]
  | cons x xs ih =>
    simp only [held, List.length_append, List.length_replicate, ih, List.length_cons]
    rw [Nat.mul_succ]
    omega

/-- A sequence of patterns, each held for the `p` cycles of a period, that the input
check follows: no data error is counted and the input check ends where `tracksHeld`
says. -/
theorem held_patterns (d : Nat) (xs : List Nat) :
    ∀ (ph : tLedState) (il : Nat) (phE : tLedState) (ilE : Nat) (es : List SyncEnv)
      (s : AppState), Ready s → (s.nodeVar_l 0).nmtState = kNmtCsOperational →
      Expects s ph il → dataError s = some d →
      tracksHeld ph il xs = some (phE, ilE) →
      (∀ e ∈ es, observes e = true) → es.map presented = held s.appCycle_l xs →
      ∃ t, runSync es s = .ok t ∧ Ready t ∧
        (t.nodeVar_l 0).nmtState = kNmtCsOperational ∧ t.appCycle_l = s.appCycle_l ∧
        Expects t phE ilE ∧ dataError t = some d ∧
        errorTrace es s = List.replicate (s.appCycle_l * xs.length) (some d) := by
  induction xs with
  | nil =>
    intro ph il phE ilE es s hR hOp hE hErr hT _ hIn
    simp only [held, List.map_eq_nil_iff] at hIn
    subst hIn
    simp only [tracksHeld, Option.some.injEq, Prod.mk.injEq] at hT
    refine ⟨s, rfl, hR, hOp, rfl, ?_, hErr, by simp [errorTrace]⟩
    rw [← hT.1, ← hT.2]
    exact hE
  | cons x xs ih =>
    intro ph il phE ilE es s hR hOp hE hErr hT hObs hIn
    simp only [tracksHeld] at hT
    rcases hA : expectAfter ph il x with _ | ⟨ph1, il1⟩
    · rw [hA] at hT
      simp at hT
    · rw [hA] at hT
      simp only [] at hT
      split_ifs at hT with hM
      simp only [held] at hIn
      obtain ⟨h1, h2⟩ := split_presented es _ _ hIn
      simp only [List.length_replicate] at h1 h2
      obtain ⟨t1, ht1, hR1, hOp1, hper1, hE1, herr1, htr1⟩ :=
        held_pattern ph ph1 il il1 d x (es.take s.appCycle_l) s hR hOp hE hErr hA hM
          (fun e he => hObs e (List.mem_of_mem_take he)) h1
      obtain ⟨t, ht, hRt, hOpt, hpert, hEt, herrt, htr⟩ :=
        ih ph1 il1 phE ilE (es.drop s.appCycle_l) t1 hR1 hOp1 hE1 herr1 hT
          (fun e he => hObs e (List.mem_of_mem_drop he)) (by rw [hper1]; exact h2)
      refine ⟨t, ?_, hRt, hOpt, by rw [hpert, hper1], hEt, herrt, ?_⟩
      · rw [← List.take_append_drop s.appCycle_l es, runSync_append, ht1]
        exact ht
      · rw [← List.take_append_drop s.appCycle_l es, errorTrace_append, ht1, htr1]
        simp only []
        rw [htr, hper1, ← List.replicate_add, List.length_cons, Nat.mul_succ]
        congr 1
        omega

/-- Passes of the running light presented to the input check, each pattern held for the
`p` cycles of a period. -/
theorem passes_run (d : Nat) (reps : Nat) :
    ∀ (s : AppState) (envs : List SyncEnv), Ready s →
      (s.nodeVar_l 0).nmtState = kNmtCsOperational →
      (s.nodeVar_l 0).inLedState = kLedUnknown → dataError s = some d →
      (∀ e ∈ envs, observes e = true) → envs.map presented = passes s.appCycle_l reps →
      errorTrace envs s = List.replicate (14 * s.appCycle_l * reps) (some d) ∧
      ∀ j, j ≤ reps →
        ∃ t, runSync (envs.take (14 * s.appCycle_l * j)) s = .ok t ∧
          (t.nodeVar_l 0).inLedState = kLedUnknown := by
  induction reps with
  | zero =>
    intro s envs _ _ hPh _ _ hIn
    simp only [passes, List.map_eq_nil_iff] at hIn
    subst hIn
    refine ⟨by simp [errorTrace], fun j hj => ?_⟩
    exact ⟨s, by simp [runSync], hPh⟩
  | succ reps ih =>
    intro s envs hR hOp hPh hErr hObs hIn
    simp only [passes] at hIn
    obtain ⟨h1, h2⟩ := split_presented envs _ _ hIn
    have hL : (held s.appCycle_l outputPatterns).length = s.appCycle_l * 14 := by
      rw [held_length]
      rfl
    rw [hL] at h1 h2
    obtain ⟨t1, ht1, hR1, hOp1, hper1, hE1, herr1, htr1⟩ :=
      held_patterns d outputPatterns kLedUnknown 0 kLedUnknown 0x56A
        (envs.take (s.appCycle_l * 14)) s hR hOp ⟨hPh, Or.inl rfl⟩ hErr
        (tracksHeld_outputPatterns 0) (fun e he => hObs e (List.mem_of_mem_take he)) h1
    obtain ⟨htr, hall⟩ :=
      ih t1 (envs.drop (s.appCycle_l * 14)) hR1 hOp1 hE1.1 herr1
        (fun e he => hObs e (List.mem_of_mem_drop he)) (by rw [hper1]; exact h2)
    rw [hper1] at htr hall
    have h14 : outputPatterns.length = 14 := rfl
    constructor
    · rw [← List.take_append_drop (s.appCycle_l * 14) envs, errorTrace_append, ht1, htr1]
      simp only []
      rw [htr, ← List.replicate_add, h14]
      congr 1
      ring
    · intro j hj
      rcases j with _ | j
      · exact ⟨s, by simp [runSync], hPh⟩
      · have hsplit : 14 * s.appCycle_l * (j + 1) =
            s.appCycle_l * 14 + 14 * s.appCycle_l * j := by
          ring
        obtain ⟨t, ht, hph⟩ := hall j (by omega)
        refine ⟨t, ?_, hph⟩
        rw [hsplit, List.take_add, runSync_append, ht1]
        exact ht

/-- C20: the input check follows the sequence of the running light without a fault. For
every period `p >= 1` and every number of passes, when an operational node starts in
input phase Unknown and the observed inputs are the 14 patterns 0x001, 0x004, 0x010,
0x040, 0x100, 0x400, 0x800, 0x200, 0x080, 0x020, 0x008, 0x002, 0xA95, 0x56A in this
order, each held for `p` consecutive cycles, the data-error counter has its initial
value after every cycle and the input phase is Unknown again at the end of each pass of
`14 * p` cycles. -/
theorem C20_tracks_running_light (s : AppState) (envs : List SyncEnv) (reps d : Nat)
    (hR : Ready s) (hOp : (s.nodeVar_l 0).nmtState = kNmtCsOperational)
    (hPh : (s.nodeVar_l 0).inLedState = kLedUnknown) (hErr : dataError s = some d)
    (hObs : ∀ e ∈ envs, observes e = true)
    (hIn : envs.map presented = passes s.appCycle_l reps) :
    errorTrace envs s = List.replicate (14 * s.appCycle_l * reps) (some d) ∧
    ∀ j, j ≤ reps →
      ∃ t, runSync (envs.take (14 * s.appCycle_l * j)) s = .ok t ∧
        (t.nodeVar_l 0).inLedState = kLedUnknown :=
  passes_run d reps s envs hR hOp hPh hErr hObs hIn

/-- C20 at a concrete run: period 2 and two passes, 56 cycles in which every stack call
succeeds. -/
theorem C20_tracks_running_light_witness :
    errorTrace ((passes 2 2).map okEnv) (sampleState 2) =
      List.replicate (14 * (sampleState 2).appCycle_l * 2) (some 0) ∧
    ∀ j, j ≤ 2 →
      ∃ t, runSync (((passes 2 2).map okEnv).take (14 * (sampleState 2).appCycle_l * j))
          (sampleState 2) = .ok t ∧
        (t.nodeVar_l 0).inLedState = kLedUnknown :=
  C20_tracks_running_light (sampleState 2) ((passes 2 2).map okEnv) 2 0 (by decide) rfl rfl
    rfl (by decide) rfl

/-! ## C21: the fault-counting law -/

theorem iterate_incUINT (q : Nat) :
    ∀ d, d < UINT_RANGE → incUINT^[q] d = (d + q) % UINT_RANGE := by
  induction q with
  | zero =>
    intro d hd
    simp only [Function.iterate_zero, id_eq, Nat.add_zero]
    exact (Nat.mod_eq_of_lt hd).symm
  | succ q ih =>
    intro d hd
    rw [Function.iterate_succ_apply, ih (incUINT d) (Nat.mod_lt _ (by decide))]
    unfold incUINT
    show ((d + 1) % 4294967296 + q) % 4294967296 = (d + (q + 1)) % 4294967296
    omega

/-- A run of observed mismatches of any length on an initialised state with slot 0
operational, from a tolerance counter that stands at `k`: one data error is counted for
every `p + 1` mismatches. -/
theorem mismatch_law (ms : List SyncEnv) :
    ∀ (s : AppState) (rest : List SyncEnv) (tr : List Bool) (k d : Nat),
      (∀ e ∈ ms, observes e = true) → Ready s →
      (s.nodeVar_l 0).nmtState = kNmtCsOperational →
      mismatchTrace (ms ++ rest) s = List.replicate ms.length true ++ tr →
      intToUINT s.inCnt = k → k ≤ s.appCycle_l →
      (-2147483648 ≤ s.inCnt ∧ s.inCnt < 2147483648) → dataError s = some d →
      ∃ t, runSync ms s = .ok t ∧
        dataError t = some (incUINT^[(k + ms.length) / (s.appCycle_l + 1)] d) ∧
        intToUINT t.inCnt = (k + ms.length) % (s.appCycle_l + 1) ∧
        (-2147483648 ≤ t.inCnt ∧ t.inCnt < 2147483648) ∧
        (t.nodeVar_l 0).inLedState = (s.nodeVar_l 0).inLedState ∧
        mismatchTrace rest t = tr := by
  induction ms with
  | nil =>
    intro s rest tr k d _ hR _ hTr hk hkp hrange hErr
    refine ⟨s, rfl, ?_, ?_, hrange, rfl, by simpa using hTr⟩
    · rw [hErr, List.length_nil, Nat.add_zero, Nat.div_eq_of_lt (by omega)]
      rfl
    · rw [hk, List.length_nil, Nat.add_zero, Nat.mod_eq_of_lt (by omega)]
  | cons e es ih =>
    intro s rest tr k d hObs hR hOp hTr hk hkp hrange hErr
    simp only [List.cons_append, mismatchTrace, List.length_cons, List.replicate_succ,
      List.cons.injEq] at hTr
    obtain ⟨hM, hTr⟩ := hTr
    obtain ⟨r, hr, hR1, hper1, hOp1, hph1, -, hcnt1, herr1⟩ :=
      processSync_mismatch e s (hObs e (List.mem_cons_self _ _)) hR hOp hM
    rw [hr] at hTr
    have hlt : s.appCycle_l < 4294967296 := hR.2.2.2.2
    have hObs1 : ∀ x ∈ es, observes x = true := fun x hx => hObs x (List.mem_cons_of_mem _ hx)
    by_cases hkeq : k = s.appCycle_l
    · rw [if_pos (by rw [hk, hkeq])] at hcnt1 herr1
      rw [hErr] at herr1
      obtain ⟨t, ht, herrt, hcntt, hranget, hpht, htr⟩ :=
        ih r.state rest tr 0 (incUINT d) hObs1 hR1 hOp1 hTr
          (by rw [hcnt1]; exact intToUINT_zero) (Nat.zero_le _)
          (by rw [hcnt1]; constructor <;> decide) herr1
      rw [hper1] at herrt hcntt
      have harr : k + (es.length + 1) = 0 + es.length + (s.appCycle_l + 1) := by omega
      refine ⟨t, by simp [runSync, hr, ht], ?_, ?_, hranget, by rw [hpht, hph1], htr⟩
      · rw [herrt, List.length_cons, harr, Nat.add_div_right _ (by omega),
          Function.iterate_succ_apply]
      · rw [hcntt, List.length_cons, harr, Nat.add_mod_right]
    · rw [if_neg (by rw [hk]; exact hkeq)] at hcnt1 herr1
      rw [hErr] at herr1
      have hinc : intToUINT r.state.inCnt = k + 1 := by
        rw [hcnt1, intToUINT_incInt, hk]
        omega
      have hrange1 : -2147483648 ≤ r.state.inCnt ∧ r.state.inCnt < 2147483648 := by
        rw [hcnt1]
        unfold incInt
        omega
      obtain ⟨t, ht, herrt, hcntt, hranget, hpht, htr⟩ :=
        ih r.state rest tr (k + 1) d hObs1 hR1 hOp1 hTr hinc (by rw [hper1]; omega)
          hrange1 herr1
      rw [hper1] at herrt hcntt
      have harr : k + (es.length + 1) = k + 1 + es.length := by omega
      refine ⟨t, by simp [runSync, hr, ht], ?_, ?_, hranget, by rw [hpht, hph1], htr⟩
      · rw [herrt, List.length_cons, harr]
      · rw [hcntt, List.length_cons, harr]

/-- C21: the exact fault-counting law. On an initialised state (period `p >= 1`) with
the node operational, in every input phase, and the tolerance counter at 0, after `n`
consecutive observed mismatches the data-error counter has been incremented exactly
`n / (p + 1)` times (so it is unchanged while `n <= p`, is incremented for the first
time by mismatch `p + 1`, and equals the initial value plus `n / (p + 1)` modulo 2^32)
and the tolerance counter, as the comparison with the period reads it, equals
`n mod (p + 1)`, which lies in the range 0..p; for `p` up to the largest `int` this is
the value of the `int` itself. The input phase stays as it was. -/
theorem C21_fault_counting_law (s : AppState) (envs : List SyncEnv) (d n : Nat)
    (hR : Ready s) (hOp : (s.nodeVar_l 0).nmtState = kNmtCsOperational)
    (hTol : s.inCnt = 0) (hErr : dataError s = some d)
    (hObs : ∀ e ∈ envs, observes e = true)
    (hMis : mismatchTrace envs s = List.replicate envs.length true)
    (hn : n ≤ envs.length) :
    ∃ t, runSync (envs.take n) s = .ok t ∧
      dataError t = some (incUINT^[n / (s.appCycle_l + 1)] d) ∧
      (d < UINT_RANGE → dataError t = some ((d + n / (s.appCycle_l + 1)) % UINT_RANGE)) ∧
      (n ≤ s.appCycle_l → dataError t = some d) ∧
      (n = s.appCycle_l + 1 → dataError t = some (incUINT d)) ∧
      intToUINT t.inCnt = n % (s.appCycle_l + 1) ∧ intToUINT t.inCnt ≤ s.appCycle_l ∧
      (s.appCycle_l < 2147483648 → t.inCnt = ((n % (s.appCycle_l + 1) : Nat) : Int)) ∧
      (t.nodeVar_l 0).inLedState = (s.nodeVar_l 0).inLedState := by
  have hlen : (envs.take n).length = n := by
    rw [List.length_take]
    omega
  have hsplit : mismatchTrace (envs.take n ++ envs.drop n) s =
      List.replicate (envs.take n).length true ++ List.replicate (envs.length - n) true := by
    rw [List.take_append_drop, hlen, hMis, ← List.replicate_add]
    congr 1
    omega
  obtain ⟨t, ht, herrt, hcntt, hranget, hpht, -⟩ :=
    mismatch_law (envs.take n) s (envs.drop n) _ 0 d
      (fun e he => hObs e (List.mem_of_mem_take he)) hR hOp hsplit
      (by rw [hTol]; exact intToUINT_zero) (Nat.zero_le _)
      (by rw [hTol]; constructor <;> decide) hErr
  rw [hlen, Nat.zero_add] at herrt hcntt
  have hmod : n % (s.appCycle_l + 1) ≤ s.appCycle_l :=
    Nat.le_of_lt_succ (Nat.mod_lt _ (Nat.succ_pos _))
  refine ⟨t, ht, herrt, fun hd => ?_, fun hle => ?_, fun heq => ?_, hcntt,
    by rw [hcntt]; exact hmod, fun hp => ?_, hpht⟩
  · rw [herrt, iterate_incUINT _ d hd]
  · rw [herrt, Nat.div_eq_of_lt (by omega)]
    rfl
  · rw [herrt, heq, Nat.div_self (by omega)]
    rfl
  · have hu : intToUINT t.inCnt = n % (s.appCycle_l + 1) := hcntt
    unfold intToUINT at hu
    omega

/-- C21 at a concrete run: period 1 and five observed mismatches in phase Unknown, of
which two are counted as data errors. -/
theorem C21_fault_counting_law_witness :
    ∃ t, runSync ((List.replicate 5 (okEnv 0)).take 5) (sampleState 1) = .ok t ∧
      dataError t = some (incUINT^[5 / ((sampleState 1).appCycle_l + 1)] 0) ∧
      (0 < UINT_RANGE →
        dataError t = some ((0 + 5 / ((sampleState 1).appCycle_l + 1)) % UINT_RANGE)) ∧
      (5 ≤ (sampleState 1).appCycle_l → dataError t = some 0) ∧
      (5 = (sampleState 1).appCycle_l + 1 → dataError t = some (incUINT 0)) ∧
      intToUINT t.inCnt = 5 % ((sampleState 1).appCycle_l + 1) ∧
      intToUINT t.inCnt ≤ (sampleState 1).appCycle_l ∧
      ((sampleState 1).appCycle_l < 2147483648 →
        t.inCnt = ((5 % ((sampleState 1).appCycle_l + 1) : Nat) : Int)) ∧
      (t.nodeVar_l 0).inLedState = ((sampleState 1).nodeVar_l 0).inLedState :=
  C21_fault_counting_law (sampleState 1) (List.replicate 5 (okEnv 0)) 0 5 (by decide) rfl rfl
    rfl (by decide) (by decide) (by decide)

/-! ## C22: updateNodeOperationalState -/

/-- C22: for every node id `n` with `1 <= n <= 255` and every NMT state,
`updateNodeOperationalState` stores the state in slot `n - 1` and changes nothing else:
the other fields of that slot, every other slot, the cycle counter, the tolerance
counter, the period, the instance with its error counters and the image pointers are
as before. -/
theorem C22_nmt_state_update (n : Nat) (st : tNmtState) (s : AppState)
    (h1 : 1 ≤ n) (h2 : n ≤ 255) :
    ∃ (t : AppState) (i : Fin MAX_NODES), updateNodeOperationalState n st s = .ok t ∧
      i.val = n - 1 ∧ t.nodeVar_l i = { s.nodeVar_l i with nmtState := st } ∧
      (∀ j, j ≠ i → t.nodeVar_l j = s.nodeVar_l j) ∧
      t.cnt_g = s.cnt_g ∧ t.inCnt = s.inCnt ∧ t.appCycle_l = s.appCycle_l ∧
      t.pCommInstance_l = s.pCommInstance_l ∧ dataError t = dataError s ∧
      t.pProcessImageIn_l = s.pProcessImageIn_l ∧
      t.pProcessImageOut_l = s.pProcessImageOut_l := by
  have hlt : n - 1 < MAX_NODES := by
    show n - 1 < 255
    omega
  refine ⟨setNode s ⟨n - 1, hlt⟩ { s.nodeVar_l ⟨n - 1, hlt⟩ with nmtState := st },
    ⟨n - 1, hlt⟩, ?_, rfl, setNode_same _ _ _, fun j hj => setNode_other _ _ _ _ hj,
    rfl, rfl, rfl, rfl, rfl, rfl, rfl⟩
  unfold updateNodeOperationalState
  rw [dif_pos ⟨h1, hlt⟩]

/-- C22 at a concrete call: node 255, the last slot, reported operational. -/
theorem C22_nmt_state_update_witness :
    ∃ (t : AppState) (i : Fin MAX_NODES),
      updateNodeOperationalState 255 kNmtCsOperational (idleState 2) = .ok t ∧
      i.val = 255 - 1 ∧
      t.nodeVar_l i = { (idleState 2).nodeVar_l i with nmtState := kNmtCsOperational } ∧
      (∀ j, j ≠ i → t.nodeVar_l j = (idleState 2).nodeVar_l j) ∧
      t.cnt_g = (idleState 2).cnt_g ∧ t.inCnt = (idleState 2).inCnt ∧
      t.appCycle_l = (idleState 2).appCycle_l ∧
      t.pCommInstance_l = (idleState 2).pCommInstance_l ∧
      dataError t = dataError (idleState 2) ∧
      t.pProcessImageIn_l = (idleState 2).pProcessImageIn_l ∧
      t.pProcessImageOut_l = (idleState 2).pProcessImageOut_l :=
  C22_nmt_state_update 255 kNmtCsOperational (idleState 2) (by decide) (by decide)

/-! ## C23: the PHY configuration callback -/

theorem fullAccesses_range (env : PhyEnv) (k : Nat) :
    ∀ i, fullAccesses env k i =
      (List.range' i k).flatMap (fun x =>
        [PhyAccess.read x PHYCFG_DP8384_PHYCR_REGADDR,
         PhyAccess.write x PHYCFG_DP8384_PHYCR_REGADDR (regWritten env x)]) := by
  induction k with
  | zero => intro i; rfl
  | succ k ih =>
    intro i
    simp only [fullAccesses, List.range'_succ, List.flatMap_cons, ih (i + 1)]
    rfl

/-- The loop over `j` PHYs whose accesses all succeed, followed by whatever the loop
does with the `m` PHYs after them. -/
theorem phyCfgFrom_ok (env : PhyEnv) (m j : Nat) :
    ∀ i, (∀ x, i ≤ x → x < i + j → phyOk env x) →
      phyCfgFrom env (j + m) i =
        ((phyCfgFrom env m (i + j)).1, fullAccesses env j i ++ (phyCfgFrom env m (i + j)).2) := by
  induction j with
  | zero =>
    intro i _
    simp [fullAccesses]
  | succ j ih =>
    intro i hok
    have h0 := hok i (le_refl _) (by omega)
    have hrest := ih (i + 1) (fun x hx1 hx2 => hok x (by omega) (by omega))
    have hjm : j + 1 + m = (j + m) + 1 := by omega
    have hij : i + 1 + j = i + (j + 1) := by omega
    rw [hjm]
    simp only [phyCfgFrom, h0.1, h0.2, ne_eq, not_true_eq_false, if_false, hrest, hij,
      fullAccesses, List.cons_append]

/-- The value written has LED_CNFG[0], bit 5, set and every other bit as it was read. -/
theorem regWritten_bits (env : PhyEnv) (i : Nat) :
    (regWritten env i).testBit 5 = true ∧
      ∀ b, b ≠ 5 →
        (regWritten env i).testBit b =
          ((env.omethPhyRead i PHYCFG_DP8384_PHYCR_REGADDR).2 % USHORT_RANGE).testBit b := by
  have hlt : (env.omethPhyRead i PHYCFG_DP8384_PHYCR_REGADDR).2 % USHORT_RANGE < 2 ^ 16 :=
    Nat.mod_lt _ (by decide)
  have hor := Nat.or_lt_two_pow hlt (show PHYCFG_DP8384_PHYCR_LED_CNFG0 < 2 ^ 16 by decide)
  have h32 : PHYCFG_DP8384_PHYCR_LED_CNFG0 = 2 ^ 5 := by decide
  unfold regWritten
  rw [Nat.mod_eq_of_lt hor, h32]
  constructor
  · rw [Nat.testBit_or, Nat.testBit_two_pow_self, Bool.or_true]
  · intro b hb
    rw [Nat.testBit_or, Nat.testBit_two_pow_of_ne (Ne.symm hb), Bool.or_false]

/-- C23: `omethPhyCfgUser` for a driver with `n` PHYs, when the accesses of the first
`k <= n` PHYs all succeed. If `k = n` it returns 0 after reading register 0x19 of each
PHY in ascending order and writing back what it read with bit 5 (LED_CNFG[0]) set and
every other bit unchanged. If the read of PHY `k < n` returns a non-zero code, that code
is returned after that read, with no write to PHY `k` and no access to a later PHY; if
the read succeeds and the write returns a non-zero code, that code is returned after
that write, with no access to a later PHY. -/
theorem C23_phy_configuration (env : PhyEnv) (n k : Nat) (hk : k ≤ n)
    (hok : ∀ i, i < k → phyOk env i) :
    (k = n →
      omethPhyCfgUser env n = (0, fullAccesses env n 0) ∧
      fullAccesses env n 0 =
        (List.range n).flatMap (fun i =>
          [PhyAccess.read i 0x19, PhyAccess.write i 0x19 (regWritten env i)])) ∧
    (k < n → (env.omethPhyRead k 0x19).1 ≠ 0 →
      omethPhyCfgUser env n =
        ((env.omethPhyRead k 0x19).1, fullAccesses env k 0 ++ [PhyAccess.read k 0x19])) ∧
    (k < n → (env.omethPhyRead k 0x19).1 = 0 →
      env.omethPhyWrite k 0x19 (regWritten env k) ≠ 0 →
      omethPhyCfgUser env n =
        (env.omethPhyWrite k 0x19 (regWritten env k),
          fullAccesses env k 0 ++
            [PhyAccess.read k 0x19, PhyAccess.write k 0x19 (regWritten env k)])) ∧
    (∀ i, (regWritten env i).testBit 5 = true ∧
      ∀ b, b ≠ 5 →
        (regWritten env i).testBit b =
          ((env.omethPhyRead i 0x19).2 % USHORT_RANGE).testBit b) := by
  have hpre : ∀ m, phyCfgFrom env (k + m) 0 =
      ((phyCfgFrom env m k).1, fullAccesses env k 0 ++ (phyCfgFrom env m k).2) := by
    intro m
    have h := phyCfgFrom_ok env m k 0 (fun x _ hx => hok x (by omega))
    simpa using h
  refine ⟨fun hn => ?_, fun hlt hr => ?_, fun hlt hr hw => ?_, regWritten_bits env⟩
  · subst hn
    constructor
    · have h := hpre 0
      simpa [omethPhyCfgUser, phyCfgFrom] using h
    · rw [fullAccesses_range, List.range_eq_range']
  · obtain ⟨m, hm⟩ : ∃ m, n = k + (m + 1) := ⟨n - k - 1, by omega⟩
    rw [omethPhyCfgUser, hm, hpre (m + 1)]
    simp only [phyCfgFrom]
    rw [if_pos hr]
  · obtain ⟨m, hm⟩ : ∃ m, n = k + (m + 1) := ⟨n - k - 1, by omega⟩
    rw [omethPhyCfgUser, hm, hpre (m + 1)]
    simp only [phyCfgFrom]
    rw [if_neg (by simpa using hr), if_pos hw]

/-- C23 at a concrete driver: three PHYs, the first two answer and the read of the
third fails. -/
theorem C23_phy_configuration_witness :
    (2 = 3 →
      omethPhyCfgUser samplePhyEnv 3 = (0, fullAccesses samplePhyEnv 3 0) ∧
      fullAccesses samplePhyEnv 3 0 =
        (List.range 3).flatMap (fun i =>
          [PhyAccess.read i 0x19, PhyAccess.write i 0x19 (regWritten samplePhyEnv i)])) ∧
    (2 < 3 → (samplePhyEnv.omethPhyRead 2 0x19).1 ≠ 0 →
      omethPhyCfgUser samplePhyEnv 3 =
        ((samplePhyEnv.omethPhyRead 2 0x19).1,
          fullAccesses samplePhyEnv 2 0 ++ [PhyAccess.read 2 0x19])) ∧
    (2 < 3 → (samplePhyEnv.omethPhyRead 2 0x19).1 = 0 →
      samplePhyEnv.omethPhyWrite 2 0x19 (regWritten samplePhyEnv 2) ≠ 0 →
      omethPhyCfgUser samplePhyEnv 3 =
        (samplePhyEnv.omethPhyWrite 2 0x19 (regWritten samplePhyEnv 2),
          fullAccesses samplePhyEnv 2 0 ++
            [PhyAccess.read 2 0x19, PhyAccess.write 2 0x19 (regWritten samplePhyEnv 2)])) ∧
    (∀ i, (regWritten samplePhyEnv i).testBit 5 = true ∧
      ∀ b, b ≠ 5 →
        (regWritten samplePhyEnv i).testBit b =
          ((samplePhyEnv.omethPhyRead i 0x19).2 % USHORT_RANGE).testBit b) :=
  C23_phy_configuration samplePhyEnv 3 2 (by decide)
    (fun i hi => by
      have h : i = 0 ∨ i = 1 := by omega
      rcases h with h | h <;> subst h <;> exact ⟨rfl, rfl⟩)

/-- The callback evaluated on the sample driver: the registers of PHY 0 and PHY 1 are
rewritten as 0x8021 and 0x0020, and the code -1 of the failed read of PHY 2 is
returned. -/
theorem omethPhyCfgUser_sample :
    omethPhyCfgUser samplePhyEnv 3 =
      (-1, [PhyAccess.read 0 0x19, PhyAccess.write 0 0x19 0x8021, PhyAccess.read 1 0x19,
        PhyAccess.write 1 0x19 0x0020, PhyAccess.read 2 0x19]) := by
  decide

end EmcTestApp
